import Mathlib

/-!
Tap-FindNearBY: the place-aggregation pipeline.

A shallow embedding of the aggregation logic of `src/App.jsx` (`getUserLocation`) and of the
adapters and helpers of `src/data/mockData.js`.

JavaScript numbers are modelled by a linearly ordered field `α` (no NaN, exact arithmetic); the
pipeline definitions are generic in `α`, so that they can be evaluated over `ℚ` and instantiated
at `ℝ`, where the exact-arithmetic reading of `calculateDistance` lives.

The code computes distances in IEEE 754 doubles. The section on double precision embeds that
arithmetic (`IEEE.F64`, rounding to nearest with ties to even) and `calculateDistance` in it
(`IEEE.calculateDistance`); what the language leaves to the engine (`Math.sin`, `Math.cos`,
`Math.asin`, `Math.atan2`) is a parameter there.
-/

namespace TapFindNearBy

/-! ## Data model -/

/-- The object literal built by every adapter (`mockData.js` lines 62-75, 155-170, 227-241) and
by the test-marker branch of `App.jsx` (lines 73-99). A property that an adapter does not set is
`none`. -/
structure Place (α : Type) where
  id : String
  name : String
  type : String
  address : String
  latitude : α
  longitude : α
  distance : α
  phone : Option String := none
  rating : Option α := none
  isOpen : Option Bool := none
  website : Option String := none
  priceLevel : Option α := none
  photoReference : Option String := none
deriving DecidableEq

/-- The `location` object of `App.jsx` lines 31-35. -/
structure Location (α : Type) where
  latitude : α
  longitude : α
  accuracy : α

/-- The adapters that one run of the pipeline may call. -/
inductive Adapter where
  | osm
  | google
deriving DecidableEq, Repr

/-! ## Array helpers of JavaScript -/

/-- Scan of `Array.prototype.findIndex` from position `k` on: the index of the first element
satisfying `pred`, and `-1` when there is none. -/
def findIndexFrom {β : Type} (pred : β → Bool) : List β → Nat → Int
  | [], _ => -1
  | x :: xs, k => if pred x then (k : Int) else findIndexFrom pred xs (k + 1)

/-- `self.findIndex(pred)`. -/
def findIndex {β : Type} (pred : β → Bool) (self : List β) : Int :=
  findIndexFrom pred self 0

/-- Scan of `Array.prototype.filter` from position `k` on; the callback receives the element and
its index. -/
def filterFrom {β : Type} (pred : β → Nat → Bool) : List β → Nat → List β
  | [], _ => []
  | x :: xs, k =>
    if pred x k then x :: filterFrom pred xs (k + 1) else filterFrom pred xs (k + 1)

/-- `self.filter((element, index) => pred(element, index))`. -/
def filterWithIndex {β : Type} (pred : β → Nat → Bool) (self : List β) : List β :=
  filterFrom pred self 0

section Pipeline

variable {α : Type} [LinearOrderedField α]

/-! ## The aggregation pipeline of `getUserLocation` (`App.jsx` lines 49-104) -/

/-- The callback of `findIndex` on line 63:
`(p) => p.name === place.name && Math.abs(p.latitude - place.latitude) < 0.001`. -/
def samePlace (place p : Place α) : Bool :=
  decide (p.name = place.name) && decide (|p.latitude - place.latitude| < 0.001)

/-- Lines 61-64: `nearbyEssentials.filter((place, index, self) => index === self.findIndex(...))`. -/
def uniquePlaces (nearbyEssentials : List (Place α)) : List (Place α) :=
  filterWithIndex
    (fun place index => decide ((index : Int) = findIndex (samePlace place) nearbyEssentials))
    nearbyEssentials

/-- The comparator of line 66, `(a, b) => a.distance - b.distance`. -/
def compareDistance (a b : Place α) : α :=
  a.distance - b.distance

/-- The order induced by the comparator: `a` may stand before `b` when the comparator's value is
not positive. -/
def distanceOrder (a b : Place α) : Prop :=
  compareDistance a b ≤ 0

instance distanceOrderDecidable : DecidableRel (distanceOrder : Place α → Place α → Prop) :=
  fun a b => inferInstanceAs (Decidable (compareDistance a b ≤ 0))

/-- Line 66: `uniquePlaces.sort((a, b) => a.distance - b.distance)`. `Array.prototype.sort` is
stable, and for a consistent comparator the stable sorted arrangement is unique; insertion sort
computes it. -/
def sortByDistance (places : List (Place α)) : List (Place α) :=
  List.insertionSort distanceOrder places

/-- Lines 72-100: the three fixed test markers placed around the location. -/
def testData (location : Location α) : List (Place α) :=
  [ { id := "test_1", name := "Test Grocery Store", type := "grocery",
      latitude := location.latitude + 0.001, longitude := location.longitude + 0.001,
      distance := 0.1, address := "Test Address" },
    { id := "test_2", name := "Test Pharmacy", type := "pharmacy",
      latitude := location.latitude - 0.001, longitude := location.longitude + 0.001,
      distance := 0.15, address := "Test Address" },
    { id := "test_3", name := "Test Gas Station", type := "gas_station",
      latitude := location.latitude + 0.001, longitude := location.longitude - 0.001,
      distance := 0.2, address := "Test Address" } ]

/-- The values computed by one run of lines 49-104, with the adapters that were called. -/
structure Aggregation (α : Type) where
  calls : List Adapter
  nearbyEssentials : List (Place α)
  uniquePlaces : List (Place α)
  sortedPlaces : List (Place α)
  usedTestData : Bool
  essentials : List (Place α)

/-- Lines 51-58: the OSM adapter is called first; the commercial adapter is called, and its
result appended, only when the OSM result has fewer than 10 records. `osm` is what
`fetchNearbyPlacesOSM` returned and `googlePlaces` what `fetchNearbyPlaces` returns when called. -/
def gatherPlaces (osm googlePlaces : List (Place α)) : List Adapter × List (Place α) :=
  if osm.length < 10 then
    ([Adapter.osm, Adapter.google], osm ++ googlePlaces)
  else
    ([Adapter.osm], osm)

/-- Lines 49-104 of `getUserLocation`: gather, deduplicate, sort, and substitute the test
markers when nothing is left. `essentials` is the list handed to `setEssentials`. -/
def getUserLocation (location : Location α) (osm googlePlaces : List (Place α)) :
    Aggregation α :=
  let gathered := gatherPlaces osm googlePlaces
  let unique := uniquePlaces gathered.2
  let sorted := sortByDistance unique
  if sorted.length = 0 then
    { calls := gathered.1, nearbyEssentials := gathered.2, uniquePlaces := unique,
      sortedPlaces := sorted, usedTestData := true, essentials := testData location }
  else
    { calls := gathered.1, nearbyEssentials := gathered.2, uniquePlaces := unique,
      sortedPlaces := sorted, usedTestData := false, essentials := sorted }

end Pipeline

/-! ## Distance (`mockData.js` lines 31-41) -/

/-- `Math.atan2(y, x)` on real arguments, in exact arithmetic. -/
noncomputable def atan2 (y x : ℝ) : ℝ :=
  if 0 < x then Real.arctan (y / x)
  else if x < 0 then
    (if 0 ≤ y then Real.arctan (y / x) + Real.pi else Real.arctan (y / x) - Real.pi)
  else if 0 < y then Real.pi / 2
  else if y < 0 then -(Real.pi / 2)
  else 0

/-- The haversine intermediate `a` of lines 36-38, in exact real arithmetic (no rounding):
here `a` never leaves [0, 1], while the double computed by the code can exceed 1 by an ulp;
`IEEE.haversineA` is the computation in doubles. -/
noncomputable def haversineA (lat1 lon1 lat2 lon2 : ℝ) : ℝ :=
  let dLat := ((lat2 - lat1) * Real.pi) / 180
  let dLon := ((lon2 - lon1) * Real.pi) / 180
  Real.sin (dLat / 2) * Real.sin (dLat / 2) +
    Real.cos ((lat1 * Real.pi) / 180) * Real.cos ((lat2 * Real.pi) / 180) *
      Real.sin (dLon / 2) * Real.sin (dLon / 2)

/-- Lines 32-41: `calculateDistance(lat1, lon1, lat2, lon2)`, in exact real arithmetic (no
rounding, no NaN); `IEEE.calculateDistance` is the computation in doubles. -/
noncomputable def calculateDistance (lat1 lon1 lat2 lon2 : ℝ) : ℝ :=
  let R : ℝ := 6371
  let a := haversineA lat1 lon1 lat2 lon2
  let c := 2 * atan2 (Real.sqrt a) (Real.sqrt (1 - a))
  R * c

/-! ## JavaScript strings and truthiness -/

/-- The characters `String.prototype.trim` strips, the white space and line terminators of
ECMAScript: TAB, LF, VT, FF, CR, SPACE, NO-BREAK SPACE, the other space separators of Unicode
(U+1680, U+2000 to U+200A, U+202F, U+205F, U+3000), LS, PS and the byte order mark. -/
def isWhiteSpace (c : Char) : Bool :=
  [0x9, 0xA, 0xB, 0xC, 0xD, 0x20, 0xA0, 0x1680, 0x2028, 0x2029, 0x202F, 0x205F, 0x3000,
      0xFEFF].contains c.toNat ||
    (decide (0x2000 ≤ c.toNat) && decide (c.toNat ≤ 0x200A))

/-- `String.prototype.trim`: the string without its leading and trailing white space. -/
def trim (s : String) : String :=
  String.mk ((s.data.dropWhile isWhiteSpace).reverse.dropWhile isWhiteSpace).reverse

/-- `a || b` on optional strings: `undefined`, `null` and `""` are falsy. -/
def orString (a b : Option String) : Option String :=
  match a with
  | some s => if s = "" then b else some s
  | none => b

/-- `a || b` on optional numbers: `undefined`, `null` and `0` are falsy. -/
noncomputable def orNumber (a b : Option ℝ) : Option ℝ :=
  match a with
  | some x => if x = 0 then b else some x
  | none => b

/-- `!x` on an optional number. -/
noncomputable def falsyNumber (a : Option ℝ) : Bool :=
  match a with
  | some x => decide (x = 0)
  | none => true

/-! ## Place normalizer (`mockData.js` lines 5-29) -/

/-- Lines 6-12, in the insertion order that `Object.entries` follows. -/
def SERVICE_TYPE_MAPPING : List (String × List String) :=
  [ ("hospital", ["hospital", "doctor", "health", "clinic", "medical"]),
    ("atm", ["atm", "bank", "finance"]),
    ("grocery", ["grocery_or_supermarket", "supermarket", "food", "convenience_store"]),
    ("pharmacy", ["pharmacy", "drugstore", "health"]),
    ("gas_station", ["gas_station", "fuel", "petrol"]) ]

/-- Lines 15-29: `convertPlaceType(googleTypes)`. -/
def convertPlaceType (googleTypes : List String) : String :=
  match SERVICE_TYPE_MAPPING.find?
      (fun entry => googleTypes.any (fun type => entry.2.contains type)) with
  | some entry => entry.1
  | none =>
    if googleTypes.contains "bank" then "atm"
    else if googleTypes.contains "convenience_store" then "grocery"
    else if googleTypes.contains "health" then "pharmacy"
    else "other"

/-! ## Fallback generator (`mockData.js` lines 185-246)

`rand n` is the value of the `n`-th call of `Math.random()` made by one call of
`getFallbackData`. -/

/-- Lines 186-211: `generateNearbyCoordinate(baseLat, baseLng, maxDistanceKm)`, in exact real
arithmetic (no rounding); `r1` and `r2` are the two random draws, in the order in which they
are made. -/
noncomputable def generateNearbyCoordinate (baseLat baseLng maxDistanceKm r1 r2 : ℝ) : ℝ × ℝ :=
  let earthRadius : ℝ := 6371
  let maxDistance := maxDistanceKm / earthRadius
  let randomDistance := r1 * maxDistance
  let randomBearing := r2 * 2 * Real.pi
  let lat :=
    (Real.arcsin
        (Real.sin ((baseLat * Real.pi) / 180) * Real.cos randomDistance +
          Real.cos ((baseLat * Real.pi) / 180) * Real.sin randomDistance *
            Real.cos randomBearing) *
      180) / Real.pi
  let lng :=
    (((baseLng * Real.pi) / 180 +
        atan2
          (Real.sin randomBearing * Real.sin randomDistance * Real.cos ((baseLat * Real.pi) / 180))
          (Real.cos randomDistance -
            Real.sin ((baseLat * Real.pi) / 180) * Real.sin ((lat * Real.pi) / 180))) *
      180) / Real.pi
  (lat, lng)

/-- An entry of `placeTypes`, lines 214-220. -/
structure PlaceType where
  type : String
  names : List String

/-- Lines 214-220. -/
def placeTypes : List PlaceType :=
  [ { type := "hospital",
      names := ["General Hospital", "Medical Center", "Urgent Care", "Emergency Clinic"] },
    { type := "atm", names := ["Bank ATM", "Credit Union ATM", "Cash Point", "Money Center"] },
    { type := "grocery",
      names := ["Supermarket", "Grocery Store", "Food Market", "Corner Store"] },
    { type := "pharmacy",
      names := ["Pharmacy", "Drugstore", "Medical Supplies", "Health Store"] },
    { type := "gas_station",
      names := ["Gas Station", "Fuel Stop", "Service Station", "Petrol Station"] } ]

/-- Line 229: the name of the `i`-th record of a category. -/
def fallbackName (category : PlaceType) (i : Nat) : String :=
  (category.names.getD (i % category.names.length) "undefined") ++ " " ++ toString (i + 1)

/-- Lines 224-241: the record pushed in one iteration of the inner loop, with the number of the
next unused random draw. The draws are made in source order: distance, bearing, address, the two
phone blocks (unless the category is `atm`), rating, open flag. -/
noncomputable def fallbackPlace (userLat userLng : ℝ) (rand : Nat → ℝ) (n categoryIndex : Nat)
    (category : PlaceType) (i : Nat) : Place ℝ × Nat :=
  let coords := generateNearbyCoordinate userLat userLng 5 (rand n) (rand (n + 1))
  let distance := calculateDistance userLat userLng coords.1 coords.2
  let address := toString (⌊rand (n + 2) * 9999⌋ + 1) ++ " Local Street, Your Area"
  let phone : Option String :=
    if category.type ≠ "atm" then
      some ("+1 (555) " ++ toString (⌊rand (n + 3) * 900⌋ + 100) ++ "-" ++
        toString (⌊rand (n + 4) * 9000⌋ + 1000))
    else none
  let m := if category.type ≠ "atm" then n + 5 else n + 3
  ({ id := "fallback_" ++ toString categoryIndex ++ "_" ++ toString i,
     name := fallbackName category i,
     type := category.type,
     address := address,
     latitude := coords.1,
     longitude := coords.2,
     distance := distance,
     phone := phone,
     rating := some ((⌊(rand m * 2 + 3) * 10 + 1 / 2⌋ : ℝ) / 10),
     isOpen := some (decide (rand (m + 1) > 0.2)) },
   m + 2)

/-- The iterations of lines 222-223 in execution order: category index, category, `i`. -/
def fallbackIterations : List (Nat × PlaceType × Nat) :=
  placeTypes.enum.flatMap (fun entry => (List.range 4).map (fun i => (entry.1, entry.2, i)))

/-- Lines 222-243: the records pushed onto `fallbackPlaces`, starting with random draw `n`. -/
noncomputable def fallbackLoop (userLat userLng : ℝ) (rand : Nat → ℝ) :
    List (Nat × PlaceType × Nat) → Nat → List (Place ℝ)
  | [], _ => []
  | (categoryIndex, category, i) :: rest, n =>
    let step := fallbackPlace userLat userLng rand n categoryIndex category i
    step.1 :: fallbackLoop userLat userLng rand rest step.2

/-- Lines 185-246: `getFallbackData(userLat, userLng)`. -/
noncomputable def getFallbackData (userLat userLng : ℝ) (rand : Nat → ℝ) : List (Place ℝ) :=
  sortByDistance (fallbackLoop userLat userLng rand fallbackIterations 0)

/-! ## Commercial adapter (`mockData.js` lines 1-3 and 43-91) -/

/-- Line 2: `import.meta.env.VITE_GOOGLE_PLACES_API_KEY || "YOUR_API_KEY_HERE"`. -/
def GOOGLE_PLACES_API_KEY (env : Option String) : String :=
  (orString env (some "YOUR_API_KEY_HERE")).getD "YOUR_API_KEY_HERE"

/-- Line 45, negated: the key is present and is not the placeholder. -/
def keyConfigured (env : Option String) : Bool :=
  !(decide (GOOGLE_PLACES_API_KEY env = "") ||
    decide (GOOGLE_PLACES_API_KEY env = "YOUR_API_KEY_HERE"))

/-- An entry of `data.results` in a response of the commercial provider, with the properties
that lines 62-75 read. `geometry` is `geometry.location.(lat, lng)`, `opening_hours` is
`opening_hours?.open_now`, `photos` is `photos?.[0]?.photo_reference`. -/
structure GooglePlace where
  place_id : Option String
  name : String
  types : Option (List String)
  vicinity : Option String
  formatted_address : Option String
  geometry : Option (ℝ × ℝ)
  rating : Option ℝ
  opening_hours : Option Bool
  price_level : Option ℝ
  photos : Option String

/-- What one `fetch` followed by `response.json()` yields (lines 58-59): an exception, or a body
with its `status` and `results`. -/
inductive PlacesResponse where
  | failure
  | data (status : String) (results : Option (List GooglePlace))

/-- Lines 62-75: the callback of `map`. `none` stands for the `TypeError` raised when `types` or
`geometry` is missing. -/
noncomputable def googlePlaceToPlace (latitude longitude : ℝ) (type : String)
    (place : GooglePlace) (index : Nat) : Option (Place ℝ) :=
  match place.types, place.geometry with
  | some types, some location =>
    some
      { id := type ++ "_" ++ (orString place.place_id (some (toString index))).getD "",
        name := place.name,
        type := convertPlaceType types,
        address :=
          (orString (orString place.vicinity place.formatted_address)
            (some "Address not available")).getD "",
        latitude := location.1,
        longitude := location.2,
        distance := calculateDistance latitude longitude location.1 location.2,
        rating := orNumber place.rating none,
        isOpen := place.opening_hours,
        phone := none,
        priceLevel := orNumber place.price_level none,
        photoReference := orString place.photos none }
  | _, _ => none

/-- `results.slice(0, 10).map(callback)`, where the callback may raise. -/
noncomputable def mapGooglePlaces (latitude longitude : ℝ) (type : String)
    (results : List GooglePlace) : Option (List (Place ℝ)) :=
  ((results.take 10).enum).mapM
    (fun entry => googlePlaceToPlace latitude longitude type entry.2 entry.1)

/-- Line 52. -/
def searchTypes : List String :=
  ["hospital", "atm", "supermarket", "pharmacy", "gas_station"]

/-- Lines 55-79: the loop over the search types not yet queried. `fetch type` is the outcome of
the request for `type`. Returns the search types requested so far and `allPlaces`, or `none`
in its place when an exception was raised. -/
noncomputable def fetchLoop (latitude longitude : ℝ) (fetch : String → PlacesResponse) :
    List String → List String → List (Place ℝ) → List String × Option (List (Place ℝ))
  | [], requested, allPlaces => (requested, some allPlaces)
  | type :: rest, requested, allPlaces =>
    match fetch type with
    | PlacesResponse.failure => (requested ++ [type], none)
    | PlacesResponse.data status results =>
      if status = "OK" then
        match results with
        | some places =>
          match mapGooglePlaces latitude longitude type places with
          | some mapped =>
            fetchLoop latitude longitude fetch rest (requested ++ [type]) (allPlaces ++ mapped)
          | none => (requested ++ [type], none)
        | none => fetchLoop latitude longitude fetch rest (requested ++ [type]) allPlaces
      else fetchLoop latitude longitude fetch rest (requested ++ [type]) allPlaces

/-- The callback of `findIndex` on line 83:
`(p) => p.name === place.name && p.address === place.address`. -/
def sameNameAddress {α : Type} (place p : Place α) : Bool :=
  decide (p.name = place.name) && decide (p.address = place.address)

/-- What a call of an adapter did: the network requests it issued and the list it returned. -/
structure AdapterRun where
  requests : List String
  result : List (Place ℝ)

/-- Lines 44-91: `fetchNearbyPlaces(latitude, longitude)`. `env` is the configured key,
`fetch` the outcome of each request, `rand` the random draws. -/
noncomputable def fetchNearbyPlaces (env : Option String) (latitude longitude : ℝ)
    (fetch : String → PlacesResponse) (rand : Nat → ℝ) : AdapterRun :=
  if keyConfigured env = false then
    { requests := [], result := getFallbackData latitude longitude rand }
  else
    match fetchLoop latitude longitude fetch searchTypes [] [] with
    | (requested, some allPlaces) =>
      { requests := requested,
        result := sortByDistance
          (filterWithIndex
            (fun place index =>
              decide ((index : Int) = findIndex (sameNameAddress place) allPlaces))
            allPlaces) }
    | (requested, none) =>
      { requests := requested, result := getFallbackData latitude longitude rand }

/-! ## OSM adapter (`mockData.js` lines 93-182) -/

/-- The `center` of an Overpass element. -/
structure OsmCenter where
  lat : Option ℝ
  lon : Option ℝ

/-- The tags of an Overpass element that lines 129-169 read. -/
structure OsmTags where
  amenity : Option String
  shop : Option String
  name : Option String
  addrFull : Option String
  addrHousenumber : Option String
  addrStreet : Option String
  phone : Option String
  opening_hours : Option String
  website : Option String

/-- An entry of `data.elements`. -/
structure OsmElement where
  id : Option Nat
  lat : Option ℝ
  lon : Option ℝ
  center : Option OsmCenter
  tags : Option OsmTags

/-- What the `fetch` of lines 111-119 followed by `response.json()` yields: an exception, or a
body with its `elements`. -/
inductive OverpassResponse where
  | failure
  | data (elements : Option (List OsmElement))

/-- Lines 130-153: the `switch` on the amenity. -/
def osmType (amenity : Option String) : String :=
  match amenity with
  | some "hospital" => "hospital"
  | some "clinic" => "hospital"
  | some "doctors" => "hospital"
  | some "pharmacy" => "pharmacy"
  | some "bank" => "atm"
  | some "atm" => "atm"
  | some "fuel" => "gas_station"
  | some "supermarket" => "grocery"
  | some "convenience" => "grocery"
  | some "grocery" => "grocery"
  | _ => "other"

/-- Lines 123-171: the callback of `map`; `none` is the `null` returned on line 127. -/
noncomputable def osmElementToPlace (latitude longitude : ℝ) (element : OsmElement)
    (index : Nat) : Option (Place ℝ) :=
  let lat := orNumber element.lat (element.center.bind (fun c => c.lat))
  let lon := orNumber element.lon (element.center.bind (fun c => c.lon))
  if falsyNumber lat || falsyNumber lon then none
  else
    let tag := fun (f : OsmTags → Option String) => element.tags.bind f
    let amenity := orString (tag (fun t => t.amenity)) (tag (fun t => t.shop))
    let type := osmType amenity
    some
      { id := "osm_" ++
          toString (match element.id with
            | some k => if k = 0 then index else k
            | none => index),
        name := (orString (tag (fun t => t.name))
          (some (type.capitalize ++ " Service"))).getD "",
        type := type,
        address :=
          (orString
            (orString (tag (fun t => t.addrFull))
              (some (trim ((orString (tag (fun t => t.addrHousenumber)) (some "")).getD "" ++
                " " ++ (orString (tag (fun t => t.addrStreet)) (some "")).getD ""))))
            (some "Address not available")).getD "",
        latitude := lat.getD 0,
        longitude := lon.getD 0,
        distance := calculateDistance latitude longitude (lat.getD 0) (lon.getD 0),
        phone := orString (tag (fun t => t.phone)) none,
        rating := none,
        isOpen := none,
        website := orString (tag (fun t => t.website)) none }

/-- Lines 94-182: `fetchNearbyPlacesOSM(latitude, longitude)`. `response` is the outcome of the
single request, `rand` the random draws. -/
noncomputable def fetchNearbyPlacesOSM (latitude longitude : ℝ) (response : OverpassResponse)
    (rand : Nat → ℝ) : AdapterRun :=
  match response with
  | OverpassResponse.data (some elements) =>
    { requests := ["overpass"],
      result := (sortByDistance
        (elements.enum.filterMap
          (fun entry => osmElementToPlace latitude longitude entry.2 entry.1))).take 50 }
  | OverpassResponse.data none =>
    { requests := ["overpass"], result := getFallbackData latitude longitude rand }
  | OverpassResponse.failure =>
    { requests := ["overpass"], result := getFallbackData latitude longitude rand }

/-! ## Definitions used to state the properties of the dedup step -/

section DedupSpec

variable {α : Type} [LinearOrderedField α]

/-- Recursive form of the dedup step: `seen` holds the records already passed, and a record is
kept when none of them matches it. Used in proofs; `uniquePlaces` is the embedding of the code. -/
def dedupAfter (seen : List (Place α)) : List (Place α) → List (Place α)
  | [] => []
  | x :: xs =>
    if seen.any (samePlace x) then dedupAfter (seen ++ [x]) xs
    else x :: dedupAfter (seen ++ [x]) xs

/-- Wording of the specification: no record at a position before `i` has the same name as the
record at position `i` and a latitude within 0.001 of it. -/
def noEarlierMatch (l : List (Place α)) (i : Nat) : Prop :=
  ∀ j < i, ∀ a ∈ l[j]?, ∀ b ∈ l[i]?, ¬ (a.name = b.name ∧ |a.latitude - b.latitude| < 0.001)

instance noEarlierMatchDecidable (l : List (Place α)) (i : Nat) :
    Decidable (noEarlierMatch l i) := by
  unfold noEarlierMatch; infer_instance

/-- Wording of the specification: the records at the positions without an earlier match, in
sequence order (first occurrence wins, later duplicates are dropped). -/
def firstOccurrences (l : List (Place α)) : List (Place α) :=
  ((l.enum).filter (fun ix => decide (noEarlierMatch l ix.1))).map Prod.snd

/-- The relation that the dedup step enforces between any two records it keeps. -/
def Distinguishable (a b : Place α) : Prop :=
  ¬ (a.name = b.name ∧ |a.latitude - b.latitude| < 0.001)

end DedupSpec

/-! ## Sample data over `ℚ` -/

/-- A place with the given name, latitude and distance; the other properties are fixed. -/
def mkPlace (id name : String) (latitude distance : ℚ) : Place ℚ :=
  { id := id, name := name, type := "other", address := "Address not available",
    latitude := latitude, longitude := -74, distance := distance }

/-- The origin of the worked example of the specification. -/
def sampleLocation : Location ℚ :=
  { latitude := 40, longitude := -74, accuracy := 10 }

/-- Three OSM records. -/
def sampleOsm : List (Place ℚ) :=
  [ mkPlace "osm_1" "City Hospital" (40 + 1/100) 3,
    mkPlace "osm_2" "Corner Bank" (40 + 2/100) 1,
    mkPlace "osm_3" "Fuel Stop" (40 - 1/100) 2 ]

/-- Four commercial records; the second one repeats the OSM record "Corner Bank". -/
def sampleGoogle : List (Place ℚ) :=
  [ mkPlace "hospital_a" "St Mary" (40 + 3/100) (5/2),
    mkPlace "atm_b" "Corner Bank" (40 + 2/100 + 1/2000) (11/10),
    mkPlace "pharmacy_c" "Drug Mart" (40 + 4/100) (1/2),
    mkPlace "gas_station_d" "Fuel Stop" (40 + 5/100) 4 ]


/-- Ten OSM records: enough for the commercial adapter not to be called. -/
def sampleOsmTen : List (Place ℚ) :=
  (List.range 10).map (fun k => mkPlace "osm_7" "Clinic" (40 + (k : ℚ) / 100) (k : ℚ))

/-- The origin of the worked example, over `ℝ`. -/
def realLocation : Location ℝ :=
  { latitude := 40, longitude := -74, accuracy := 10 }

/-- An Overpass element with a direct coordinate and a name. -/
def sampleElement : OsmElement :=
  { id := some 7, lat := some 40.01, lon := some (-74), center := none,
    tags := some
      { amenity := some "hospital", shop := none, name := some "City Hospital",
        addrFull := none, addrHousenumber := none, addrStreet := none, phone := none,
        opening_hours := none, website := none } }

/-- The record that the OSM adapter builds from `sampleElement` for the origin (40, -74). -/
noncomputable def sampleOsmRecord : Place ℝ :=
  { id := "osm_7", name := "City Hospital", type := "hospital",
    address := "Address not available", latitude := 40.01, longitude := -74,
    distance := calculateDistance 40 (-74) 40.01 (-74) }

/-! ## Definitions used to state the distance, normalizer and adapter properties -/

/-- Wording of the specification: the haversine great-circle distance with Earth radius 6371,
for coordinates in degrees. -/
noncomputable def haversineDistance (lat1 lon1 lat2 lon2 : ℝ) : ℝ :=
  let φ1 := lat1 * Real.pi / 180
  let φ2 := lat2 * Real.pi / 180
  let dφ := (lat2 - lat1) * Real.pi / 180
  let dl := (lon2 - lon1) * Real.pi / 180
  let a := Real.sin (dφ / 2) ^ 2 + Real.cos φ1 * Real.cos φ2 * Real.sin (dl / 2) ^ 2
  2 * 6371 * Real.arcsin (Real.sqrt a)

/-- Wording of the specification: a family matches when its token list contains at least one
token of the input. -/
def familyMatches (family : String × List String) (googleTypes : List String) : Prop :=
  ∃ type ∈ googleTypes, type ∈ family.2

instance familyMatchesDecidable (family : String × List String) (googleTypes : List String) :
    Decidable (familyMatches family googleTypes) := by
  unfold familyMatches; infer_instance

/-- The records built from the elements that are not dropped (lines 122-172), in element
order, before sorting and capping. -/
noncomputable def parsedPlaces (latitude longitude : ℝ) (elements : List OsmElement) :
    List (Place ℝ) :=
  elements.enum.filterMap (fun entry => osmElementToPlace latitude longitude entry.2 entry.1)

/-- An Overpass node on the equator: direct coordinate (0, 5), no `center`. -/
def equatorElement : OsmElement :=
  { id := some 9, lat := some 0, lon := some 5, center := none,
    tags := some
      { amenity := some "hospital", shop := none, name := some "Equator Clinic",
        addrFull := none, addrHousenumber := none, addrStreet := none, phone := none,
        opening_hours := none, website := none } }

/-- One complete run of lines 51-104: the OSM adapter and the commercial adapter are the
functions of `mockData.js`, called with the coordinates of `location`. `overpass` and `fetch`
are the outcomes of the network requests, `env` the configured key, `randOsm` and `randGoogle`
the random draws available to each adapter. -/
noncomputable def aggregationRun (location : Location ℝ) (overpass : OverpassResponse)
    (env : Option String) (fetch : String → PlacesResponse) (randOsm randGoogle : Nat → ℝ) :
    Aggregation ℝ :=
  getUserLocation location
    (fetchNearbyPlacesOSM location.latitude location.longitude overpass randOsm).result
    (fetchNearbyPlaces env location.latitude location.longitude fetch randGoogle).result

/-- The distance of a record is the computed distance from the origin. -/
def DistanceComputed (latitude longitude : ℝ) (p : Place ℝ) : Prop :=
  p.distance = calculateDistance latitude longitude p.latitude p.longitude

/-- A response of the commercial provider without results. -/
def zeroResults : String → PlacesResponse :=
  fun _ => PlacesResponse.data "ZERO_RESULTS" none

/-- The records that the query for one search type contributes to `allPlaces` (lines 61-77):
the first 10 results, converted, when the status is `OK` and `results` is present. -/
noncomputable def typePlaces (latitude longitude : ℝ) (fetch : String → PlacesResponse)
    (type : String) : List (Place ℝ) :=
  match fetch type with
  | PlacesResponse.data status (some results) =>
    if status = "OK" then (mapGooglePlaces latitude longitude type results).getD [] else []
  | _ => []

/-- The records of the given search types, in query order. -/
noncomputable def collectedPlaces (latitude longitude : ℝ) (fetch : String → PlacesResponse)
    (types : List String) : List (Place ℝ) :=
  types.flatMap (typePlaces latitude longitude fetch)

/-- Lines 82-84: the dedup by name and address of `fetchNearbyPlaces`. -/
def uniqueByNameAddress {α : Type} (allPlaces : List (Place α)) : List (Place α) :=
  filterWithIndex
    (fun place index => decide ((index : Int) = findIndex (sameNameAddress place) allPlaces))
    allPlaces

/-- Recursive form of a first-occurrence dedup for an arbitrary match test `m`: `seen` holds
the elements already passed, and an element is kept when none of them matches it. Used in
proofs. -/
def dedupBy {β : Type} (m : β → β → Bool) (seen : List β) : List β → List β
  | [] => []
  | x :: xs =>
    if seen.any (m x) then dedupBy m (seen ++ [x]) xs
    else x :: dedupBy m (seen ++ [x]) xs

/-- A result of the commercial provider with the given name, address and place id, located at
(40.02, -74). -/
def sampleGooglePlace (placeId name vicinity : String) : GooglePlace :=
  { place_id := some placeId, name := name, types := some ["hospital"],
    vicinity := some vicinity, formatted_address := none, geometry := some (40.02, -74),
    rating := none, opening_hours := none, price_level := none, photos := none }

/-- Responses of the commercial provider in which the `hospital` query and the `pharmacy`
query both return "City Clinic, 1 Main St". -/
def sampleFetch : String → PlacesResponse :=
  fun type =>
    if type = "hospital" then
      PlacesResponse.data "OK" (some [sampleGooglePlace "a" "City Clinic" "1 Main St"])
    else if type = "pharmacy" then
      PlacesResponse.data "OK"
        (some [sampleGooglePlace "a" "City Clinic" "1 Main St",
          sampleGooglePlace "b" "Drug Mart" "2 Main St"])
    else PlacesResponse.data "ZERO_RESULTS" none

/-- The record that `fetchNearbyPlaces` builds for a sample result at the origin (40, -74). -/
noncomputable def sampleGoogleRecord (id name address : String) : Place ℝ :=
  { id := id, name := name, type := "hospital", address := address,
    latitude := 40.02, longitude := -74,
    distance := calculateDistance 40 (-74) 40.02 (-74) }

/-! ## Reverse geocoder (`lib/geocoding.js`) -/

/-- JavaScript truthiness of an optional string: `undefined`, `null` and `""` are falsy. -/
def truthyString (a : Option String) : Bool :=
  match a with
  | some s => decide (s ≠ "")
  | none => false

/-- The `address` object of a response of the free provider, with the properties that lines
32-56 read. -/
structure NominatimAddress where
  house_number : Option String
  road : Option String
  neighbourhood : Option String
  suburb : Option String
  city : Option String
  town : Option String
  village : Option String
  state : Option String
  country : Option String

/-- The body of a response of the free provider. -/
structure NominatimData where
  display_name : Option String
  address : Option NominatimAddress

/-- What lines 11-24 yield: an exception raised by `fetch` or `response.json()`, a response
that is not `ok`, or the parsed body (`none` is `null`). -/
inductive NominatimResponse where
  | failure
  | notOk
  | body (data : Option NominatimData)

/-- The object `{}` of line 28. -/
def emptyAddress : NominatimAddress :=
  { house_number := none, road := none, neighbourhood := none, suburb := none, city := none,
    town := none, village := none, state := none, country := none }

/-- Lines 29-56: the `parts` array. -/
def addressParts (address : NominatimAddress) : List String :=
  (if truthyString address.house_number && truthyString address.road then
      [address.house_number.getD "" ++ " " ++ address.road.getD ""]
    else if truthyString address.road then [address.road.getD ""]
    else []) ++
  (if truthyString (orString address.neighbourhood address.suburb) then
      [(orString address.neighbourhood address.suburb).getD ""]
    else []) ++
  (if truthyString (orString (orString address.city address.town) address.village) then
      [(orString (orString address.city address.town) address.village).getD ""]
    else []) ++
  (if truthyString address.state then [address.state.getD ""] else []) ++
  (if truthyString address.country then [address.country.getD ""] else [])

/-- Lines 9-66: `getAddressFromCoordinatesOSM`; `Except.error` carries the message of the
exception that the function raises. -/
def getAddressFromCoordinatesOSM (response : NominatimResponse) : Except String String :=
  match response with
  | NominatimResponse.failure => Except.error "fetch failed"
  | NominatimResponse.notOk => Except.error "Failed to fetch address from OSM"
  | NominatimResponse.body none => Except.error "No address found"
  | NominatimResponse.body (some data) =>
    if truthyString data.display_name then
      let address := data.address.getD emptyAddress
      let parts := addressParts address
      if parts.length > 0 then Except.ok (", ".intercalate parts)
      else Except.ok (data.display_name.getD "")
    else Except.error "No address found"

/-- An entry of `data.results` in a response of the commercial geocoding provider. -/
structure GeocodeResult where
  formatted_address : Option String

/-- What lines 82-90 yield: an exception raised by `fetch` or `response.json()`, a response
that is not `ok`, or the parsed body with its `status` and `results`. -/
inductive GeocodeResponse where
  | failure
  | notOk
  | body (status : String) (results : Option (List GeocodeResult))

/-- Lines 74-101: `getAddressFromCoordinatesGoogle`; `apiKey` is
`import.meta.env.VITE_GOOGLE_GEOCODING_API_KEY`. The value returned is
`data.results[0].formatted_address`, which is `none` when that property is missing. -/
def getAddressFromCoordinatesGoogle (apiKey : Option String) (response : GeocodeResponse) :
    Except String (Option String) :=
  if truthyString apiKey = false then Except.error "Google Geocoding API key not configured"
  else
    match response with
    | GeocodeResponse.failure => Except.error "fetch failed"
    | GeocodeResponse.notOk => Except.error "Failed to fetch address from Google"
    | GeocodeResponse.body status (some (first :: _)) =>
      if status = "OK" then Except.ok first.formatted_address
      else Except.error "No address found"
    | GeocodeResponse.body _ _ => Except.error "No address found"

/-- The digits of `n`, padded with zeros on the left to four characters. -/
def padFour (n : Nat) : String :=
  String.mk (List.replicate (4 - (toString n).length) '0') ++ toString n

/-- `x.toFixed(4)` for a number of magnitude below 10^21: the sign, then the integer nearest to
`|x|·10^4` (the larger one on a tie) written with four decimals. A finite JavaScript number is
a rational, so `ℚ` holds its exact value. -/
def toFixed4 (x : ℚ) : String :=
  let n : Nat := (⌊|x| * 10000 + 1 / 2⌋).toNat
  (if x < 0 then "-" else "") ++ toString (n / 10000) ++ "." ++ padFour (n % 10000)

/-- Lines 109-128: `getAddressFromCoordinates(lat, lng)`. `osm` and `google` are the outcomes
of the two requests, `apiKey` the configured geocoding key. The result is the JavaScript value
returned: a string, or `none` for `undefined`. -/
def getAddressFromCoordinates (lat lng : ℚ) (osm : NominatimResponse) (apiKey : Option String)
    (google : GeocodeResponse) : Option String :=
  match getAddressFromCoordinatesOSM osm with
  | Except.ok address => some address
  | Except.error _ =>
    match getAddressFromCoordinatesGoogle apiKey google with
    | Except.ok address => address
    | Except.error _ => some (toFixed4 lat ++ ", " ++ toFixed4 lng)

/-! ## Definitions used to state the properties of the reverse geocoder and of the output -/

/-- Wording of the specification: a component is present when it is a non-empty string. -/
def present (a : Option String) : Option String :=
  if truthyString a then a else none

/-- Wording of the specification: the first present one of the alternatives ("a else b"). -/
def firstPresent : List (Option String) → Option String
  | [] => none
  | a :: rest => if truthyString a then a else firstPresent rest

/-- Wording of the specification: the street component is "house_number road", or the road
alone when there is no house number; there is none without a road. -/
def streetComponent (address : NominatimAddress) : Option String :=
  if truthyString address.road then
    (if truthyString address.house_number then
      some (address.house_number.getD "" ++ " " ++ address.road.getD "")
    else address.road)
  else none

/-- Wording of the specification: the components in their fixed order: street, neighbourhood
else suburb, city else town else village, state, country. -/
def addressComponents (address : NominatimAddress) : List (Option String) :=
  [ streetComponent address,
    firstPresent [address.neighbourhood, address.suburb],
    firstPresent [address.city, address.town, address.village],
    present address.state,
    present address.country ]

/-- Wording of the specification: the ", "-join of the present components, and the display name
when no component is present. -/
def formattedAddress (displayName : String) (address : NominatimAddress) : String :=
  if (addressComponents address).filterMap id = [] then displayName
  else ", ".intercalate ((addressComponents address).filterMap id)

/-- A response of the free provider for a house in a suburb. -/
def sampleNominatimData : NominatimData :=
  { display_name := some "12, Main Street, Soho, London, Greater London, England, UK",
    address := some
      { house_number := some "12", road := some "Main Street", neighbourhood := none,
        suburb := some "Soho", city := some "London", town := none, village := none,
        state := some "England", country := some "UK" } }

/-- A response of the free provider that carries a house number but no other component. -/
def bareNominatimData : NominatimData :=
  { display_name := some "12, somewhere",
    address := some
      { house_number := some "12", road := none, neighbourhood := none, suburb := none,
        city := none, town := none, village := none, state := none, country := none } }

/-- Three records of one name whose latitudes are 0.0008 apart: each matches its neighbour,
the first and the last do not match. -/
def chainPlaces : List (Place ℚ) :=
  [ mkPlace "osm_1" "Clinic" 40 1,
    mkPlace "osm_2" "Clinic" (40 + 8 / 10000) 2,
    mkPlace "osm_3" "Clinic" (40 + 16 / 10000) 3 ]

/-- An Overpass way with the same numeric id as the node `sampleElement` (OSM numbers nodes,
ways and relations separately); it carries a `center` and no direct coordinate. -/
def sampleWay : OsmElement :=
  { id := some 7, lat := none, lon := none,
    center := some { lat := some 40.02, lon := some (-74) },
    tags := some
      { amenity := some "pharmacy", shop := none, name := some "Corner Pharmacy",
        addrFull := none, addrHousenumber := none, addrStreet := none, phone := none,
        opening_hours := none, website := none } }

/-- The record that the OSM adapter builds from `sampleWay` for the origin (40, -74). -/
noncomputable def sampleWayRecord : Place ℝ :=
  { id := "osm_7", name := "Corner Pharmacy", type := "pharmacy",
    address := "Address not available", latitude := 40.02, longitude := -74,
    distance := calculateDistance 40 (-74) 40.02 (-74) }

/-- The first character of an id; the prefixes `osm_`, `hospital_`, `atm_`, `supermarket_`,
`pharmacy_`, `gas_station_`, `fallback_` and `test_` differ in it. -/
def idHead (id : String) : Option Char :=
  id.data.head?

/-- The id of a record is not empty and starts like one of the provider prefixes. -/
def ProviderId (p : Place ℝ) : Prop :=
  p.id ≠ "" ∧
    (idHead p.id = idHead "osm_" ∨ (∃ type ∈ searchTypes, idHead p.id = idHead type) ∨
      idHead p.id = idHead "fallback_" ∨ idHead p.id = idHead "test_")

/-! ## IEEE 754 double precision: the arithmetic the distance code runs in

The definitions above read JavaScript numbers as real numbers. The code computes in binary64
with rounding to nearest, ties to even; this section embeds that arithmetic, so that
`calculateDistance` can be evaluated as the code evaluates it. -/

namespace IEEE

/-- A JavaScript Number. `fin neg m e` is the double `(-1)^neg · m · 2^e`, kept in the one form
with `m < 2^53`, `-1074 ≤ e ≤ 971` and `2^52 ≤ m` unless `e = -1074`; `fin false 0 (-1074)` is
`+0` and `fin true 0 (-1074)` is `-0`. -/
inductive F64 where
  | nan : F64
  | inf (neg : Bool) : F64
  | fin (neg : Bool) (m : Nat) (e : Int) : F64
deriving DecidableEq

/-- Number of binary digits of `n`, by halving at most `fuel` times. -/
def bitLengthAux : Nat → Nat → Nat
  | 0, _ => 0
  | fuel + 1, n => if n = 0 then 0 else bitLengthAux fuel (n / 2) + 1

/-- Number of binary digits of `n`. -/
def bitLength (n : Nat) : Nat :=
  bitLengthAux n n

/-- The digits of the integer square root below the one of weight `2^bit`: `r` is the root
found so far. -/
def isqrtAux (n : Nat) : Nat → Nat → Nat
  | 0, r => r
  | bit + 1, r =>
    if (r + 2 ^ bit) * (r + 2 ^ bit) ≤ n then isqrtAux n bit (r + 2 ^ bit) else isqrtAux n bit r

/-- The integer square root: the largest `r` with `r * r ≤ n`. -/
def isqrt (n : Nat) : Nat :=
  isqrtAux n (bitLength n) 0

/-- The double nearest to `(-1)^neg · m · 2^e`, ties to the even significand; values of
magnitude `2^1024` or more round to an infinity. -/
def roundDyadic (neg : Bool) (m : Nat) (e : Int) : F64 :=
  if m = 0 then F64.fin neg 0 (-1074)
  else
    let e1 : Int := max (e + (bitLength m : Int) - 53) (-1074)
    if e1 ≤ e then
      if 971 < e1 then F64.inf neg else F64.fin neg (m * 2 ^ (e - e1).toNat) e1
    else
      let shift := (e1 - e).toNat
      let q := m / 2 ^ shift
      let r := m % 2 ^ shift
      let half := 2 ^ (shift - 1)
      let q1 := if half < r ∨ (r = half ∧ q % 2 = 1) then q + 1 else q
      let m2 := if q1 = 2 ^ 53 then 2 ^ 52 else q1
      let e2 := if q1 = 2 ^ 53 then e1 + 1 else e1
      if 971 < e2 then F64.inf neg else F64.fin neg m2 e2

/-- The double nearest to `(-1)^neg · (n / d) · 2^x`, for `d > 0`: the quotient is taken to 56
or more binary digits and one more digit records whether a remainder was left. -/
def roundQuotient (neg : Bool) (n d : Nat) (x : Int) : F64 :=
  let k := 56 + bitLength d - bitLength n
  let q := n * 2 ^ k / d
  let r := n * 2 ^ k % d
  roundDyadic neg (2 * q + (if r = 0 then 0 else 1)) (x - (k : Int) - 1)

/-- A numeric literal, or a number read from JSON: the double nearest to the rational `q`
(`-0` is not a rational; it is `F64.neg (ofRat 0)`). -/
def ofRat (q : ℚ) : F64 :=
  roundQuotient (decide (q < 0)) q.num.natAbs q.den 0

/-- `Math.PI`, the double nearest to π: 3.141592653589793. -/
def PI : F64 := F64.fin false 7074237752028440 (-51)

/-- The integer `±m`. -/
def signedInt (neg : Bool) (m : Nat) : Int :=
  if neg then -(m : Int) else (m : Int)

namespace F64

/-- Unary minus. -/
def neg : F64 → F64
  | nan => nan
  | inf s => inf (!s)
  | fin s m e => fin (!s) m e

/-- `Math.abs`. -/
def abs : F64 → F64
  | nan => nan
  | inf _ => inf false
  | fin _ m e => fin false m e

/-- The operator `+`. -/
def add : F64 → F64 → F64
  | nan, _ => nan
  | _, nan => nan
  | inf s, inf t => if s = t then inf s else nan
  | inf s, fin _ _ _ => inf s
  | fin _ _ _, inf t => inf t
  | fin s m e, fin t n f =>
    let g := min e f
    let v : Int := signedInt s (m * 2 ^ (e - g).toNat) + signedInt t (n * 2 ^ (f - g).toNat)
    if v = 0 then fin (s && t) 0 (-1074)
    else roundDyadic (decide (v < 0)) v.natAbs g

/-- The operator `-`. -/
def sub (x y : F64) : F64 :=
  add x (neg y)

/-- The operator `*`. -/
def mul : F64 → F64 → F64
  | nan, _ => nan
  | _, nan => nan
  | inf s, inf t => inf (xor s t)
  | inf s, fin t n _ => if n = 0 then nan else inf (xor s t)
  | fin s m _, inf t => if m = 0 then nan else inf (xor s t)
  | fin s m e, fin t n f => roundDyadic (xor s t) (m * n) (e + f)

/-- The operator `/`. -/
def div : F64 → F64 → F64
  | nan, _ => nan
  | _, nan => nan
  | inf _, inf _ => nan
  | inf s, fin t _ _ => inf (xor s t)
  | fin s _ _, inf t => fin (xor s t) 0 (-1074)
  | fin s m e, fin t n f =>
    if n = 0 then (if m = 0 then nan else inf (xor s t))
    else roundQuotient (xor s t) m n (e - f)

/-- `Math.sqrt`: the correctly rounded square root (the `squareRoot` of IEEE 754, which the
engines compute); NaN below zero, `-0` for `-0`. -/
def sqrt : F64 → F64
  | nan => nan
  | inf s => if s then nan else inf false
  | fin s m e =>
    if m = 0 then fin s 0 (-1074)
    else if s then nan
    else
      let k : Nat := if (e - 110) % 2 = 0 then 110 else 111
      let r := isqrt (m * 2 ^ k)
      roundDyadic false (2 * r + (if r * r = m * 2 ^ k then 0 else 1)) ((e - (k : Int)) / 2 - 1)

/-- The operator `<=`: false when an operand is NaN. -/
def le : F64 → F64 → Bool
  | nan, _ => false
  | _, nan => false
  | inf s, inf t => s || !t
  | inf s, fin _ _ _ => s
  | fin _ _ _, inf t => !t
  | fin s m e, fin t n f =>
    decide (signedInt s (m * 2 ^ (e - min e f).toNat) ≤ signedInt t (n * 2 ^ (f - min e f).toNat))

/-- The operators `==` and `===` on two numbers: false when an operand is NaN, true on `+0`
and `-0`. -/
def equals : F64 → F64 → Bool
  | nan, _ => false
  | _, nan => false
  | inf s, inf t => s = t
  | inf _, fin _ _ _ => false
  | fin _ _ _, inf _ => false
  | fin s m e, fin t n f => (m = 0 ∧ n = 0) ∨ (s = t ∧ m = n ∧ e = f)

/-- A number that is neither NaN, an infinity nor a zero: where `Math.sin`, `Math.cos` and
`Math.asin` are left to the engine. -/
def isOrdinary : F64 → Bool
  | fin _ m _ => decide (m ≠ 0)
  | _ => false

end F64

/-- The functions of `Math` whose values the language leaves to the engine
("implementation-approximated", ECMAScript 21.3.2). `Math.sin`, `Math.cos`, `Math.asin` and
`Math.atan2` below call them at the arguments that are not among the special cases they list. -/
structure MathLib where
  sin : F64 → F64
  cos : F64 → F64
  asin : F64 → F64
  atan2 : F64 → F64 → F64

/-- `Math.sin(x)`: NaN for NaN and the infinities, `x` itself for `+0` and `-0`. -/
def Math.sin (M : MathLib) : F64 → F64
  | F64.nan => F64.nan
  | F64.inf _ => F64.nan
  | F64.fin s m e => if m = 0 then F64.fin s m e else M.sin (F64.fin s m e)

/-- `Math.cos(x)`: NaN for NaN and the infinities, 1 for `+0` and `-0`. -/
def Math.cos (M : MathLib) : F64 → F64
  | F64.nan => F64.nan
  | F64.inf _ => F64.nan
  | F64.fin s m e => if m = 0 then F64.fin false (2 ^ 52) (-52) else M.cos (F64.fin s m e)

/-- `Math.asin(x)`: NaN for NaN and outside [-1, 1], `x` itself for `+0` and `-0`. -/
def Math.asin (M : MathLib) : F64 → F64
  | F64.nan => F64.nan
  | F64.inf _ => F64.nan
  | F64.fin s m e =>
    if m = 0 then F64.fin s m e
    else if F64.le (F64.fin false m e) (F64.fin false (2 ^ 52) (-52)) then M.asin (F64.fin s m e)
    else F64.nan

/-- `Math.atan2(y, x)`: NaN when an argument is NaN; at every other pair of arguments the
value is the library's. -/
def Math.atan2 (M : MathLib) : F64 → F64 → F64
  | F64.nan, _ => F64.nan
  | _, F64.nan => F64.nan
  | y, x => M.atan2 y x

/-- Lines 33-38 in doubles: the haversine intermediate `a`. -/
def haversineA (M : MathLib) (lat1 lon1 lat2 lon2 : F64) : F64 :=
  let dLat := F64.div (F64.mul (F64.sub lat2 lat1) PI) (ofRat 180)
  let dLon := F64.div (F64.mul (F64.sub lon2 lon1) PI) (ofRat 180)
  F64.add
    (F64.mul (Math.sin M (F64.div dLat (ofRat 2))) (Math.sin M (F64.div dLat (ofRat 2))))
    (F64.mul
      (F64.mul
        (F64.mul (Math.cos M (F64.div (F64.mul lat1 PI) (ofRat 180)))
          (Math.cos M (F64.div (F64.mul lat2 PI) (ofRat 180))))
        (Math.sin M (F64.div dLon (ofRat 2))))
      (Math.sin M (F64.div dLon (ofRat 2))))

/-- Lines 32-41 in doubles: `calculateDistance(lat1, lon1, lat2, lon2)`. -/
def calculateDistance (M : MathLib) (lat1 lon1 lat2 lon2 : F64) : F64 :=
  let R := ofRat 6371
  let a := haversineA M lat1 lon1 lat2 lon2
  let c := F64.mul (ofRat 2) (Math.atan2 M (F64.sqrt a) (F64.sqrt (F64.sub (ofRat 1) a)))
  F64.mul R c

/-- Wording of the specification in doubles: `2·6371·arcsin(√a)`. -/
def haversineDistance (M : MathLib) (lat1 lon1 lat2 lon2 : F64) : F64 :=
  F64.mul (F64.mul (ofRat 2) (ofRat 6371)) (Math.asin M (F64.sqrt (haversineA M lat1 lon1 lat2 lon2)))

/-- The math library at the arguments of the near-antipodal run only: each sine, cosine and
arcsine is the double nearest to the exact value (the value glibc returns there); NaN at every
other argument. -/
def antipodalMath : MathLib where
  sin := fun x =>
    if x = ofRat (-0.24188518103389411) then ofRat (-0.23953335088375327)
    else if x = ofRat 0.24188518103389411 then ofRat 0.23953335088375327
    else if x = ofRat 1.5707963267948966 then ofRat 1
    else if x = ofRat (-1.5707963267948966) then ofRat (-1)
    else F64.nan
  cos := fun x =>
    if x = ofRat 0.24188518103389411 then ofRat 0.9708881366122468
    else if x = ofRat (-0.24188518103389411) then ofRat 0.9708881366122468
    else F64.nan
  asin := fun x => if x = ofRat 1 then ofRat 1.5707963267948966 else F64.nan
  atan2 := fun _ _ => F64.nan

/-- Lines 186-211 in doubles: `generateNearbyCoordinate(baseLat, baseLng, maxDistanceKm)`; `r1`
and `r2` are the two values of `Math.random()`, in the order in which they are drawn. -/
def generateNearbyCoordinate (M : MathLib) (baseLat baseLng maxDistanceKm r1 r2 : F64) :
    F64 × F64 :=
  let earthRadius := ofRat 6371
  let maxDistance := F64.div maxDistanceKm earthRadius
  let randomDistance := F64.mul r1 maxDistance
  let randomBearing := F64.mul (F64.mul r2 (ofRat 2)) PI
  let lat :=
    F64.div
      (F64.mul
        (Math.asin M
          (F64.add
            (F64.mul (Math.sin M (F64.div (F64.mul baseLat PI) (ofRat 180)))
              (Math.cos M randomDistance))
            (F64.mul
              (F64.mul (Math.cos M (F64.div (F64.mul baseLat PI) (ofRat 180)))
                (Math.sin M randomDistance))
              (Math.cos M randomBearing))))
        (ofRat 180))
      PI
  let lng :=
    F64.div
      (F64.mul
        (F64.add (F64.div (F64.mul baseLng PI) (ofRat 180))
          (Math.atan2 M
            (F64.mul (F64.mul (Math.sin M randomBearing) (Math.sin M randomDistance))
              (Math.cos M (F64.div (F64.mul baseLat PI) (ofRat 180))))
            (F64.sub (Math.cos M randomDistance)
              (F64.mul (Math.sin M (F64.div (F64.mul baseLat PI) (ofRat 180)))
                (Math.sin M (F64.div (F64.mul lat PI) (ofRat 180)))))))
        (ofRat 180))
      PI
  (lat, lng)

/-- The math library at the arguments of the fallback run at the origin (40, -74) only: each
value is the double nearest to the exact one (the value glibc returns there); NaN at every
other argument. -/
def fallbackMath : MathLib where
  sin := fun x =>
    if x = ofRat 0.6981317007977318 then ofRat 0.6427876096865393
    else if x = ofRat 0.0007848061528802385 then ofRat 0.0007848060723171822
    else if x = ofRat 1.5707963267948966 then ofRat 1
    else if x = ofRat 0.6981314423883579 then ofRat 0.6427874117334529
    else if x = ofRat (-1.2920468695335085e-07) then ofRat (-1.2920468695335048e-07)
    else if x = ofRat 0.0005122457622941147 then ofRat 0.0005122457398922657
    else F64.nan
  cos := fun x =>
    if x = ofRat 0.6981317007977318 then ofRat 0.766044443118978
    else if x = ofRat 0.0007848061528802385 then ofRat 0.999999692039667
    else if x = ofRat 1.5707963267948966 then ofRat 6.123233995736766e-17
    else if x = ofRat 0.6981314423883579 then ofRat 0.7660446092212962
    else F64.nan
  asin := fun x =>
    if x = ofRat 0.6427874117334529 then ofRat 0.6981314423883579 else F64.nan
  atan2 := fun y x =>
    if y = ofRat 0.0006011963306246082 ∧ x = ofRat 0.5868239081149235 then
      ofRat 0.0010244915245882062
    else if y = ofRat 0.0003924030663697459 ∧ x = ofRat 0.9999999230099138 then
      ofRat 0.0003924030764401282
    else F64.nan

end IEEE

/-! ## Lemmas -/

theorem gatherPlaces_snd {α : Type} (osm googlePlaces : List (Place α)) :
    (gatherPlaces osm googlePlaces).2 = if osm.length < 10 then osm ++ googlePlaces else osm := by
  unfold gatherPlaces
  split <;> rfl

theorem gatherPlaces_fst {α : Type} (osm googlePlaces : List (Place α)) :
    (gatherPlaces osm googlePlaces).1 =
      if osm.length < 10 then [Adapter.osm, Adapter.google] else [Adapter.osm] := by
  unfold gatherPlaces
  split <;> rfl

section Lemmas
variable {α : Type} [LinearOrderedField α]

theorem findIndexFrom_append_hit {β : Type} (pred : β → Bool) (pre post : List β) (x : β)
    (k : Nat) (hx : pred x = true) :
    findIndexFrom pred (pre ++ x :: post) k = ((k + pre.length : Nat) : Int) ↔
      ∀ y ∈ pre, pred y = false := by
  induction pre generalizing k with
  | nil => simp [findIndexFrom, hx]
  | cons y ys ih =>
    by_cases hy : pred y = true
    · simp [findIndexFrom, hy]
      omega
    · have h := ih (k + 1)
      simp only [Bool.not_eq_true] at hy
      simp [findIndexFrom, hy]
      rw [← h]
      simp only [List.length_cons, Nat.cast_add, Nat.cast_one]
      constructor <;> intro h' <;> rw [h'] <;> ring

theorem samePlace_self (x : Place α) : samePlace x x = true := by
  have h : (0 : α) < 0.001 := by norm_num
  simp [samePlace, h]

theorem filterFrom_eq_dedupAfter (pre suf : List (Place α)) :
    filterFrom
      (fun place index => decide ((index : Int) = findIndex (samePlace place) (pre ++ suf)))
      suf pre.length = dedupAfter pre suf := by
  induction suf generalizing pre with
  | nil => simp [filterFrom, dedupAfter]
  | cons x xs ih =>
    have hrest := ih (pre ++ [x])
    simp only [List.append_assoc, List.singleton_append, List.length_append, List.length_singleton] at hrest
    have hkey := findIndexFrom_append_hit (samePlace x) pre xs x 0 (samePlace_self x)
    simp only [Nat.zero_add] at hkey
    by_cases hany : pre.any (samePlace x) = true
    · have hne : ¬ ((pre.length : Int) = findIndex (samePlace x) (pre ++ x :: xs)) := by
        intro h
        have := hkey.mp h.symm
        simp only [List.any_eq_true] at hany
        obtain ⟨y, hy, hy'⟩ := hany
        rw [this y hy] at hy'
        exact Bool.noConfusion hy'
      simp only [filterFrom, dedupAfter, hany, hne, decide_False, if_true, hrest]
      simp
    · have heq : (pre.length : Int) = findIndex (samePlace x) (pre ++ x :: xs) := by
        symm
        apply hkey.mpr
        intro y hy
        simp only [List.any_eq_true, not_exists, not_and, Bool.not_eq_true] at hany
        exact hany y hy
      simp only [filterFrom, dedupAfter, hany, heq, decide_True, if_true, hrest]
      simp

theorem uniquePlaces_eq_dedupAfter (l : List (Place α)) : uniquePlaces l = dedupAfter [] l := by
  have := filterFrom_eq_dedupAfter [] l
  simpa [uniquePlaces, filterWithIndex] using this


theorem samePlace_eq_false_iff (x a : Place α) :
    samePlace x a = false ↔ ¬ (a.name = x.name ∧ |a.latitude - x.latitude| < 0.001) := by
  simp [samePlace]

theorem noEarlierMatch_prefix (pre xs : List (Place α)) (x : Place α) :
    noEarlierMatch (pre ++ x :: xs) pre.length ↔ ∀ a ∈ pre, samePlace x a = false := by
  have hx : (pre ++ x :: xs)[pre.length]? = some x := by
    rw [List.getElem?_append_right (Nat.le_refl _)]
    simp
  constructor
  · intro h a ha
    obtain ⟨j, hj⟩ := List.mem_iff_getElem?.mp ha
    have hlt : j < pre.length := (List.getElem?_eq_some.mp hj).1
    have hj' : (pre ++ x :: xs)[j]? = some a := by
      rw [List.getElem?_append_left hlt]; exact hj
    rw [samePlace_eq_false_iff]
    exact h j hlt a hj' x hx
  · intro h j hlt a ha b hb
    rw [hx] at hb
    have hbx : x = b := Option.some.inj hb
    subst hbx
    rw [List.getElem?_append_left hlt] at ha
    have hmem : a ∈ pre := List.mem_iff_getElem?.mpr ⟨j, ha⟩
    exact (samePlace_eq_false_iff x a).mp (h a hmem)

theorem dedupAfter_eq_positions (pre suf : List (Place α)) :
    dedupAfter pre suf =
      ((suf.enumFrom pre.length).filter
        (fun ix => decide (noEarlierMatch (pre ++ suf) ix.1))).map Prod.snd := by
  induction suf generalizing pre with
  | nil => simp [dedupAfter]
  | cons x xs ih =>
    have hrest := ih (pre ++ [x])
    simp only [List.append_assoc, List.singleton_append, List.length_append,
      List.length_singleton] at hrest
    have hkey := noEarlierMatch_prefix pre xs x
    by_cases hany : pre.any (samePlace x) = true
    · have hno : ¬ noEarlierMatch (pre ++ x :: xs) pre.length := by
        intro h
        simp only [List.any_eq_true] at hany
        obtain ⟨y, hy, hy'⟩ := hany
        rw [hkey.mp h y hy] at hy'
        exact Bool.noConfusion hy'
      simp [dedupAfter, hany, hno, hrest, List.filter_cons]
    · have hyes : noEarlierMatch (pre ++ x :: xs) pre.length := by
        apply hkey.mpr
        intro y hy
        simp only [List.any_eq_true, not_exists, not_and, Bool.not_eq_true] at hany
        exact hany y hy
      simp [dedupAfter, hany, hyes, hrest, List.filter_cons]

theorem uniquePlaces_eq_firstOccurrences (l : List (Place α)) :
    uniquePlaces l = firstOccurrences l := by
  rw [uniquePlaces_eq_dedupAfter, dedupAfter_eq_positions]
  simp [firstOccurrences, List.enum]

theorem dedupAfter_sublist (seen l : List (Place α)) : (dedupAfter seen l).Sublist l := by
  induction l generalizing seen with
  | nil => simp [dedupAfter]
  | cons x xs ih =>
    unfold dedupAfter
    split
    · exact (ih _).cons x
    · exact (ih _).cons₂ x

theorem dedupAfter_not_seen (seen l : List (Place α)) (y : Place α)
    (hy : y ∈ dedupAfter seen l) : ∀ s ∈ seen, samePlace y s = false := by
  induction l generalizing seen with
  | nil => simp [dedupAfter] at hy
  | cons x xs ih =>
    unfold dedupAfter at hy
    split at hy
    · intro s hs
      exact ih _ hy s (List.mem_append_left _ hs)
    · rename_i hany
      rcases List.mem_cons.mp hy with rfl | hy'
      · intro s hs
        simp only [List.any_eq_true, not_exists, not_and, Bool.not_eq_true] at hany
        exact hany s hs
      · intro s hs
        exact ih _ hy' s (List.mem_append_left _ hs)

theorem dedupAfter_pairwise (seen l : List (Place α)) :
    (dedupAfter seen l).Pairwise (fun a b => samePlace b a = false) := by
  induction l generalizing seen with
  | nil => simp [dedupAfter]
  | cons x xs ih =>
    unfold dedupAfter
    split
    · exact ih _
    · refine List.Pairwise.cons ?_ (ih _)
      intro y hy
      exact dedupAfter_not_seen _ _ y hy x (by simp)

theorem uniquePlaces_ne_nil (l : List (Place α)) (h : l ≠ []) : uniquePlaces l ≠ [] := by
  rw [uniquePlaces_eq_dedupAfter]
  cases l with
  | nil => exact absurd rfl h
  | cons x xs => simp [dedupAfter]


theorem distanceOrder_iff (a b : Place α) : distanceOrder a b ↔ a.distance ≤ b.distance := by
  simp [distanceOrder, compareDistance]

instance distanceOrder_isTotal : IsTotal (Place α) distanceOrder :=
  ⟨fun a b => by
    simp only [distanceOrder_iff]
    exact le_total _ _⟩

instance distanceOrder_isTrans : IsTrans (Place α) distanceOrder :=
  ⟨fun a b c hab hbc => by
    simp only [distanceOrder_iff] at *
    exact le_trans hab hbc⟩

theorem sortByDistance_perm (l : List (Place α)) : (sortByDistance l).Perm l :=
  List.perm_insertionSort _ l

theorem sortByDistance_length (l : List (Place α)) : (sortByDistance l).length = l.length :=
  (sortByDistance_perm l).length_eq

theorem sortByDistance_pairwise (l : List (Place α)) :
    (sortByDistance l).Pairwise (fun a b => a.distance ≤ b.distance) := by
  have h : List.Sorted distanceOrder (sortByDistance l) := List.sorted_insertionSort _ l
  exact List.Pairwise.imp (fun {a b} hab => (distanceOrder_iff a b).mp hab) h

theorem testData_pairwise (location : Location α) :
    (testData location).Pairwise (fun a b => a.distance ≤ b.distance) := by
  simp only [testData, List.pairwise_cons, List.mem_cons, List.mem_singleton, forall_eq_or_imp,
    forall_eq, List.not_mem_nil, false_implies, implies_true, List.Pairwise.nil, and_true]
  norm_num

theorem pairwise_getElem? {β : Type} {R : β → β → Prop} {l : List β} (h : l.Pairwise R)
    {i j : Nat} {a b : β} (hij : i < j) (ha : l[i]? = some a) (hb : l[j]? = some b) : R a b := by
  obtain ⟨hi, rfl⟩ := List.getElem?_eq_some.mp ha
  obtain ⟨hj, rfl⟩ := List.getElem?_eq_some.mp hb
  exact List.pairwise_iff_getElem.mp h i j hi hj hij

theorem distinguishable_symm : Symmetric (Distinguishable : Place α → Place α → Prop) := by
  intro a b h hba
  exact h ⟨hba.1.symm, by rw [abs_sub_comm]; exact hba.2⟩

theorem uniquePlaces_pairwise (l : List (Place α)) :
    (uniquePlaces l).Pairwise Distinguishable := by
  rw [uniquePlaces_eq_dedupAfter]
  exact List.Pairwise.imp (fun {a b} hab => (samePlace_eq_false_iff b a).mp hab)
    (dedupAfter_pairwise [] l)

theorem testData_distinguishable (location : Location α) :
    (testData location).Pairwise Distinguishable := by
  simp [testData, Distinguishable]

theorem essentials_eq (location : Location α) (osm googlePlaces : List (Place α)) :
    (getUserLocation location osm googlePlaces).essentials =
      if (sortByDistance (uniquePlaces (gatherPlaces osm googlePlaces).2)).length = 0 then
        testData location
      else sortByDistance (uniquePlaces (gatherPlaces osm googlePlaces).2) := by
  unfold getUserLocation
  simp only []
  split <;> rfl

theorem essentials_pairwise_distance (location : Location α) (osm googlePlaces : List (Place α)) :
    (getUserLocation location osm googlePlaces).essentials.Pairwise
      (fun a b => a.distance ≤ b.distance) := by
  rw [essentials_eq]
  split
  · exact testData_pairwise location
  · exact sortByDistance_pairwise _

theorem essentials_pairwise_distinguishable (location : Location α)
    (osm googlePlaces : List (Place α)) :
    (getUserLocation location osm googlePlaces).essentials.Pairwise Distinguishable := by
  rw [essentials_eq]
  split
  · exact testData_distinguishable location
  · exact ((sortByDistance_perm _).pairwise_iff (fun h => distinguishable_symm h)).mpr
      (uniquePlaces_pairwise _)

/-- C1: for every location and every pair of adapter results, the list handed to
`setEssentials` is not empty. -/
theorem C1_essentials_nonempty (location : Location α) (osm googlePlaces : List (Place α)) :
    (getUserLocation location osm googlePlaces).essentials ≠ [] := by
  rw [essentials_eq]
  split
  · simp [testData]
  · rename_i h
    intro hnil
    exact h (by rw [hnil]; rfl)

/-- C2: the list handed to `setEssentials` is sorted non-decreasing by distance: the record at
position `i` is no farther than the record at any later position `j`, in the test-marker branch
too. -/
theorem C2_essentials_sorted (location : Location α) (osm googlePlaces : List (Place α))
    (i j : Nat) (a b : Place α) (hij : i < j)
    (ha : (getUserLocation location osm googlePlaces).essentials[i]? = some a)
    (hb : (getUserLocation location osm googlePlaces).essentials[j]? = some b) :
    a.distance ≤ b.distance :=
  pairwise_getElem? (essentials_pairwise_distance location osm googlePlaces) hij ha hb

/-- C3: no two records at distinct positions of the list handed to `setEssentials` have equal
names and latitudes less than 0.001 apart. -/
theorem C3_essentials_no_duplicates (location : Location α) (osm googlePlaces : List (Place α))
    (i j : Nat) (a b : Place α) (hij : i ≠ j)
    (ha : (getUserLocation location osm googlePlaces).essentials[i]? = some a)
    (hb : (getUserLocation location osm googlePlaces).essentials[j]? = some b) :
    ¬ (a.name = b.name ∧ |a.latitude - b.latitude| < 0.001) := by
  have hp := essentials_pairwise_distinguishable location osm googlePlaces
  rcases Nat.lt_or_gt_of_ne hij with h | h
  · exact pairwise_getElem? hp h ha hb
  · exact distinguishable_symm (pairwise_getElem? hp h hb ha)

end Lemmas

/-- Witness of C2 on the sample data: the two nearest records. -/
theorem C2_essentials_sorted_witness :
    (0 : Nat) < 1 ∧
    (getUserLocation sampleLocation sampleOsm sampleGoogle).essentials[0]? =
      some (mkPlace "pharmacy_c" "Drug Mart" (40 + 4/100) (1/2)) ∧
    (getUserLocation sampleLocation sampleOsm sampleGoogle).essentials[1]? =
      some (mkPlace "osm_2" "Corner Bank" (40 + 2/100) 1) ∧
    (mkPlace "pharmacy_c" "Drug Mart" (40 + 4/100) (1/2)).distance ≤
      (mkPlace "osm_2" "Corner Bank" (40 + 2/100) 1).distance :=
  ⟨by decide, by decide!, by decide!,
    C2_essentials_sorted sampleLocation sampleOsm sampleGoogle 0 1 _ _ (by decide)
      (by decide!) (by decide!)⟩


section More
variable {α : Type} [LinearOrderedField α]

theorem length_filter_enumFrom_ne {β : Type} (l : List β) (s k : Nat) (hs : s ≤ k)
    (hk : k < s + l.length) :
    ((l.enumFrom s).filter (fun ix => decide (ix.1 ≠ k))).length + 1 = l.length := by
  induction l generalizing s with
  | nil => simp at hk; omega
  | cons x xs ih =>
    rw [List.enumFrom_cons, List.filter_cons]
    by_cases hsk : s = k
    · subst hsk
      have hall : ∀ ix ∈ xs.enumFrom (s + 1), decide (ix.1 ≠ s) = true := by
        intro ix hix
        have := List.le_fst_of_mem_enumFrom hix
        rw [decide_eq_true_iff]
        omega
      rw [List.filter_eq_self.mpr hall]
      simp
    · have h := ih (s + 1) (by omega) (by simp at hk; omega)
      have hd : decide ((s, x).1 ≠ k) = true := by
        rw [decide_eq_true_iff]
        exact hsk
      rw [if_pos hd, List.length_cons, h, List.length_cons]

theorem nearbyEssentials_eq (location : Location α) (osm googlePlaces : List (Place α)) :
    (getUserLocation location osm googlePlaces).nearbyEssentials =
      (gatherPlaces osm googlePlaces).2 := by
  unfold getUserLocation
  simp only []
  split <;> rfl

theorem calls_eq (location : Location α) (osm googlePlaces : List (Place α)) :
    (getUserLocation location osm googlePlaces).calls = (gatherPlaces osm googlePlaces).1 := by
  unfold getUserLocation
  simp only []
  split <;> rfl

theorem uniquePlaces_field_eq (location : Location α) (osm googlePlaces : List (Place α)) :
    (getUserLocation location osm googlePlaces).uniquePlaces =
      uniquePlaces (gatherPlaces osm googlePlaces).2 := by
  unfold getUserLocation
  simp only []
  split <;> rfl

theorem sortedPlaces_eq (location : Location α) (osm googlePlaces : List (Place α)) :
    (getUserLocation location osm googlePlaces).sortedPlaces =
      sortByDistance (uniquePlaces (gatherPlaces osm googlePlaces).2) := by
  unfold getUserLocation
  simp only []
  split <;> rfl

theorem usedTestData_eq (location : Location α) (osm googlePlaces : List (Place α)) :
    (getUserLocation location osm googlePlaces).usedTestData =
      decide ((sortByDistance (uniquePlaces (gatherPlaces osm googlePlaces).2)).length = 0) := by
  unfold getUserLocation
  simp only []
  split <;> simp [*]

theorem uniquePlaces_eq_nil_iff (l : List (Place α)) : uniquePlaces l = [] ↔ l = [] := by
  constructor
  · intro h
    by_contra hne
    exact uniquePlaces_ne_nil l hne h
  · rintro rfl
    rfl

theorem usedTestData_iff (location : Location α) (osm googlePlaces : List (Place α)) :
    (getUserLocation location osm googlePlaces).usedTestData = true ↔
      osm = [] ∧ googlePlaces = [] := by
  rw [usedTestData_eq, decide_eq_true_iff, sortByDistance_length, List.length_eq_zero,
    uniquePlaces_eq_nil_iff, gatherPlaces_snd]
  constructor
  · intro h
    split at h
    · exact List.append_eq_nil.mp h
    · rename_i hlen
      subst h
      simp at hlen
  · rintro ⟨rfl, rfl⟩
    simp

/-- C4: the dedup step keeps the record at position `i` exactly when no earlier position holds
a record with the same name and a latitude within 0.001 of it, and the kept records stand in
their original order: the step returns the records at the kept positions, in sequence order,
which is a sublist of its input. -/
theorem C4_dedup_first_occurrence (nearbyEssentials : List (Place α)) :
    uniquePlaces nearbyEssentials = firstOccurrences nearbyEssentials ∧
      (uniquePlaces nearbyEssentials).Sublist nearbyEssentials := by
  refine ⟨uniquePlaces_eq_firstOccurrences nearbyEssentials, ?_⟩
  rw [uniquePlaces_eq_dedupAfter]
  exact dedupAfter_sublist [] nearbyEssentials

/-- C5: with fewer than 10 OSM records both adapters are called and the sequence that is
deduplicated is the OSM records followed by the commercial records; with 10 or more only the
OSM adapter is called and the deduplicated sequence is exactly the OSM records. -/
theorem C5_gather (location : Location α) (osm googlePlaces : List (Place α)) :
    (osm.length < 10 →
      (getUserLocation location osm googlePlaces).calls = [Adapter.osm, Adapter.google] ∧
      (getUserLocation location osm googlePlaces).nearbyEssentials = osm ++ googlePlaces ∧
      (getUserLocation location osm googlePlaces).uniquePlaces =
        uniquePlaces (osm ++ googlePlaces)) ∧
    (10 ≤ osm.length →
      (getUserLocation location osm googlePlaces).calls = [Adapter.osm] ∧
      (getUserLocation location osm googlePlaces).nearbyEssentials = osm ∧
      (getUserLocation location osm googlePlaces).uniquePlaces = uniquePlaces osm) := by
  rw [calls_eq, nearbyEssentials_eq, uniquePlaces_field_eq, gatherPlaces_fst, gatherPlaces_snd]
  constructor
  · intro h
    simp [h]
  · intro h
    have h' : ¬ osm.length < 10 := by omega
    simp [h']

/-- C6: with fewer than 10 OSM records, when the commercial record at position `c` matches an
OSM record (same name, latitude within 0.001) and every matching pair of positions of the
concatenation consists of an OSM position and that commercial position, the output has
`m + n - 1` records and is sorted by distance. -/
theorem C6_one_duplicate (location : Location α) (osm googlePlaces : List (Place α)) (c : Nat)
    (hm : osm.length < 10) (hc : c < googlePlaces.length)
    (hdup : ∃ i < osm.length, ∃ a ∈ osm[i]?, ∃ b ∈ googlePlaces[c]?,
      a.name = b.name ∧ |a.latitude - b.latitude| < 0.001)
    (honly : ∀ j < (osm ++ googlePlaces).length, ∀ i < j,
      ∀ a ∈ (osm ++ googlePlaces)[i]?, ∀ b ∈ (osm ++ googlePlaces)[j]?,
        a.name = b.name ∧ |a.latitude - b.latitude| < 0.001 →
          i < osm.length ∧ j = osm.length + c) :
    (getUserLocation location osm googlePlaces).essentials.length =
        osm.length + googlePlaces.length - 1 ∧
      (getUserLocation location osm googlePlaces).essentials.Pairwise
        (fun a b => a.distance ≤ b.distance) := by
  refine ⟨?_, essentials_pairwise_distance location osm googlePlaces⟩
  have hlen : (uniquePlaces (osm ++ googlePlaces)).length + 1 =
      (osm ++ googlePlaces).length := by
    rw [uniquePlaces_eq_firstOccurrences, firstOccurrences, List.length_map]
    have hcongr : (osm ++ googlePlaces).enum.filter
        (fun ix => decide (noEarlierMatch (osm ++ googlePlaces) ix.1)) =
        (osm ++ googlePlaces).enum.filter (fun ix => decide (ix.1 ≠ osm.length + c)) := by
      apply List.filter_congr
      intro ix hix
      have hget := List.mem_enum_iff_getElem?.mp hix
      have hlt := List.fst_lt_of_mem_enum hix
      rw [decide_eq_decide]
      constructor
      · intro hno heq
        obtain ⟨i, hi, a, ha, b, hb, hab⟩ := hdup
        have ha' : a ∈ (osm ++ googlePlaces)[i]? := by
          rw [List.getElem?_append_left hi]; exact ha
        have hb' : b ∈ (osm ++ googlePlaces)[ix.1]? := by
          rw [heq, List.getElem?_append_right (Nat.le_add_right _ _)]
          simpa using hb
        exact hno i (by omega) a ha' b hb' hab
      · intro hne j hj a ha b hb hab
        exact hne (honly ix.1 hlt j hj a ha b hb hab).2
    rw [hcongr, List.enum]
    exact length_filter_enumFrom_ne _ 0 _ (Nat.zero_le _) (by simp; omega)
  rw [essentials_eq, gatherPlaces_snd, if_pos hm, sortByDistance_length]
  have hpos : (uniquePlaces (osm ++ googlePlaces)).length ≠ 0 := by
    simp only [List.length_append] at hlen
    omega
  rw [if_neg hpos, sortByDistance_length]
  simp only [List.length_append] at hlen
  omega

/-- C9: the test markers `test_1`, `test_2`, `test_3` are substituted exactly when both adapters
returned no records; when the concatenated sequence is not empty, the deduplicated sequence is
not empty either and its sorted arrangement is what is handed to `setEssentials`. -/
theorem C9_test_markers (location : Location α) (osm googlePlaces : List (Place α)) :
    ((getUserLocation location osm googlePlaces).usedTestData = true ↔
      osm = [] ∧ googlePlaces = []) ∧
    ((getUserLocation location osm googlePlaces).usedTestData = true →
      (getUserLocation location osm googlePlaces).essentials = testData location ∧
      (getUserLocation location osm googlePlaces).essentials.map (fun p => p.id) =
        ["test_1", "test_2", "test_3"]) ∧
    ((getUserLocation location osm googlePlaces).nearbyEssentials ≠ [] →
      (getUserLocation location osm googlePlaces).usedTestData = false ∧
      (getUserLocation location osm googlePlaces).uniquePlaces ≠ [] ∧
      (getUserLocation location osm googlePlaces).essentials =
        sortByDistance (getUserLocation location osm googlePlaces).uniquePlaces ∧
      (getUserLocation location osm googlePlaces).essentials.Perm
        (getUserLocation location osm googlePlaces).uniquePlaces) := by
  refine ⟨usedTestData_iff location osm googlePlaces, ?_, ?_⟩
  · intro h
    rw [usedTestData_eq, decide_eq_true_iff] at h
    rw [essentials_eq, if_pos h]
    exact ⟨rfl, rfl⟩
  · intro h
    rw [nearbyEssentials_eq] at h
    have hu : uniquePlaces (gatherPlaces osm googlePlaces).2 ≠ [] := uniquePlaces_ne_nil _ h
    have hs : ¬ (sortByDistance (uniquePlaces (gatherPlaces osm googlePlaces).2)).length = 0 := by
      rw [sortByDistance_length, List.length_eq_zero]
      exact hu
    rw [usedTestData_eq, uniquePlaces_field_eq, essentials_eq, if_neg hs]
    exact ⟨by simp [hs], hu, rfl, sortByDistance_perm _⟩

end More


/-- Witness of C3 on the sample data: the records at positions 0 and 1 of the output. -/
theorem C3_essentials_no_duplicates_witness :
    (0 : Nat) ≠ 1 ∧
    (getUserLocation sampleLocation sampleOsm sampleGoogle).essentials[0]? =
      some (mkPlace "pharmacy_c" "Drug Mart" (40 + 4/100) (1/2)) ∧
    (getUserLocation sampleLocation sampleOsm sampleGoogle).essentials[1]? =
      some (mkPlace "osm_2" "Corner Bank" (40 + 2/100) 1) ∧
    ¬ ((mkPlace "pharmacy_c" "Drug Mart" (40 + 4/100) (1/2)).name =
        (mkPlace "osm_2" "Corner Bank" (40 + 2/100) 1).name ∧
      |(mkPlace "pharmacy_c" "Drug Mart" (40 + 4/100) (1/2)).latitude -
        (mkPlace "osm_2" "Corner Bank" (40 + 2/100) 1).latitude| < 0.001) :=
  ⟨by decide, by decide!, by decide!,
    C3_essentials_no_duplicates sampleLocation sampleOsm sampleGoogle 0 1 _ _ (by decide)
      (by decide!) (by decide!)⟩

/-- Witness of C5: three OSM records (both adapters called) and ten OSM records (OSM only). -/
theorem C5_gather_witness :
    (sampleOsm.length < 10 ∧
      (getUserLocation sampleLocation sampleOsm sampleGoogle).calls =
        [Adapter.osm, Adapter.google] ∧
      (getUserLocation sampleLocation sampleOsm sampleGoogle).nearbyEssentials =
        sampleOsm ++ sampleGoogle ∧
      (getUserLocation sampleLocation sampleOsm sampleGoogle).uniquePlaces =
        uniquePlaces (sampleOsm ++ sampleGoogle)) ∧
    (10 ≤ sampleOsmTen.length ∧
      (getUserLocation sampleLocation sampleOsmTen sampleGoogle).calls = [Adapter.osm] ∧
      (getUserLocation sampleLocation sampleOsmTen sampleGoogle).nearbyEssentials =
        sampleOsmTen ∧
      (getUserLocation sampleLocation sampleOsmTen sampleGoogle).uniquePlaces =
        uniquePlaces sampleOsmTen) :=
  ⟨⟨by decide, (C5_gather sampleLocation sampleOsm sampleGoogle).1 (by decide)⟩,
    ⟨by decide, (C5_gather sampleLocation sampleOsmTen sampleGoogle).2 (by decide)⟩⟩

/-- Witness of C6, the worked example of the specification: origin (40, -74), three OSM
records, four commercial records of which the second repeats an OSM record: six records. -/
theorem C6_one_duplicate_witness :
    sampleOsm.length = 3 ∧ sampleGoogle.length = 4 ∧
    (∃ i < sampleOsm.length, ∃ a ∈ sampleOsm[i]?, ∃ b ∈ sampleGoogle[1]?,
      a.name = b.name ∧ |a.latitude - b.latitude| < 0.001) ∧
    (∀ j < (sampleOsm ++ sampleGoogle).length, ∀ i < j,
      ∀ a ∈ (sampleOsm ++ sampleGoogle)[i]?, ∀ b ∈ (sampleOsm ++ sampleGoogle)[j]?,
        a.name = b.name ∧ |a.latitude - b.latitude| < 0.001 →
          i < sampleOsm.length ∧ j = sampleOsm.length + 1) ∧
    (getUserLocation sampleLocation sampleOsm sampleGoogle).essentials.length = 6 ∧
    (getUserLocation sampleLocation sampleOsm sampleGoogle).essentials.Pairwise
      (fun a b => a.distance ≤ b.distance) :=
  ⟨by decide, by decide, by decide!, by decide!,
    C6_one_duplicate sampleLocation sampleOsm sampleGoogle 1 (by decide) (by decide)
      (by decide!) (by decide!)⟩

/-- Witness of C9: no records at all gives the test markers; the sample data does not. -/
theorem C9_test_markers_witness :
    ((getUserLocation sampleLocation [] []).usedTestData = true ∧
      (getUserLocation sampleLocation [] []).essentials.map (fun p => p.id) =
        ["test_1", "test_2", "test_3"]) ∧
    ((getUserLocation sampleLocation sampleOsm sampleGoogle).nearbyEssentials ≠ [] ∧
      (getUserLocation sampleLocation sampleOsm sampleGoogle).usedTestData = false ∧
      (getUserLocation sampleLocation sampleOsm sampleGoogle).uniquePlaces ≠ []) :=
  ⟨⟨by decide!,
      ((C9_test_markers sampleLocation [] []).2.1 (by decide!)).2⟩,
    ⟨by decide!,
      ((C9_test_markers sampleLocation sampleOsm sampleGoogle).2.2 (by decide!)).1,
      ((C9_test_markers sampleLocation sampleOsm sampleGoogle).2.2 (by decide!)).2.1⟩⟩


theorem haversineA_comm (lat1 lon1 lat2 lon2 : ℝ) :
    haversineA lat1 lon1 lat2 lon2 = haversineA lat2 lon2 lat1 lon1 := by
  have h1 : (lat1 - lat2) * Real.pi / 180 / 2 = -((lat2 - lat1) * Real.pi / 180 / 2) := by ring
  have h2 : (lon1 - lon2) * Real.pi / 180 / 2 = -((lon2 - lon1) * Real.pi / 180 / 2) := by ring
  simp only [haversineA, h1, h2, Real.sin_neg]
  ring

theorem haversineA_self (lat1 lon1 : ℝ) : haversineA lat1 lon1 lat1 lon1 = 0 := by
  simp [haversineA]

theorem atan2_zero_one : atan2 0 1 = 0 := by
  simp [atan2]

/-- In exact real arithmetic `calculateDistance` is symmetric in its two coordinate pairs, and
the distance from a coordinate pair to itself is 0. -/
theorem calculateDistance_symmetric_exact (lat1 lon1 lat2 lon2 : ℝ) :
    calculateDistance lat1 lon1 lat2 lon2 = calculateDistance lat2 lon2 lat1 lon1 ∧
      calculateDistance lat1 lon1 lat1 lon1 = 0 := by
  constructor
  · simp only [calculateDistance, haversineA_comm lat1 lon1 lat2 lon2]
  · simp only [calculateDistance, haversineA_self, Real.sqrt_zero, sub_zero, Real.sqrt_one,
      atan2_zero_one, mul_zero]


theorem fallbackLoop_length (userLat userLng : ℝ) (rand : Nat → ℝ)
    (items : List (Nat × PlaceType × Nat)) (n : Nat) :
    (fallbackLoop userLat userLng rand items n).length = items.length := by
  induction items generalizing n with
  | nil => rfl
  | cons item rest ih =>
    obtain ⟨categoryIndex, category, i⟩ := item
    simp [fallbackLoop, ih]

theorem fallbackLoop_names (userLat userLng : ℝ) (rand : Nat → ℝ)
    (items : List (Nat × PlaceType × Nat)) (n : Nat) :
    (fallbackLoop userLat userLng rand items n).map (fun p => p.name) =
      items.map (fun item => fallbackName item.2.1 item.2.2) := by
  induction items generalizing n with
  | nil => rfl
  | cons item rest ih =>
    obtain ⟨categoryIndex, category, i⟩ := item
    simp [fallbackLoop, ih, fallbackPlace]

theorem fallbackIterations_length : fallbackIterations.length = 20 := by
  decide

theorem fallbackNames_nodup :
    (fallbackIterations.map (fun item => fallbackName item.2.1 item.2.2)).Nodup := by
  decide

theorem getFallbackData_length (userLat userLng : ℝ) (rand : Nat → ℝ) :
    (getFallbackData userLat userLng rand).length = 20 := by
  rw [getFallbackData, sortByDistance_length, fallbackLoop_length, fallbackIterations_length]

theorem getFallbackData_names_perm (userLat userLng : ℝ) (rand : Nat → ℝ) :
    ((getFallbackData userLat userLng rand).map (fun p => p.name)).Perm
      (fallbackIterations.map (fun item => fallbackName item.2.1 item.2.2)) := by
  have hperm := (sortByDistance_perm
    (fallbackLoop userLat userLng rand fallbackIterations 0)).map (fun p => p.name)
  rw [fallbackLoop_names] at hperm
  exact hperm

theorem getFallbackData_names_nodup (userLat userLng : ℝ) (rand : Nat → ℝ) :
    ((getFallbackData userLat userLng rand).map (fun p => p.name)).Nodup := by
  rw [(getFallbackData_names_perm userLat userLng rand).nodup_iff]
  exact fallbackNames_nodup

section AppendLemmas
variable {α : Type} [LinearOrderedField α]

theorem dedupAfter_append (seen l₁ l₂ : List (Place α)) :
    dedupAfter seen (l₁ ++ l₂) = dedupAfter seen l₁ ++ dedupAfter (seen ++ l₁) l₂ := by
  induction l₁ generalizing seen with
  | nil => simp [dedupAfter]
  | cons x xs ih =>
    simp only [List.cons_append, dedupAfter]
    split <;> simp [ih]

theorem dedupAfter_length_le (seen l : List (Place α)) :
    (dedupAfter seen l).length ≤ l.length :=
  (dedupAfter_sublist seen l).length_le

theorem dedupAfter_eq_self (seen l : List (Place α))
    (hseen : ∀ x ∈ l, ∀ s ∈ seen, s.name ≠ x.name)
    (hnodup : (l.map (fun p => p.name)).Nodup) : dedupAfter seen l = l := by
  induction l generalizing seen with
  | nil => rfl
  | cons x xs ih =>
    have hx : seen.any (samePlace x) = false := by
      rw [List.any_eq_false]
      intro s hs
      have hne := hseen x (List.mem_cons_self _ _) s hs
      simp [samePlace, hne]
    rw [List.map_cons, List.nodup_cons] at hnodup
    have hrest : dedupAfter (seen ++ [x]) xs = xs := by
      apply ih
      · intro y hy s hs
        rcases List.mem_append.mp hs with h | h
        · exact hseen y (List.mem_cons_of_mem _ hy) s h
        · rw [List.mem_singleton] at h
          subst h
          intro heq
          exact hnodup.1 (List.mem_map.mpr ⟨y, hy, heq.symm⟩)
      · exact hnodup.2
    simp [dedupAfter, hx, hrest]

theorem uniquePlaces_eq_self (l : List (Place α))
    (hnodup : (l.map (fun p => p.name)).Nodup) : uniquePlaces l = l := by
  rw [uniquePlaces_eq_dedupAfter]
  exact dedupAfter_eq_self [] l (fun _ _ _ hs => absurd hs (List.not_mem_nil _)) hnodup

theorem uniquePlaces_append_length (l₁ l₂ : List (Place α)) :
    (uniquePlaces l₁).length ≤ (uniquePlaces (l₁ ++ l₂)).length ∧
      (uniquePlaces (l₁ ++ l₂)).length ≤ (uniquePlaces l₁).length + l₂.length := by
  rw [uniquePlaces_eq_dedupAfter, uniquePlaces_eq_dedupAfter, dedupAfter_append,
    List.length_append]
  have := dedupAfter_length_le ([] ++ l₁) l₂
  omega

end AppendLemmas

theorem fetchLoop_failure (latitude longitude : ℝ) (fetch : String → PlacesResponse)
    (types requested : List String) (allPlaces : List (Place ℝ))
    (hfail : ∃ type ∈ types, fetch type = PlacesResponse.failure) :
    (fetchLoop latitude longitude fetch types requested allPlaces).2 = none := by
  induction types generalizing requested allPlaces with
  | nil =>
    obtain ⟨type, hmem, _⟩ := hfail
    exact absurd hmem (List.not_mem_nil _)
  | cons type rest ih =>
    unfold fetchLoop
    by_cases hhead : fetch type = PlacesResponse.failure
    · simp [hhead]
    · have hrest : ∃ t ∈ rest, fetch t = PlacesResponse.failure := by
        obtain ⟨t, hmem, ht⟩ := hfail
        rcases List.mem_cons.mp hmem with h | h
        · subst h
          exact absurd ht hhead
        · exact ⟨t, h, ht⟩
      split
      · rfl
      · split
        · split
          · split
            · exact ih _ _ hrest
            · rfl
          · exact ih _ _ hrest
        · exact ih _ _ hrest

theorem fetchNearbyPlaces_unconfigured (env : Option String) (latitude longitude : ℝ)
    (fetch : String → PlacesResponse) (rand : Nat → ℝ) (hkey : keyConfigured env = false) :
    fetchNearbyPlaces env latitude longitude fetch rand =
      { requests := [], result := getFallbackData latitude longitude rand } := by
  simp [fetchNearbyPlaces, hkey]

theorem fetchNearbyPlaces_failure (env : Option String) (latitude longitude : ℝ)
    (fetch : String → PlacesResponse) (rand : Nat → ℝ)
    (hfail : ∃ type ∈ searchTypes, fetch type = PlacesResponse.failure) :
    (fetchNearbyPlaces env latitude longitude fetch rand).result =
      getFallbackData latitude longitude rand := by
  by_cases hkey : keyConfigured env = false
  · rw [fetchNearbyPlaces_unconfigured env latitude longitude fetch rand hkey]
  · have h := fetchLoop_failure latitude longitude fetch searchTypes [] [] hfail
    simp only [fetchNearbyPlaces, if_neg hkey]
    rcases hloop : fetchLoop latitude longitude fetch searchTypes [] [] with
      ⟨requested, _ | allPlaces⟩
    · simp
    · rw [hloop] at h
      exact absurd h (by simp)


theorem fetchLoop_requests_length (latitude longitude : ℝ) (fetch : String → PlacesResponse)
    (types requested : List String) (allPlaces : List (Place ℝ)) :
    requested.length ≤ (fetchLoop latitude longitude fetch types requested allPlaces).1.length := by
  induction types generalizing requested allPlaces with
  | nil => simp [fetchLoop]
  | cons type rest ih =>
    have hstep : ∀ places, requested.length ≤
        (fetchLoop latitude longitude fetch rest (requested ++ [type]) places).1.length := by
      intro places
      have := ih (requested ++ [type]) places
      simp only [List.length_append, List.length_singleton] at this
      omega
    unfold fetchLoop
    split
    · simp
    · split
      · split
        · split
          · exact hstep _
          · simp
        · exact hstep _
      · exact hstep _

theorem fetchLoop_requests_ne_nil (latitude longitude : ℝ) (fetch : String → PlacesResponse)
    (type : String) (rest : List String) :
    (fetchLoop latitude longitude fetch (type :: rest) [] []).1 ≠ [] := by
  have hstep : ∀ places,
      (fetchLoop latitude longitude fetch rest ([] ++ [type]) places).1 ≠ [] := by
    intro places h
    have := fetchLoop_requests_length latitude longitude fetch rest ([] ++ [type]) places
    rw [h] at this
    simp at this
  unfold fetchLoop
  split
  · simp
  · split
    · split
      · split
        · exact hstep _
        · simp
      · exact hstep _
    · exact hstep _

theorem fetchNearbyPlaces_requests_ne_nil (env : Option String) (latitude longitude : ℝ)
    (fetch : String → PlacesResponse) (rand : Nat → ℝ) (hkey : keyConfigured env = true) :
    (fetchNearbyPlaces env latitude longitude fetch rand).requests ≠ [] := by
  have hkey' : ¬ keyConfigured env = false := by simp [hkey]
  have h := fetchLoop_requests_ne_nil latitude longitude fetch "hospital"
    ["atm", "supermarket", "pharmacy", "gas_station"]
  simp only [fetchNearbyPlaces, if_neg hkey']
  rcases hloop : fetchLoop latitude longitude fetch searchTypes [] [] with
    ⟨requested, _ | allPlaces⟩
  · have hr : requested ≠ [] := by
      intro hnil
      apply h
      show (fetchLoop latitude longitude fetch searchTypes [] []).1 = []
      rw [hloop]
      exact hnil
    simpa using hr
  · have hr : requested ≠ [] := by
      intro hnil
      apply h
      show (fetchLoop latitude longitude fetch searchTypes [] []).1 = []
      rw [hloop]
      exact hnil
    simpa using hr

theorem fetchNearbyPlacesOSM_failure (latitude longitude : ℝ) (rand : Nat → ℝ) :
    (fetchNearbyPlacesOSM latitude longitude OverpassResponse.failure rand).result =
      getFallbackData latitude longitude rand := by
  simp [fetchNearbyPlacesOSM]

theorem uniquePlaces_getFallbackData (userLat userLng : ℝ) (rand : Nat → ℝ) :
    uniquePlaces (getFallbackData userLat userLng rand) = getFallbackData userLat userLng rand :=
  uniquePlaces_eq_self _ (getFallbackData_names_nodup userLat userLng rand)

theorem orNumber_some (x : ℝ) (b : Option ℝ) (h : x ≠ 0) : orNumber (some x) b = some x := by
  simp [orNumber, h]

theorem falsyNumber_some (x : ℝ) (h : x ≠ 0) : falsyNumber (some x) = false := by
  simp [falsyNumber, h]

theorem orString_some (s : String) (b : Option String) (h : s ≠ "") :
    orString (some s) b = some s := by
  simp [orString, h]

theorem orString_none (b : Option String) : orString none b = b := rfl

theorem sampleElement_toPlace :
    osmElementToPlace 40 (-74) sampleElement 0 = some sampleOsmRecord := by
  have h1 : (40.01 : ℝ) ≠ 0 := by norm_num
  have h2 : (-74 : ℝ) ≠ 0 := by norm_num
  have h3 : "osm_" ++ toString (if (7 : Nat) = 0 then 0 else 7) = "osm_7" := by decide
  have h4 : osmType (some "hospital") = "hospital" := by decide
  have h5 : (orString (some (trim ("" ++ " " ++ ""))) (some "Address not available")).getD "" =
      "Address not available" := by decide
  simp only [osmElementToPlace, sampleElement, Option.bind, orNumber_some _ _ h1,
    orNumber_some _ _ h2, falsyNumber_some _ h1, falsyNumber_some _ h2, Bool.or_self,
    Bool.false_eq_true, if_false, orString_none,
    orString_some "hospital" _ (by decide), orString_some "City Hospital" _ (by decide),
    h4, Option.getD_some, sampleOsmRecord, h3, h5]

theorem sampleElement_result :
    (fetchNearbyPlacesOSM 40 (-74) (OverpassResponse.data (some [sampleElement]))
      (fun _ => 0)).result = [sampleOsmRecord] := by
  simp only [fetchNearbyPlacesOSM, List.enum, List.enumFrom, List.filterMap_cons,
    sampleElement_toPlace, List.filterMap_nil, sortByDistance, List.insertionSort,
    List.orderedInsert, List.take]

theorem sampleOsmRecord_fallback_nodup (rand : Nat → ℝ) :
    (([sampleOsmRecord] ++ getFallbackData 40 (-74) rand).map (fun p => p.name)).Nodup := by
  rw [List.singleton_append, List.map_cons, List.nodup_cons]
  refine ⟨?_, getFallbackData_names_nodup 40 (-74) rand⟩
  rw [(getFallbackData_names_perm 40 (-74) rand).mem_iff]
  show "City Hospital" ∉ fallbackIterations.map (fun item => fallbackName item.2.1 item.2.2)
  decide

/-- C7, as amended: without a configured key `fetchNearbyPlaces` issues no request and returns
the 20 records of the fallback generator. With 10 or more OSM records the deduplicated sequence
is that of the OSM result alone; with fewer than 10 it is the dedup of the OSM records followed
by the fallback records, and its count lies between the count for the OSM result alone and that
count plus 20. -/
theorem C7_unconfigured_key (env : Option String) (location : Location ℝ)
    (fetch : String → PlacesResponse) (rand : Nat → ℝ) (osm : List (Place ℝ))
    (hkey : keyConfigured env = false) :
    (fetchNearbyPlaces env location.latitude location.longitude fetch rand).requests = [] ∧
    (fetchNearbyPlaces env location.latitude location.longitude fetch rand).result =
      getFallbackData location.latitude location.longitude rand ∧
    (getFallbackData location.latitude location.longitude rand).length = 20 ∧
    (10 ≤ osm.length →
      (getUserLocation location osm
        (fetchNearbyPlaces env location.latitude location.longitude fetch rand).result).uniquePlaces
        = (getUserLocation location osm []).uniquePlaces) ∧
    (osm.length < 10 →
      (getUserLocation location osm
        (fetchNearbyPlaces env location.latitude location.longitude fetch rand).result).uniquePlaces
        = uniquePlaces (osm ++ getFallbackData location.latitude location.longitude rand) ∧
      (getUserLocation location osm []).uniquePlaces.length ≤
        (getUserLocation location osm
          (fetchNearbyPlaces env location.latitude location.longitude fetch
            rand).result).uniquePlaces.length ∧
      (getUserLocation location osm
          (fetchNearbyPlaces env location.latitude location.longitude fetch
            rand).result).uniquePlaces.length ≤
        (getUserLocation location osm []).uniquePlaces.length + 20) := by
  rw [fetchNearbyPlaces_unconfigured env _ _ fetch rand hkey]
  simp only [uniquePlaces_field_eq, gatherPlaces_snd]
  refine ⟨trivial, trivial, getFallbackData_length _ _ _, ?_, ?_⟩
  · intro h
    have h' : ¬ osm.length < 10 := by omega
    simp [h']
  · intro h
    have hb := uniquePlaces_append_length osm
      (getFallbackData location.latitude location.longitude rand)
    rw [getFallbackData_length] at hb
    simp only [if_pos h, List.append_nil]
    exact ⟨trivial, hb.1, hb.2⟩

/-- C8, as amended: when the request of `fetchNearbyPlacesOSM` fails, or when the key is
configured and a request issued by `fetchNearbyPlaces` fails, the adapter does not propagate the
failure: it returns a list, and that list is the 20 records of the fallback generator. -/
theorem C8_failure_returns_fallback (env : Option String) (latitude longitude : ℝ)
    (fetch : String → PlacesResponse) (rand : Nat → ℝ)
    (hkey : keyConfigured env = true)
    (hfail : ∃ type ∈ searchTypes, fetch type = PlacesResponse.failure) :
    (fetchNearbyPlacesOSM latitude longitude OverpassResponse.failure rand).result =
      getFallbackData latitude longitude rand ∧
    (fetchNearbyPlaces env latitude longitude fetch rand).requests ≠ [] ∧
    (fetchNearbyPlaces env latitude longitude fetch rand).result =
      getFallbackData latitude longitude rand ∧
    (getFallbackData latitude longitude rand).length = 20 :=
  ⟨fetchNearbyPlacesOSM_failure latitude longitude rand,
    fetchNearbyPlaces_requests_ne_nil env latitude longitude fetch rand hkey,
    fetchNearbyPlaces_failure env latitude longitude fetch rand hfail,
    getFallbackData_length latitude longitude rand⟩

/-- Counterexample to C7 as stated: Overpass answers with one element and no key is configured.
The OSM result alone gives 1 deduplicated record and the fallback generator gives 20; with the
unconfigured commercial adapter the deduplicated sequence has 21 records. -/
theorem C7_counterexample :
    keyConfigured none = false ∧
    (fetchNearbyPlacesOSM 40 (-74) (OverpassResponse.data (some [sampleElement]))
      (fun _ => 0)).result = [sampleOsmRecord] ∧
    (getUserLocation realLocation [sampleOsmRecord] []).uniquePlaces.length = 1 ∧
    (getFallbackData 40 (-74) (fun _ => 0)).length = 20 ∧
    (getUserLocation realLocation [sampleOsmRecord]
      (fetchNearbyPlaces none 40 (-74) (fun _ => PlacesResponse.failure)
        (fun _ => 0)).result).uniquePlaces.length = 21 ∧
    (getUserLocation realLocation [sampleOsmRecord]
      (fetchNearbyPlaces none 40 (-74) (fun _ => PlacesResponse.failure)
        (fun _ => 0)).result).uniquePlaces.length ≠
      (getUserLocation realLocation [sampleOsmRecord] []).uniquePlaces.length := by
  have h1 : (getUserLocation realLocation [sampleOsmRecord] []).uniquePlaces.length = 1 := by
    rw [uniquePlaces_field_eq, gatherPlaces_snd]
    simp only [List.length_singleton, Nat.one_lt_ofNat, if_true, List.append_nil]
    rw [uniquePlaces_eq_self _ (by simp)]
    rfl
  have h21 : (getUserLocation realLocation [sampleOsmRecord]
      (fetchNearbyPlaces none 40 (-74) (fun _ => PlacesResponse.failure)
        (fun _ => 0)).result).uniquePlaces.length = 21 := by
    rw [fetchNearbyPlaces_unconfigured none _ _ _ _ (by decide), uniquePlaces_field_eq,
      gatherPlaces_snd]
    simp only [List.length_singleton, Nat.one_lt_ofNat, if_true]
    rw [uniquePlaces_eq_self _ (sampleOsmRecord_fallback_nodup _), List.length_append,
      getFallbackData_length]
    rfl
  refine ⟨by decide, sampleElement_result, h1, getFallbackData_length _ _ _, h21, ?_⟩
  rw [h1, h21]
  decide

/-- Counterexample to C8 as stated: on a failed request neither adapter returns an empty
list. -/
theorem C8_counterexample :
    (fetchNearbyPlacesOSM 40 (-74) OverpassResponse.failure (fun _ => 0)).result ≠ [] ∧
    keyConfigured (some "configured-key") = true ∧
    (fetchNearbyPlaces (some "configured-key") 40 (-74) (fun _ => PlacesResponse.failure)
      (fun _ => 0)).result ≠ [] := by
  have hlen := getFallbackData_length 40 (-74) (fun _ => 0)
  have hne : getFallbackData 40 (-74) (fun _ => 0) ≠ [] := by
    intro h
    rw [h] at hlen
    exact absurd hlen (by decide)
  refine ⟨?_, by decide, ?_⟩
  · rw [fetchNearbyPlacesOSM_failure]
    exact hne
  · rw [fetchNearbyPlaces_failure _ _ _ _ _ ⟨"hospital", by decide, rfl⟩]
    exact hne

/-- Witness of C7: no key in the environment. -/
theorem C7_unconfigured_key_witness :
    keyConfigured none = false ∧
    (fetchNearbyPlaces none realLocation.latitude realLocation.longitude
      (fun _ => PlacesResponse.failure) (fun _ => 0)).requests = [] ∧
    (fetchNearbyPlaces none realLocation.latitude realLocation.longitude
      (fun _ => PlacesResponse.failure) (fun _ => 0)).result =
      getFallbackData realLocation.latitude realLocation.longitude (fun _ => 0) ∧
    (getFallbackData realLocation.latitude realLocation.longitude (fun _ => 0)).length = 20 :=
  ⟨by decide,
    (C7_unconfigured_key none realLocation (fun _ => PlacesResponse.failure) (fun _ => 0) []
      (by decide)).1,
    (C7_unconfigured_key none realLocation (fun _ => PlacesResponse.failure) (fun _ => 0) []
      (by decide)).2.1,
    (C7_unconfigured_key none realLocation (fun _ => PlacesResponse.failure) (fun _ => 0) []
      (by decide)).2.2.1⟩

/-- Witness of C8: a configured key and a provider whose every request fails. -/
theorem C8_failure_returns_fallback_witness :
    keyConfigured (some "configured-key") = true ∧
    (∃ type ∈ searchTypes,
      (fun _ : String => PlacesResponse.failure) type = PlacesResponse.failure) ∧
    (fetchNearbyPlaces (some "configured-key") 40 (-74) (fun _ => PlacesResponse.failure)
      (fun _ => 0)).result = getFallbackData 40 (-74) (fun _ => 0) ∧
    (getFallbackData 40 (-74) (fun _ => 0)).length = 20 :=
  ⟨by decide, ⟨"hospital", by decide, rfl⟩,
    (C8_failure_returns_fallback (some "configured-key") 40 (-74)
      (fun _ => PlacesResponse.failure) (fun _ => 0) (by decide)
      ⟨"hospital", by decide, rfl⟩).2.2⟩

theorem haversineA_eq_sq (lat1 lon1 lat2 lon2 : ℝ) :
    haversineA lat1 lon1 lat2 lon2 =
      Real.sin ((lat2 - lat1) * Real.pi / 180 / 2) ^ 2 +
        Real.cos (lat1 * Real.pi / 180) * Real.cos (lat2 * Real.pi / 180) *
          Real.sin ((lon2 - lon1) * Real.pi / 180 / 2) ^ 2 := by
  simp only [haversineA]
  ring

theorem haversineA_split (lat1 lon1 lat2 lon2 : ℝ) :
    haversineA lat1 lon1 lat2 lon2 =
      Real.sin ((lat2 - lat1) * Real.pi / 180 / 2) ^ 2 *
          Real.cos ((lon2 - lon1) * Real.pi / 180 / 2) ^ 2 +
        Real.sin ((lon2 - lon1) * Real.pi / 180 / 2) ^ 2 *
          Real.cos ((lat1 + lat2) * Real.pi / 180 / 2) ^ 2 := by
  rw [haversineA_eq_sq]
  have h1 : lat1 * Real.pi / 180 = 2 * (lat1 * Real.pi / 180 / 2) := by ring
  have h2 : lat2 * Real.pi / 180 = 2 * (lat2 * Real.pi / 180 / 2) := by ring
  have h3 : (lat2 - lat1) * Real.pi / 180 / 2 =
      lat2 * Real.pi / 180 / 2 - lat1 * Real.pi / 180 / 2 := by ring
  have h4 : (lat1 + lat2) * Real.pi / 180 / 2 =
      lat1 * Real.pi / 180 / 2 + lat2 * Real.pi / 180 / 2 := by ring
  rw [h1, h2, h3, h4, Real.cos_two_mul', Real.cos_two_mul', Real.sin_sub, Real.cos_add,
    Real.cos_sq' ((lon2 - lon1) * Real.pi / 180 / 2)]
  ring

theorem haversineA_nonneg (lat1 lon1 lat2 lon2 : ℝ) : 0 ≤ haversineA lat1 lon1 lat2 lon2 := by
  rw [haversineA_split]
  positivity

theorem haversineA_le_one (lat1 lon1 lat2 lon2 : ℝ) : haversineA lat1 lon1 lat2 lon2 ≤ 1 := by
  rw [haversineA_split]
  have h1 := Real.sin_sq_le_one ((lat2 - lat1) * Real.pi / 180 / 2)
  have h2 := Real.cos_sq_le_one ((lat1 + lat2) * Real.pi / 180 / 2)
  have h3 := Real.sin_sq_add_cos_sq ((lon2 - lon1) * Real.pi / 180 / 2)
  have h4 := sq_nonneg (Real.cos ((lon2 - lon1) * Real.pi / 180 / 2))
  have h5 := sq_nonneg (Real.sin ((lon2 - lon1) * Real.pi / 180 / 2))
  nlinarith

theorem atan2_sqrt (a : ℝ) (h0 : 0 ≤ a) (h1 : a ≤ 1) :
    atan2 (Real.sqrt a) (Real.sqrt (1 - a)) = Real.arcsin (Real.sqrt a) := by
  rcases eq_or_lt_of_le h1 with h | h
  · subst h
    simp [atan2]
  · have hx : 0 < Real.sqrt (1 - a) := Real.sqrt_pos.mpr (by linarith)
    have hs : Real.sqrt a < 1 := by
      rw [Real.sqrt_lt' one_pos]
      simpa using h
    have hmem : Real.sqrt a ∈ Set.Ioo (-1 : ℝ) 1 :=
      ⟨lt_of_lt_of_le (by norm_num) (Real.sqrt_nonneg a), hs⟩
    rw [atan2, if_pos hx, Real.arcsin_eq_arctan hmem, Real.sq_sqrt h0]

theorem calculateDistance_eq_arcsin (lat1 lon1 lat2 lon2 : ℝ) :
    calculateDistance lat1 lon1 lat2 lon2 =
      2 * 6371 * Real.arcsin (Real.sqrt (haversineA lat1 lon1 lat2 lon2)) := by
  simp only [calculateDistance]
  rw [atan2_sqrt _ (haversineA_nonneg _ _ _ _) (haversineA_le_one _ _ _ _)]
  ring

/-- In exact real arithmetic `calculateDistance` is the haversine great-circle distance with
radius 6371: with `a = sin²(dLat/2) + cos(lat1)·cos(lat2)·sin²(dLon/2)`, angles in radians, the
value `6371·2·atan2(√a, √(1 - a))` equals `2·6371·arcsin(√a)`. -/
theorem calculateDistance_is_haversine_exact (lat1 lon1 lat2 lon2 : ℝ) :
    calculateDistance lat1 lon1 lat2 lon2 = haversineDistance lat1 lon1 lat2 lon2 := by
  rw [calculateDistance_eq_arcsin, haversineA_eq_sq]
  rfl

/-- In exact real arithmetic, for all coordinates, also latitudes outside [-90, 90], the
intermediate `a` lies in [0, 1], so both square roots have non-negative arguments, and the
distance lies between 0 and `6371·π`. -/
theorem calculateDistance_bounds_exact (lat1 lon1 lat2 lon2 : ℝ) :
    0 ≤ haversineA lat1 lon1 lat2 lon2 ∧ haversineA lat1 lon1 lat2 lon2 ≤ 1 ∧
      0 ≤ 1 - haversineA lat1 lon1 lat2 lon2 ∧
      0 ≤ calculateDistance lat1 lon1 lat2 lon2 ∧
      calculateDistance lat1 lon1 lat2 lon2 ≤ 6371 * Real.pi := by
  have h0 := haversineA_nonneg lat1 lon1 lat2 lon2
  have h1 := haversineA_le_one lat1 lon1 lat2 lon2
  refine ⟨h0, h1, by linarith, ?_, ?_⟩
  · rw [calculateDistance_eq_arcsin]
    have := Real.arcsin_nonneg.mpr (Real.sqrt_nonneg (haversineA lat1 lon1 lat2 lon2))
    positivity
  · rw [calculateDistance_eq_arcsin]
    have := Real.arcsin_le_pi_div_two (Real.sqrt (haversineA lat1 lon1 lat2 lon2))
    linarith

theorem any_contains_iff (family : String × List String) (googleTypes : List String) :
    googleTypes.any (fun type => family.2.contains type) = true ↔
      familyMatches family googleTypes := by
  simp [familyMatches, List.any_eq_true]

theorem find?_append_first {β : Type} (p : β → Bool) (pre post : List β) (x : β)
    (hx : p x = true) (hpre : ∀ y ∈ pre, p y = false) :
    (pre ++ x :: post).find? p = some x := by
  induction pre with
  | nil => simp [hx]
  | cons y ys ih =>
    have hy := hpre y (List.mem_cons_self _ _)
    simp only [List.cons_append, List.find?_cons, hy]
    exact ih (fun z hz => hpre z (List.mem_cons_of_mem _ hz))

theorem convertPlaceType_of_find (googleTypes : List String) (family : String × List String)
    (h : SERVICE_TYPE_MAPPING.find?
      (fun entry => googleTypes.any (fun type => entry.2.contains type)) = some family) :
    convertPlaceType googleTypes = family.1 := by
  simp only [convertPlaceType, h]

theorem convertPlaceType_of_none (googleTypes : List String)
    (h : ∀ family ∈ SERVICE_TYPE_MAPPING, ¬ familyMatches family googleTypes) :
    convertPlaceType googleTypes = "other" := by
  have hfind : SERVICE_TYPE_MAPPING.find?
      (fun entry => googleTypes.any (fun type => entry.2.contains type)) = none := by
    rw [List.find?_eq_none]
    intro family hmem hany
    exact h family hmem ((any_contains_iff family googleTypes).mp hany)
  have hbank : googleTypes.contains "bank" = false := by
    rw [Bool.eq_false_iff]
    intro hc
    exact h ("atm", ["atm", "bank", "finance"]) (by decide)
      ⟨"bank", by simpa using hc, by decide⟩
  have hconv : googleTypes.contains "convenience_store" = false := by
    rw [Bool.eq_false_iff]
    intro hc
    exact h ("grocery", ["grocery_or_supermarket", "supermarket", "food", "convenience_store"])
      (by decide) ⟨"convenience_store", by simpa using hc, by decide⟩
  have hhealth : googleTypes.contains "health" = false := by
    rw [Bool.eq_false_iff]
    intro hc
    exact h ("hospital", ["hospital", "doctor", "health", "clinic", "medical"]) (by decide)
      ⟨"health", by simpa using hc, by decide⟩
  unfold convertPlaceType
  rw [hfind]
  simp only [hbank, hconv, hhealth]
  rfl

/-- C14: `convertPlaceType` returns the first family, in the order hospital, atm, grocery,
pharmacy, gas_station, whose token list contains a token of the input, and `other` exactly when
no family contains one; `["bank", "convenience_store"]` resolves to `atm` in either order. -/
theorem C14_convertPlaceType (googleTypes : List String) :
    SERVICE_TYPE_MAPPING.map Prod.fst =
      ["hospital", "atm", "grocery", "pharmacy", "gas_station"] ∧
    (∀ pre family post, SERVICE_TYPE_MAPPING = pre ++ family :: post →
      familyMatches family googleTypes →
      (∀ earlier ∈ pre, ¬ familyMatches earlier googleTypes) →
      convertPlaceType googleTypes = family.1) ∧
    (convertPlaceType googleTypes = "other" ↔
      ∀ family ∈ SERVICE_TYPE_MAPPING, ¬ familyMatches family googleTypes) ∧
    convertPlaceType ["bank", "convenience_store"] = "atm" ∧
    convertPlaceType ["convenience_store", "bank"] = "atm" := by
  refine ⟨by decide, ?_, ?_, by decide, by decide⟩
  · intro pre family post hsplit hmatch hpre
    apply convertPlaceType_of_find
    rw [hsplit]
    apply find?_append_first
    · exact (any_contains_iff family googleTypes).mpr hmatch
    · intro y hy
      rw [Bool.eq_false_iff]
      intro hany
      exact hpre y hy ((any_contains_iff y googleTypes).mp hany)
  · constructor
    · intro hother family hmem hmatch
      rcases hfind : SERVICE_TYPE_MAPPING.find?
          (fun entry => googleTypes.any (fun type => entry.2.contains type)) with _ | found
      · rw [List.find?_eq_none] at hfind
        exact hfind family hmem ((any_contains_iff family googleTypes).mpr hmatch)
      · have hres := convertPlaceType_of_find googleTypes found hfind
        have hin : found ∈ SERVICE_TYPE_MAPPING := List.mem_of_find?_eq_some hfind
        have hne : ∀ entry ∈ SERVICE_TYPE_MAPPING, entry.1 ≠ "other" := by decide
        exact hne found hin (hres ▸ hother)
    · exact convertPlaceType_of_none googleTypes

/-- Witness of C14: a place tagged `health` and `drugstore` resolves to the first matching
family, `hospital`; a place tagged `park` resolves to `other`. -/
theorem C14_convertPlaceType_witness :
    convertPlaceType ["drugstore", "health"] = "hospital" ∧
    convertPlaceType ["park"] = "other" :=
  ⟨(C14_convertPlaceType ["drugstore", "health"]).2.1 []
      ("hospital", ["hospital", "doctor", "health", "clinic", "medical"])
      [ ("atm", ["atm", "bank", "finance"]),
        ("grocery", ["grocery_or_supermarket", "supermarket", "food", "convenience_store"]),
        ("pharmacy", ["pharmacy", "drugstore", "health"]),
        ("gas_station", ["gas_station", "fuel", "petrol"]) ]
      (by decide) (by decide) (by decide),
    (C14_convertPlaceType ["park"]).2.2.1.mpr (by decide)⟩

theorem fetchNearbyPlacesOSM_elements (latitude longitude : ℝ) (elements : List OsmElement)
    (rand : Nat → ℝ) :
    (fetchNearbyPlacesOSM latitude longitude (OverpassResponse.data (some elements)) rand).result =
      (sortByDistance (parsedPlaces latitude longitude elements)).take 50 := by
  simp only [fetchNearbyPlacesOSM, parsedPlaces]

/-- C15: for every Overpass elements array, `fetchNearbyPlacesOSM` returns at most 50 records,
each built from an element that was not dropped, sorted ascending by distance; every parsed
record that is not returned is at least as far as every returned record. -/
theorem C15_osm_nearest_fifty (latitude longitude : ℝ) (elements : List OsmElement)
    (rand : Nat → ℝ) :
    (fetchNearbyPlacesOSM latitude longitude
      (OverpassResponse.data (some elements)) rand).result.length ≤ 50 ∧
    (fetchNearbyPlacesOSM latitude longitude
      (OverpassResponse.data (some elements)) rand).result.length =
        min 50 (parsedPlaces latitude longitude elements).length ∧
    (fetchNearbyPlacesOSM latitude longitude
      (OverpassResponse.data (some elements)) rand).result.Pairwise
        (fun a b => a.distance ≤ b.distance) ∧
    (∀ p ∈ (fetchNearbyPlacesOSM latitude longitude
      (OverpassResponse.data (some elements)) rand).result,
        p ∈ parsedPlaces latitude longitude elements) ∧
    (∀ q ∈ parsedPlaces latitude longitude elements,
      q ∉ (fetchNearbyPlacesOSM latitude longitude
        (OverpassResponse.data (some elements)) rand).result →
      ∀ p ∈ (fetchNearbyPlacesOSM latitude longitude
        (OverpassResponse.data (some elements)) rand).result, p.distance ≤ q.distance) := by
  rw [fetchNearbyPlacesOSM_elements]
  have hsorted := sortByDistance_pairwise (parsedPlaces latitude longitude elements)
  have hperm := sortByDistance_perm (parsedPlaces latitude longitude elements)
  refine ⟨List.length_take_le _ _, ?_, hsorted.sublist (List.take_sublist _ _), ?_, ?_⟩
  · rw [List.length_take, sortByDistance_length]
  · intro p hp
    exact hperm.mem_iff.mp (List.mem_of_mem_take hp)
  · intro q hq hnot p hp
    have hq' : q ∈ sortByDistance (parsedPlaces latitude longitude elements) :=
      hperm.mem_iff.mpr hq
    rw [← List.take_append_drop 50 (sortByDistance (parsedPlaces latitude longitude elements))]
      at hq' hsorted
    rcases List.mem_append.mp hq' with h | h
    · exact absurd h hnot
    · exact (List.pairwise_append.mp hsorted).2.2 p hp q h

theorem orNumber_zero (b : Option ℝ) : orNumber (some 0) b = b := by
  simp [orNumber]

theorem equatorElement_dropped (latitude longitude : ℝ) (index : Nat) :
    osmElementToPlace latitude longitude equatorElement index = none := by
  simp only [osmElementToPlace, equatorElement, orNumber_zero, Option.bind, falsyNumber,
    Bool.true_or, if_true]

/-- C16, evaluation at the failing input: an element that carries the direct coordinate
(0, 5) and no `center` is dropped, because line 124 and line 127 test the latitude 0 for
truthiness; the adapter returns no record for it. -/
theorem C16_zero_latitude_dropped :
    equatorElement.lat = some 0 ∧ equatorElement.lon = some 5 ∧
    equatorElement.center = none ∧
    osmElementToPlace (1 / 100) 5 equatorElement 0 = none ∧
    (fetchNearbyPlacesOSM (1 / 100) 5 (OverpassResponse.data (some [equatorElement]))
      (fun _ => 0)).result = [] := by
  refine ⟨rfl, rfl, rfl, equatorElement_dropped _ _ _, ?_⟩
  simp only [fetchNearbyPlacesOSM, List.enum, List.enumFrom, List.filterMap_cons,
    equatorElement_dropped, List.filterMap_nil, sortByDistance, List.insertionSort, List.take]

theorem fallbackLoop_types (userLat userLng : ℝ) (rand : Nat → ℝ)
    (items : List (Nat × PlaceType × Nat)) (n : Nat) :
    (fallbackLoop userLat userLng rand items n).map (fun p => p.type) =
      items.map (fun item => item.2.1.type) := by
  induction items generalizing n with
  | nil => rfl
  | cons item rest ih =>
    obtain ⟨categoryIndex, category, i⟩ := item
    simp [fallbackLoop, ih, fallbackPlace]

theorem getFallbackData_types_perm (userLat userLng : ℝ) (rand : Nat → ℝ) :
    ((getFallbackData userLat userLng rand).map (fun p => p.type)).Perm
      (fallbackIterations.map (fun item => item.2.1.type)) := by
  have hperm := (sortByDistance_perm
    (fallbackLoop userLat userLng rand fallbackIterations 0)).map (fun p => p.type)
  rw [fallbackLoop_types] at hperm
  exact hperm

theorem fallbackLoop_phone (userLat userLng : ℝ) (rand : Nat → ℝ)
    (items : List (Nat × PlaceType × Nat)) (n : Nat) :
    ∀ p ∈ fallbackLoop userLat userLng rand items n, (p.phone = none ↔ p.type = "atm") := by
  induction items generalizing n with
  | nil =>
    intro p hp
    simp [fallbackLoop] at hp
  | cons item rest ih =>
    obtain ⟨categoryIndex, category, i⟩ := item
    intro p hp
    simp only [fallbackLoop, List.mem_cons] at hp
    rcases hp with rfl | hp
    · by_cases hatm : category.type = "atm" <;> simp [fallbackPlace, hatm]
    · exact ih _ p hp

theorem getFallbackData_mem_loop (userLat userLng : ℝ) (rand : Nat → ℝ) (p : Place ℝ) :
    p ∈ getFallbackData userLat userLng rand ↔
      p ∈ fallbackLoop userLat userLng rand fallbackIterations 0 :=
  (sortByDistance_perm _).mem_iff

/-- C18: for every origin and every sequence of random draws, `getFallbackData` returns exactly
20 records, 4 of each of the categories hospital, atm, grocery, pharmacy, gas_station and none of
category other; the phone of a record is absent exactly when its category is atm. -/
theorem C18_fallback_shape (userLat userLng : ℝ) (rand : Nat → ℝ) :
    (getFallbackData userLat userLng rand).length = 20 ∧
    (∀ category ∈ ["hospital", "atm", "grocery", "pharmacy", "gas_station"],
      ((getFallbackData userLat userLng rand).map (fun p => p.type)).count category = 4) ∧
    (∀ p ∈ getFallbackData userLat userLng rand, p.type ≠ "other") ∧
    (∀ p ∈ getFallbackData userLat userLng rand, (p.phone = none ↔ p.type = "atm")) := by
  have hperm := getFallbackData_types_perm userLat userLng rand
  refine ⟨getFallbackData_length userLat userLng rand, ?_, ?_, ?_⟩
  · intro category hcat
    rw [hperm.count_eq]
    revert category
    decide
  · intro p hp hother
    have hmem : p.type ∈ (getFallbackData userLat userLng rand).map (fun p => p.type) :=
      List.mem_map.mpr ⟨p, hp, rfl⟩
    rw [hperm.mem_iff, hother] at hmem
    revert hmem
    decide
  · intro p hp
    exact fallbackLoop_phone userLat userLng rand fallbackIterations 0 p
      ((getFallbackData_mem_loop userLat userLng rand p).mp hp)

theorem filterFrom_sublist {β : Type} (pred : β → Nat → Bool) (l : List β) (k : Nat) :
    (filterFrom pred l k).Sublist l := by
  induction l generalizing k with
  | nil => simp [filterFrom]
  | cons x xs ih =>
    unfold filterFrom
    split
    · exact (ih _).cons₂ x
    · exact (ih _).cons x

theorem filterWithIndex_sublist {β : Type} (pred : β → Nat → Bool) (l : List β) :
    (filterWithIndex pred l).Sublist l :=
  filterFrom_sublist pred l 0

theorem mapM_option_mem {β γ : Type} (f : β → Option γ) (l : List β) (r : List γ)
    (h : l.mapM f = some r) : ∀ y ∈ r, ∃ x ∈ l, f x = some y := by
  induction l generalizing r with
  | nil =>
    simp only [List.mapM_nil] at h
    cases h
    intro y hy
    exact absurd hy (List.not_mem_nil _)
  | cons a as ih =>
    rw [List.mapM_cons] at h
    cases hfa : f a with
    | none =>
      rw [hfa] at h
      exact absurd h (by simp)
    | some b =>
      cases hrest : as.mapM f with
      | none =>
        rw [hfa, hrest] at h
        exact absurd h (by simp)
      | some bs =>
        rw [hfa, hrest] at h
        have hr : b :: bs = r := by simpa using h
        subst hr
        intro y hy
        rcases List.mem_cons.mp hy with rfl | hy'
        · exact ⟨a, List.mem_cons_self _ _, hfa⟩
        · obtain ⟨x, hx, hfx⟩ := ih bs hrest y hy'
          exact ⟨x, List.mem_cons_of_mem _ hx, hfx⟩

theorem fallbackLoop_computed (userLat userLng : ℝ) (rand : Nat → ℝ)
    (items : List (Nat × PlaceType × Nat)) (n : Nat) :
    ∀ p ∈ fallbackLoop userLat userLng rand items n, DistanceComputed userLat userLng p := by
  induction items generalizing n with
  | nil =>
    intro p hp
    simp [fallbackLoop] at hp
  | cons item rest ih =>
    obtain ⟨categoryIndex, category, i⟩ := item
    intro p hp
    simp only [fallbackLoop, List.mem_cons] at hp
    rcases hp with rfl | hp
    · simp [fallbackPlace, DistanceComputed]
    · exact ih _ p hp

theorem getFallbackData_computed (userLat userLng : ℝ) (rand : Nat → ℝ) :
    ∀ p ∈ getFallbackData userLat userLng rand, DistanceComputed userLat userLng p := by
  intro p hp
  exact fallbackLoop_computed userLat userLng rand fallbackIterations 0 p
    ((getFallbackData_mem_loop userLat userLng rand p).mp hp)

theorem osmElementToPlace_computed (latitude longitude : ℝ) (element : OsmElement)
    (index : Nat) (p : Place ℝ)
    (h : osmElementToPlace latitude longitude element index = some p) :
    DistanceComputed latitude longitude p := by
  unfold osmElementToPlace at h
  simp only [] at h
  split at h
  · exact absurd h (by simp)
  · simp only [Option.some.injEq] at h
    subst h
    rfl

theorem parsedPlaces_computed (latitude longitude : ℝ) (elements : List OsmElement) :
    ∀ p ∈ parsedPlaces latitude longitude elements, DistanceComputed latitude longitude p := by
  intro p hp
  obtain ⟨entry, _, hentry⟩ := List.mem_filterMap.mp hp
  exact osmElementToPlace_computed latitude longitude entry.2 entry.1 p hentry

theorem fetchNearbyPlacesOSM_computed (latitude longitude : ℝ) (response : OverpassResponse)
    (rand : Nat → ℝ) :
    ∀ p ∈ (fetchNearbyPlacesOSM latitude longitude response rand).result,
      DistanceComputed latitude longitude p := by
  intro p hp
  rcases response with _ | _ | elements
  · rw [fetchNearbyPlacesOSM_failure] at hp
    exact getFallbackData_computed latitude longitude rand p hp
  · have h : (fetchNearbyPlacesOSM latitude longitude (OverpassResponse.data none) rand).result =
        getFallbackData latitude longitude rand := by
      simp [fetchNearbyPlacesOSM]
    rw [h] at hp
    exact getFallbackData_computed latitude longitude rand p hp
  · rw [fetchNearbyPlacesOSM_elements] at hp
    exact parsedPlaces_computed latitude longitude elements p
      ((sortByDistance_perm _).mem_iff.mp (List.mem_of_mem_take hp))

theorem fetchLoop_success (latitude longitude : ℝ) (fetch : String → PlacesResponse)
    (types requested : List String) (allPlaces final : List (Place ℝ))
    (h : (fetchLoop latitude longitude fetch types requested allPlaces).2 = some final) :
    final = allPlaces ++ collectedPlaces latitude longitude fetch types := by
  induction types generalizing requested allPlaces with
  | nil =>
    simp only [fetchLoop, Option.some.injEq] at h
    simp [collectedPlaces, h]
  | cons type rest ih =>
    unfold fetchLoop at h
    have hcons : collectedPlaces latitude longitude fetch (type :: rest) =
        typePlaces latitude longitude fetch type ++
          collectedPlaces latitude longitude fetch rest := by
      simp [collectedPlaces]
    rw [hcons]
    cases hresp : fetch type with
    | failure =>
      rw [hresp] at h
      exact absurd h (by simp)
    | data status results =>
      rw [hresp] at h
      simp only [] at h
      by_cases hok : status = "OK"
      · rw [if_pos hok] at h
        cases results with
        | none =>
          simp only [] at h
          have := ih _ _ h
          simp [this, typePlaces, hresp]
        | some places =>
          simp only [] at h
          cases hmap : mapGooglePlaces latitude longitude type places with
          | none =>
            rw [hmap] at h
            exact absurd h (by simp)
          | some mapped =>
            rw [hmap] at h
            simp only [] at h
            have := ih _ _ h
            simp [this, typePlaces, hresp, hok, hmap]
      · rw [if_neg hok] at h
        have := ih _ _ h
        cases results <;> simp [this, typePlaces, hresp, hok]

theorem fetchNearbyPlaces_cases (env : Option String) (latitude longitude : ℝ)
    (fetch : String → PlacesResponse) (rand : Nat → ℝ) :
    (fetchNearbyPlaces env latitude longitude fetch rand).result =
        getFallbackData latitude longitude rand ∨
      (keyConfigured env = true ∧
        (fetchLoop latitude longitude fetch searchTypes [] []).2 =
          some (collectedPlaces latitude longitude fetch searchTypes) ∧
        (fetchNearbyPlaces env latitude longitude fetch rand).result =
          sortByDistance
            (uniqueByNameAddress (collectedPlaces latitude longitude fetch searchTypes))) := by
  by_cases hkey : keyConfigured env = false
  · left
    rw [fetchNearbyPlaces_unconfigured env latitude longitude fetch rand hkey]
  · simp only [fetchNearbyPlaces, if_neg hkey]
    rcases hloop : fetchLoop latitude longitude fetch searchTypes [] [] with
      ⟨requested, _ | allPlaces⟩
    · left
      simp
    · right
      have hfinal := fetchLoop_success latitude longitude fetch searchTypes [] [] allPlaces
        (by rw [hloop])
      rw [List.nil_append] at hfinal
      subst hfinal
      refine ⟨by simpa using hkey, rfl, ?_⟩
      simp [uniqueByNameAddress]

theorem googlePlaceToPlace_computed (latitude longitude : ℝ) (type : String)
    (place : GooglePlace) (index : Nat) (p : Place ℝ)
    (h : googlePlaceToPlace latitude longitude type place index = some p) :
    DistanceComputed latitude longitude p := by
  unfold googlePlaceToPlace at h
  split at h
  · simp only [Option.some.injEq] at h
    subst h
    rfl
  · exact absurd h (by simp)

theorem typePlaces_computed (latitude longitude : ℝ) (fetch : String → PlacesResponse)
    (type : String) :
    ∀ p ∈ typePlaces latitude longitude fetch type, DistanceComputed latitude longitude p := by
  intro p hp
  unfold typePlaces at hp
  split at hp
  · rename_i status results _
    split at hp
    · cases hmap : mapGooglePlaces latitude longitude type results with
      | none =>
        rw [hmap] at hp
        exact absurd hp (List.not_mem_nil _)
      | some mapped =>
        rw [hmap] at hp
        obtain ⟨entry, _, hentry⟩ := mapM_option_mem _ _ mapped hmap p hp
        exact googlePlaceToPlace_computed latitude longitude type entry.2 entry.1 p hentry
    · exact absurd hp (List.not_mem_nil _)
  · exact absurd hp (List.not_mem_nil _)

theorem collectedPlaces_computed (latitude longitude : ℝ) (fetch : String → PlacesResponse)
    (types : List String) :
    ∀ p ∈ collectedPlaces latitude longitude fetch types,
      DistanceComputed latitude longitude p := by
  intro p hp
  obtain ⟨type, _, hmem⟩ := List.mem_flatMap.mp hp
  exact typePlaces_computed latitude longitude fetch type p hmem

theorem fetchNearbyPlaces_computed (env : Option String) (latitude longitude : ℝ)
    (fetch : String → PlacesResponse) (rand : Nat → ℝ) :
    ∀ p ∈ (fetchNearbyPlaces env latitude longitude fetch rand).result,
      DistanceComputed latitude longitude p := by
  intro p hp
  rcases fetchNearbyPlaces_cases env latitude longitude fetch rand with h | ⟨_, _, h⟩
  · rw [h] at hp
    exact getFallbackData_computed latitude longitude rand p hp
  · rw [h] at hp
    have h1 := (sortByDistance_perm _).mem_iff.mp hp
    exact collectedPlaces_computed latitude longitude fetch searchTypes p
      ((filterWithIndex_sublist _ _).subset h1)

theorem essentials_subset {α : Type} [LinearOrderedField α] (location : Location α)
    (osm googlePlaces : List (Place α))
    (h : (getUserLocation location osm googlePlaces).usedTestData = false) :
    ∀ p ∈ (getUserLocation location osm googlePlaces).essentials, p ∈ osm ++ googlePlaces := by
  intro p hp
  rw [usedTestData_eq, decide_eq_false_iff_not] at h
  rw [essentials_eq, if_neg h] at hp
  have h1 := (sortByDistance_perm _).mem_iff.mp hp
  rw [uniquePlaces_eq_dedupAfter] at h1
  have h2 := (dedupAfter_sublist _ _).subset h1
  rw [gatherPlaces_snd] at h2
  split at h2
  · exact h2
  · exact List.mem_append_left _ h2

theorem essentials_testData {α : Type} [LinearOrderedField α] (location : Location α)
    (osm googlePlaces : List (Place α))
    (h : (getUserLocation location osm googlePlaces).usedTestData = true) :
    (getUserLocation location osm googlePlaces).essentials = testData location := by
  rw [usedTestData_eq, decide_eq_true_iff] at h
  rw [essentials_eq, if_pos h]

theorem calculateDistance_lon_reflect (lat1 lon1 lat2 e : ℝ) :
    calculateDistance lat1 lon1 lat2 (lon1 + e) = calculateDistance lat1 lon1 lat2 (lon1 - e) := by
  have h : haversineA lat1 lon1 lat2 (lon1 + e) = haversineA lat1 lon1 lat2 (lon1 - e) := by
    have h1 : (lon1 + e - lon1) * Real.pi / 180 / 2 = e * Real.pi / 180 / 2 := by ring
    have h2 : (lon1 - e - lon1) * Real.pi / 180 / 2 = -(e * Real.pi / 180 / 2) := by ring
    simp only [haversineA, h1, h2, Real.sin_neg]
    ring
  simp only [calculateDistance, h]

theorem fetchNearbyPlaces_zeroResults (latitude longitude : ℝ) (rand : Nat → ℝ) :
    (fetchNearbyPlaces (some "configured-key") latitude longitude zeroResults rand).result =
      [] := by
  have hkey : ¬ keyConfigured (some "configured-key") = false := by decide
  have hne : ¬ ("ZERO_RESULTS" = "OK") := by decide
  simp only [fetchNearbyPlaces, if_neg hkey, fetchLoop, searchTypes, zeroResults, if_neg hne]
  rfl

theorem fetchNearbyPlacesOSM_empty (latitude longitude : ℝ) (rand : Nat → ℝ) :
    (fetchNearbyPlacesOSM latitude longitude (OverpassResponse.data (some [])) rand).result =
      [] := by
  simp [fetchNearbyPlacesOSM, sortByDistance]

/-- C13, as amended: every record of the output that comes from the OSM adapter, the commercial
adapter or the fallback generator has its distance equal to `calculateDistance` from the origin
to the record; the three test markers, substituted when both adapters return nothing, carry the
fixed distances 0.1, 0.15 and 0.2. -/
theorem C13_distance_computed (location : Location ℝ) (overpass : OverpassResponse)
    (env : Option String) (fetch : String → PlacesResponse) (randOsm randGoogle : Nat → ℝ) :
    ((aggregationRun location overpass env fetch randOsm randGoogle).usedTestData = false →
      ∀ p ∈ (aggregationRun location overpass env fetch randOsm randGoogle).essentials,
        p.distance =
          calculateDistance location.latitude location.longitude p.latitude p.longitude) ∧
    ((aggregationRun location overpass env fetch randOsm randGoogle).usedTestData = true →
      (aggregationRun location overpass env fetch randOsm randGoogle).essentials.map
        (fun p => p.distance) = [0.1, 0.15, 0.2]) := by
  constructor
  · intro h p hp
    rcases List.mem_append.mp (essentials_subset _ _ _ h p hp) with hm | hm
    · exact fetchNearbyPlacesOSM_computed _ _ _ _ p hm
    · exact fetchNearbyPlaces_computed _ _ _ _ _ p hm
  · intro h
    rw [aggregationRun, essentials_testData _ _ _ h]
    rfl

/-- Counterexample to C13 as stated: Overpass answers with no elements and the commercial
provider with no results, so the test markers are shown; `test_1` and `test_3` lie at the same
computed distance from the origin but carry the distances 0.1 and 0.2. -/
theorem C13_counterexample :
    ¬ (∀ p ∈ (aggregationRun realLocation (OverpassResponse.data (some []))
        (some "configured-key") zeroResults (fun _ => 0) (fun _ => 0)).essentials,
      p.distance =
        calculateDistance realLocation.latitude realLocation.longitude p.latitude p.longitude) := by
  intro hall
  have hess : (aggregationRun realLocation (OverpassResponse.data (some []))
      (some "configured-key") zeroResults (fun _ => 0) (fun _ => 0)).essentials =
      testData realLocation := by
    rw [aggregationRun, fetchNearbyPlaces_zeroResults, fetchNearbyPlacesOSM_empty]
    exact essentials_testData _ _ _ ((usedTestData_iff _ _ _).mpr ⟨rfl, rfl⟩)
  rw [hess] at hall
  have h1 := hall _ (List.mem_cons_self _ _)
  have h3 := hall _ (List.mem_cons_of_mem _ (List.mem_cons_of_mem _ (List.mem_cons_self _ _)))
  simp only [] at h1 h3
  rw [calculateDistance_lon_reflect, ← h3] at h1
  norm_num at h1

/-- Witness of C13: the run of the counterexample takes the test-marker branch; a run in which
Overpass answers with `sampleElement` does not. -/
theorem C13_distance_computed_witness :
    (aggregationRun realLocation (OverpassResponse.data (some []))
      (some "configured-key") zeroResults (fun _ => 0) (fun _ => 0)).usedTestData = true ∧
    (aggregationRun realLocation (OverpassResponse.data (some []))
      (some "configured-key") zeroResults (fun _ => 0) (fun _ => 0)).essentials.map
        (fun p => p.distance) = [0.1, 0.15, 0.2] ∧
    (aggregationRun realLocation (OverpassResponse.data (some [sampleElement]))
      (some "configured-key") zeroResults (fun _ => 0) (fun _ => 0)).usedTestData = false ∧
    (∀ p ∈ (aggregationRun realLocation (OverpassResponse.data (some [sampleElement]))
      (some "configured-key") zeroResults (fun _ => 0) (fun _ => 0)).essentials,
        p.distance =
          calculateDistance realLocation.latitude realLocation.longitude p.latitude p.longitude) := by
  have ht : (aggregationRun realLocation (OverpassResponse.data (some []))
      (some "configured-key") zeroResults (fun _ => 0) (fun _ => 0)).usedTestData = true := by
    rw [aggregationRun, fetchNearbyPlaces_zeroResults, fetchNearbyPlacesOSM_empty]
    exact (usedTestData_iff _ _ _).mpr ⟨rfl, rfl⟩
  have hf : (aggregationRun realLocation (OverpassResponse.data (some [sampleElement]))
      (some "configured-key") zeroResults (fun _ => 0) (fun _ => 0)).usedTestData = false := by
    rw [aggregationRun, fetchNearbyPlaces_zeroResults]
    have hr : (fetchNearbyPlacesOSM realLocation.latitude realLocation.longitude
        (OverpassResponse.data (some [sampleElement])) (fun _ => 0)).result =
        [sampleOsmRecord] := sampleElement_result
    rw [hr, Bool.eq_false_iff]
    intro hcon
    have := (usedTestData_iff _ _ _).mp hcon
    exact absurd this.1 (by simp)
  exact ⟨ht,
    (C13_distance_computed realLocation (OverpassResponse.data (some []))
      (some "configured-key") zeroResults (fun _ => 0) (fun _ => 0)).2 ht,
    hf,
    (C13_distance_computed realLocation (OverpassResponse.data (some [sampleElement]))
      (some "configured-key") zeroResults (fun _ => 0) (fun _ => 0)).1 hf⟩

theorem filterFrom_eq_dedupBy {β : Type} (m : β → β → Bool) (hrefl : ∀ x, m x x = true)
    (pre suf : List β) :
    filterFrom
      (fun x index => decide ((index : Int) = findIndex (m x) (pre ++ suf)))
      suf pre.length = dedupBy m pre suf := by
  induction suf generalizing pre with
  | nil => simp [filterFrom, dedupBy]
  | cons x xs ih =>
    have hrest := ih (pre ++ [x])
    simp only [List.append_assoc, List.singleton_append, List.length_append,
      List.length_singleton] at hrest
    have hkey := findIndexFrom_append_hit (m x) pre xs x 0 (hrefl x)
    simp only [Nat.zero_add] at hkey
    by_cases hany : pre.any (m x) = true
    · have hne : ¬ ((pre.length : Int) = findIndex (m x) (pre ++ x :: xs)) := by
        intro h
        have := hkey.mp h.symm
        simp only [List.any_eq_true] at hany
        obtain ⟨y, hy, hy'⟩ := hany
        rw [this y hy] at hy'
        exact Bool.noConfusion hy'
      simp only [filterFrom, dedupBy, hany, hne, decide_False, if_true, hrest]
      simp
    · have heq : (pre.length : Int) = findIndex (m x) (pre ++ x :: xs) := by
        symm
        apply hkey.mpr
        intro y hy
        simp only [List.any_eq_true, not_exists, not_and, Bool.not_eq_true] at hany
        exact hany y hy
      simp only [filterFrom, dedupBy, hany, heq, decide_True, if_true, hrest]
      simp

theorem dedupBy_sublist {β : Type} (m : β → β → Bool) (seen l : List β) :
    (dedupBy m seen l).Sublist l := by
  induction l generalizing seen with
  | nil => simp [dedupBy]
  | cons x xs ih =>
    unfold dedupBy
    split
    · exact (ih _).cons x
    · exact (ih _).cons₂ x

theorem dedupBy_mem {β : Type} (m : β → β → Bool) (seen l : List β) (y : β)
    (hy : y ∈ dedupBy m seen l) :
    ∃ pre post, l = pre ++ y :: post ∧ ∀ s ∈ seen ++ pre, m y s = false := by
  induction l generalizing seen with
  | nil => simp [dedupBy] at hy
  | cons x xs ih =>
    have hstep : y ∈ dedupBy m (seen ++ [x]) xs →
        ∃ pre post, x :: xs = pre ++ y :: post ∧ ∀ s ∈ seen ++ pre, m y s = false := by
      intro hin
      obtain ⟨pre, post, hsplit, hno⟩ := ih _ hin
      refine ⟨x :: pre, post, by rw [hsplit]; rfl, ?_⟩
      intro s hs
      apply hno s
      simp only [List.mem_append, List.mem_cons, List.mem_singleton, List.not_mem_nil,
        or_false] at hs ⊢
      tauto
    unfold dedupBy at hy
    split at hy
    · exact hstep hy
    · rename_i hany
      rcases List.mem_cons.mp hy with rfl | hy'
      · refine ⟨[], xs, rfl, ?_⟩
        intro s hs
        rw [List.append_nil] at hs
        simp only [List.any_eq_true, not_exists, not_and, Bool.not_eq_true] at hany
        exact hany s hs
      · exact hstep hy'

theorem dedupBy_mem_of_split {β : Type} (m : β → β → Bool) (seen pre post : List β) (y : β)
    (hno : ∀ s ∈ seen ++ pre, m y s = false) : y ∈ dedupBy m seen (pre ++ y :: post) := by
  induction pre generalizing seen with
  | nil =>
    have hany : ¬ (seen.any (m y) = true) := by
      simp only [List.any_eq_true, not_exists, not_and, Bool.not_eq_true]
      intro s hs
      exact hno s (by simpa using hs)
    simp [dedupBy, hany]
  | cons x xs ih =>
    have hrest : y ∈ dedupBy m (seen ++ [x]) (xs ++ y :: post) := by
      apply ih
      intro s hs
      apply hno s
      simp only [List.mem_append, List.mem_cons, List.mem_singleton, List.not_mem_nil,
        or_false] at hs ⊢
      tauto
    simp only [List.cons_append, dedupBy]
    split
    · exact hrest
    · exact List.mem_cons_of_mem _ hrest

theorem dedupBy_pairwise {β : Type} (m : β → β → Bool) (seen l : List β) :
    (dedupBy m seen l).Pairwise (fun a b => m b a = false) := by
  induction l generalizing seen with
  | nil => simp [dedupBy]
  | cons x xs ih =>
    unfold dedupBy
    split
    · exact ih _
    · refine List.Pairwise.cons ?_ (ih _)
      intro y hy
      obtain ⟨pre, post, _, hno⟩ := dedupBy_mem m _ _ y hy
      exact hno x (by simp)

theorem uniqueByNameAddress_eq {α : Type} (allPlaces : List (Place α)) :
    uniqueByNameAddress allPlaces = dedupBy sameNameAddress [] allPlaces := by
  have h := filterFrom_eq_dedupBy (sameNameAddress : Place α → Place α → Bool)
    (fun x => by simp [sameNameAddress]) [] allPlaces
  simpa [uniqueByNameAddress, filterWithIndex] using h

theorem mapM_option_length {β γ : Type} (f : β → Option γ) (l : List β) (r : List γ)
    (h : l.mapM f = some r) : r.length = l.length := by
  induction l generalizing r with
  | nil =>
    simp only [List.mapM_nil] at h
    cases h
    rfl
  | cons a as ih =>
    rw [List.mapM_cons] at h
    cases hfa : f a with
    | none =>
      rw [hfa] at h
      exact absurd h (by simp)
    | some b =>
      cases hrest : as.mapM f with
      | none =>
        rw [hfa, hrest] at h
        exact absurd h (by simp)
      | some bs =>
        rw [hfa, hrest] at h
        have hr : b :: bs = r := by simpa using h
        subst hr
        simp [ih bs hrest]

theorem typePlaces_length (latitude longitude : ℝ) (fetch : String → PlacesResponse)
    (type : String) : (typePlaces latitude longitude fetch type).length ≤ 10 := by
  unfold typePlaces
  split
  · rename_i status results _
    split
    · cases hmap : mapGooglePlaces latitude longitude type results with
      | none => simp
      | some mapped =>
        have := mapM_option_length _ _ mapped hmap
        simp only [Option.getD_some, this, List.enum_length, List.length_take]
        omega
    · simp
  · simp

theorem typePlaces_source (latitude longitude : ℝ) (fetch : String → PlacesResponse)
    (type : String) :
    ∀ p ∈ typePlaces latitude longitude fetch type,
      ∃ results index place, fetch type = PlacesResponse.data "OK" (some results) ∧
        index < 10 ∧ results[index]? = some place ∧
        googlePlaceToPlace latitude longitude type place index = some p := by
  intro p hp
  unfold typePlaces at hp
  split at hp
  · rename_i status results hresp
    split at hp
    · rename_i hok
      cases hmap : mapGooglePlaces latitude longitude type results with
      | none =>
        rw [hmap] at hp
        exact absurd hp (List.not_mem_nil _)
      | some mapped =>
        rw [hmap] at hp
        obtain ⟨entry, hentry, hconv⟩ := mapM_option_mem _ _ mapped hmap p hp
        have hget := List.mem_enum_iff_getElem?.mp hentry
        have hlt := List.fst_lt_of_mem_enum hentry
        rw [List.length_take] at hlt
        rw [List.getElem?_take_of_lt (by omega)] at hget
        exact ⟨results, entry.1, entry.2, by rw [hresp, hok], by omega, hget, hconv⟩
    · exact absurd hp (List.not_mem_nil _)
  · exact absurd hp (List.not_mem_nil _)

theorem fetchNearbyPlaces_success (env : Option String) (latitude longitude : ℝ)
    (fetch : String → PlacesResponse) (rand : Nat → ℝ) (allPlaces : List (Place ℝ))
    (hkey : keyConfigured env = true)
    (hok : (fetchLoop latitude longitude fetch searchTypes [] []).2 = some allPlaces) :
    allPlaces = collectedPlaces latitude longitude fetch searchTypes ∧
      (fetchNearbyPlaces env latitude longitude fetch rand).result =
        sortByDistance (uniqueByNameAddress allPlaces) := by
  have hkey' : ¬ keyConfigured env = false := by simp [hkey]
  have hfinal := fetchLoop_success latitude longitude fetch searchTypes [] [] allPlaces hok
  rw [List.nil_append] at hfinal
  refine ⟨hfinal, ?_⟩
  simp only [fetchNearbyPlaces, if_neg hkey']
  rcases hloop : fetchLoop latitude longitude fetch searchTypes [] [] with
    ⟨requested, _ | found⟩
  · rw [hloop] at hok
    exact absurd hok (by simp)
  · rw [hloop] at hok
    have hfa : found = allPlaces := by simpa using hok
    subst hfa
    simp [uniqueByNameAddress]

theorem sameNameAddress_eq {α : Type} (p : Place α) :
    sameNameAddress p = fun q => decide (q.name = p.name ∧ q.address = p.address) := by
  funext q
  simp [sameNameAddress, Bool.decide_and]

theorem collectedPlaces_length (latitude longitude : ℝ) (fetch : String → PlacesResponse) :
    (collectedPlaces latitude longitude fetch searchTypes).length ≤ 50 := by
  have h := typePlaces_length latitude longitude fetch
  have h1 := h "hospital"
  have h2 := h "atm"
  have h3 := h "supermarket"
  have h4 := h "pharmacy"
  have h5 := h "gas_station"
  simp only [collectedPlaces, searchTypes, List.flatMap_cons, List.flatMap_nil,
    List.length_append, List.length_nil]
  omega

/-- C17: with a configured key and no failure, `fetchNearbyPlaces` collects at most the first
10 results of each of the 5 category queries, in query order; the list it returns holds no two
records at distinct positions with both equal name and equal address, and for each (name,
address) pair among the collected records it holds exactly the first collected record of that
pair. -/
theorem C17_commercial_dedup (env : Option String) (latitude longitude : ℝ)
    (fetch : String → PlacesResponse) (rand : Nat → ℝ) (allPlaces : List (Place ℝ))
    (hkey : keyConfigured env = true)
    (hok : (fetchLoop latitude longitude fetch searchTypes [] []).2 = some allPlaces) :
    searchTypes.length = 5 ∧
    allPlaces = collectedPlaces latitude longitude fetch searchTypes ∧
    (∀ type, (typePlaces latitude longitude fetch type).length ≤ 10) ∧
    (∀ type, ∀ p ∈ typePlaces latitude longitude fetch type,
      ∃ results index place, fetch type = PlacesResponse.data "OK" (some results) ∧
        index < 10 ∧ results[index]? = some place ∧
        googlePlaceToPlace latitude longitude type place index = some p) ∧
    (∀ r ∈ (fetchNearbyPlaces env latitude longitude fetch rand).result, r ∈ allPlaces) ∧
    (fetchNearbyPlaces env latitude longitude fetch rand).result.length ≤ 50 ∧
    (∀ (i j : Nat) (a b : Place ℝ), i ≠ j →
      (fetchNearbyPlaces env latitude longitude fetch rand).result[i]? = some a →
      (fetchNearbyPlaces env latitude longitude fetch rand).result[j]? = some b →
      ¬ (a.name = b.name ∧ a.address = b.address)) ∧
    (∀ p ∈ allPlaces, ∃ q,
      allPlaces.find? (fun q => decide (q.name = p.name ∧ q.address = p.address)) = some q ∧
      q ∈ (fetchNearbyPlaces env latitude longitude fetch rand).result) ∧
    (∀ r ∈ (fetchNearbyPlaces env latitude longitude fetch rand).result,
      allPlaces.find? (fun q => decide (q.name = r.name ∧ q.address = r.address)) = some r) := by
  obtain ⟨hall, hres⟩ := fetchNearbyPlaces_success env latitude longitude fetch rand allPlaces
    hkey hok
  rw [hres, uniqueByNameAddress_eq]
  have hperm := sortByDistance_perm (dedupBy sameNameAddress [] allPlaces)
  have hsub := dedupBy_sublist sameNameAddress [] allPlaces
  refine ⟨rfl, hall, typePlaces_length latitude longitude fetch,
    typePlaces_source latitude longitude fetch, ?_, ?_, ?_, ?_, ?_⟩
  · intro r hr
    exact hsub.subset (hperm.mem_iff.mp hr)
  · rw [sortByDistance_length]
    have h1 := hsub.length_le
    have h2 := collectedPlaces_length latitude longitude fetch
    rw [← hall] at h2
    omega
  · have hpw : (sortByDistance (dedupBy sameNameAddress [] allPlaces)).Pairwise
        (fun a b : Place ℝ => ¬ (a.name = b.name ∧ a.address = b.address)) := by
      refine (hperm.pairwise_iff ?_).mpr ?_
      · intro a b h hba
        exact h ⟨hba.1.symm, hba.2.symm⟩
      · refine List.Pairwise.imp ?_ (dedupBy_pairwise sameNameAddress [] allPlaces)
        intro a b hab hne
        simp [sameNameAddress, hne.1, hne.2] at hab
    intro i j a b hij ha hb
    rcases Nat.lt_or_gt_of_ne hij with h | h
    · exact pairwise_getElem? hpw h ha hb
    · intro hab
      exact pairwise_getElem? hpw h hb ha ⟨hab.1.symm, hab.2.symm⟩
  · intro p hp
    have hsome : (allPlaces.find? (sameNameAddress p)).isSome := by
      rw [List.find?_isSome]
      exact ⟨p, hp, by simp [sameNameAddress]⟩
    obtain ⟨q, hq⟩ := Option.isSome_iff_exists.mp hsome
    refine ⟨q, by rw [← sameNameAddress_eq]; exact hq, ?_⟩
    obtain ⟨hpq, pre, post, hsplit, hpre⟩ := List.find?_eq_some.mp hq
    rw [hperm.mem_iff, hsplit]
    apply dedupBy_mem_of_split
    intro s hs
    rw [List.nil_append] at hs
    have hps := hpre s hs
    simp only [sameNameAddress, Bool.and_eq_true, decide_eq_true_eq, Bool.not_eq_true',
      Bool.and_eq_false_imp] at hpq hps ⊢
    intro hname
    have := hps (by rw [hname, hpq.1])
    rw [hpq.2]
    exact this
  · intro r hr
    obtain ⟨pre, post, hsplit, hno⟩ := dedupBy_mem sameNameAddress [] allPlaces r
      (hperm.mem_iff.mp hr)
    rw [← sameNameAddress_eq, hsplit]
    apply find?_append_first
    · simp [sameNameAddress]
    · intro y hy
      exact hno y (by simpa using hy)

theorem sampleGooglePlace_toPlace (type placeId name vicinity : String) (index : Nat)
    (hid : placeId ≠ "") (hv : vicinity ≠ "") :
    googlePlaceToPlace 40 (-74) type (sampleGooglePlace placeId name vicinity) index =
      some (sampleGoogleRecord (type ++ "_" ++ placeId) name vicinity) := by
  have hc : convertPlaceType ["hospital"] = "hospital" := by decide
  simp only [googlePlaceToPlace, sampleGooglePlace, orString_some _ _ hid, orString_some _ _ hv,
    Option.getD_some, hc, orNumber, orString_none, sampleGoogleRecord]

theorem sampleFetch_loop :
    (fetchLoop 40 (-74) sampleFetch searchTypes [] []).2 =
      some [sampleGoogleRecord "hospital_a" "City Clinic" "1 Main St",
        sampleGoogleRecord "pharmacy_a" "City Clinic" "1 Main St",
        sampleGoogleRecord "pharmacy_b" "Drug Mart" "2 Main St"] := by
  have h1 : sampleFetch "hospital" =
      PlacesResponse.data "OK" (some [sampleGooglePlace "a" "City Clinic" "1 Main St"]) := by
    simp [sampleFetch]
  have h2 : sampleFetch "atm" = PlacesResponse.data "ZERO_RESULTS" none := by
    simp [sampleFetch]
  have h3 : sampleFetch "supermarket" = PlacesResponse.data "ZERO_RESULTS" none := by
    simp [sampleFetch]
  have h4 : sampleFetch "pharmacy" =
      PlacesResponse.data "OK"
        (some [sampleGooglePlace "a" "City Clinic" "1 Main St",
          sampleGooglePlace "b" "Drug Mart" "2 Main St"]) := by
    simp [sampleFetch]
  have h5 : sampleFetch "gas_station" = PlacesResponse.data "ZERO_RESULTS" none := by
    simp [sampleFetch]
  have hne : ¬ ("ZERO_RESULTS" = "OK") := by decide
  have m1 : mapGooglePlaces 40 (-74) "hospital"
      [sampleGooglePlace "a" "City Clinic" "1 Main St"] =
      some [sampleGoogleRecord "hospital_a" "City Clinic" "1 Main St"] := by
    simp only [mapGooglePlaces, List.take, List.enum, List.enumFrom, List.mapM_cons,
      List.mapM_nil,
      sampleGooglePlace_toPlace "hospital" "a" "City Clinic" "1 Main St" 0 (by decide)
        (by decide)]
    rfl
  have m2 : mapGooglePlaces 40 (-74) "pharmacy"
      [sampleGooglePlace "a" "City Clinic" "1 Main St",
        sampleGooglePlace "b" "Drug Mart" "2 Main St"] =
      some [sampleGoogleRecord "pharmacy_a" "City Clinic" "1 Main St",
        sampleGoogleRecord "pharmacy_b" "Drug Mart" "2 Main St"] := by
    simp only [mapGooglePlaces, List.take, List.enum, List.enumFrom, List.mapM_cons,
      List.mapM_nil,
      sampleGooglePlace_toPlace "pharmacy" "a" "City Clinic" "1 Main St" 0 (by decide)
        (by decide),
      sampleGooglePlace_toPlace "pharmacy" "b" "Drug Mart" "2 Main St" 1 (by decide)
        (by decide)]
    rfl
  simp only [fetchLoop, searchTypes, h1, h2, h3, h4, h5, m1, m2, if_neg hne, if_true,
    List.nil_append, List.singleton_append, List.cons_append]

/-- Witness of C17: the `hospital` and the `pharmacy` query both return "City Clinic, 1 Main
St"; three records are collected. -/
theorem C17_commercial_dedup_witness :
    keyConfigured (some "configured-key") = true ∧
    (fetchLoop 40 (-74) sampleFetch searchTypes [] []).2 =
      some [sampleGoogleRecord "hospital_a" "City Clinic" "1 Main St",
        sampleGoogleRecord "pharmacy_a" "City Clinic" "1 Main St",
        sampleGoogleRecord "pharmacy_b" "Drug Mart" "2 Main St"] ∧
    (fetchNearbyPlaces (some "configured-key") 40 (-74) sampleFetch
      (fun _ => 0)).result.length ≤ 50 ∧
    (∀ r ∈ (fetchNearbyPlaces (some "configured-key") 40 (-74) sampleFetch (fun _ => 0)).result,
      [sampleGoogleRecord "hospital_a" "City Clinic" "1 Main St",
        sampleGoogleRecord "pharmacy_a" "City Clinic" "1 Main St",
        sampleGoogleRecord "pharmacy_b" "Drug Mart" "2 Main St"].find?
          (fun q => decide (q.name = r.name ∧ q.address = r.address)) = some r) :=
  ⟨by decide, sampleFetch_loop,
    (C17_commercial_dedup (some "configured-key") 40 (-74) sampleFetch (fun _ => 0) _
      (by decide) sampleFetch_loop).2.2.2.2.2.1,
    (C17_commercial_dedup (some "configured-key") 40 (-74) sampleFetch (fun _ => 0) _
      (by decide) sampleFetch_loop).2.2.2.2.2.2.2.2⟩

theorem sin_half_sq (x : ℝ) : Real.sin (x / 2) ^ 2 = (1 - Real.cos x) / 2 := by
  have h := Real.sin_sq_eq_half_sub (x / 2)
  have h2 : 2 * (x / 2) = x := by ring
  rw [h2] at h
  linarith

theorem sqrt_mul_cos_atan2 (y x : ℝ) :
    Real.sqrt (x ^ 2 + y ^ 2) * Real.cos (atan2 y x) = x := by
  rcases lt_trichotomy 0 x with hx | hx | hx
  · have hu : 0 < 1 + (y / x) ^ 2 := by positivity
    have hsq : x ^ 2 + y ^ 2 = x ^ 2 * (1 + (y / x) ^ 2) := by
      field_simp
    rw [atan2, if_pos hx, Real.cos_arctan, hsq, Real.sqrt_mul (sq_nonneg x),
      Real.sqrt_sq hx.le]
    have hs : Real.sqrt (1 + (y / x) ^ 2) ≠ 0 := (Real.sqrt_pos.mpr hu).ne'
    field_simp
  · subst hx
    have h0 : ¬ ((0 : ℝ) < 0) := lt_irrefl 0
    rcases lt_trichotomy 0 y with hy | hy | hy
    · rw [atan2, if_neg h0, if_neg h0, if_pos hy, Real.cos_pi_div_two, mul_zero]
    · subst hy
      simp [atan2]
    · have hy' : ¬ (0 < y) := not_lt.mpr hy.le
      rw [atan2, if_neg h0, if_neg h0, if_neg hy', if_pos hy, Real.cos_neg,
        Real.cos_pi_div_two, mul_zero]
  · have hu : 0 < 1 + (y / x) ^ 2 := by positivity
    have hx0 : x ≠ 0 := hx.ne
    have hsq : x ^ 2 + y ^ 2 = x ^ 2 * (1 + (y / x) ^ 2) := by
      field_simp
    have hnot : ¬ (0 < x) := not_lt.mpr hx.le
    have hs : Real.sqrt (1 + (y / x) ^ 2) ≠ 0 := (Real.sqrt_pos.mpr hu).ne'
    have hcos : Real.cos (atan2 y x) = -Real.cos (Real.arctan (y / x)) := by
      rw [atan2, if_neg hnot, if_pos hx]
      split
      · exact Real.cos_add_pi _
      · exact Real.cos_sub_pi _
    rw [hcos, Real.cos_arctan, hsq, Real.sqrt_mul (sq_nonneg x), Real.sqrt_sq_eq_abs,
      abs_of_neg hx]
    field_simp

theorem destination_identity (s c sd cd st ct : ℝ) (h1 : s ^ 2 + c ^ 2 = 1)
    (h2 : sd ^ 2 + cd ^ 2 = 1) (h3 : st ^ 2 + ct ^ 2 = 1) :
    (cd - s * (s * cd + c * sd * ct)) ^ 2 + (st * sd * c) ^ 2 =
      (c ^ 2) * (1 - (s * cd + c * sd * ct) ^ 2) := by
  have hX : cd - s * (s * cd + c * sd * ct) = c * (c * cd - s * sd * ct) := by
    linear_combination (-cd) * h1
  have hS : 1 - (s * cd + c * sd * ct) ^ 2 = (c * cd - s * sd * ct) ^ 2 + st ^ 2 * sd ^ 2 := by
    linear_combination (-(cd ^ 2 + sd ^ 2 * ct ^ 2)) * h1 - sd ^ 2 * h3 - h2
  rw [hX, hS]
  ring

theorem destination_sin_le (s c sd cd st ct : ℝ) (h1 : s ^ 2 + c ^ 2 = 1)
    (h2 : sd ^ 2 + cd ^ 2 = 1) (h3 : st ^ 2 + ct ^ 2 = 1) :
    (s * cd + c * sd * ct) ^ 2 ≤ 1 := by
  have hS : 1 - (s * cd + c * sd * ct) ^ 2 = (c * cd - s * sd * ct) ^ 2 + st ^ 2 * sd ^ 2 := by
    linear_combination (-(cd ^ 2 + sd ^ 2 * ct ^ 2)) * h1 - sd ^ 2 * h3 - h2
  have : 0 ≤ (c * cd - s * sd * ct) ^ 2 + st ^ 2 * sd ^ 2 := by positivity
  linarith

theorem generateNearbyCoordinate_fst (baseLat baseLng maxDistanceKm r1 r2 : ℝ) :
    (generateNearbyCoordinate baseLat baseLng maxDistanceKm r1 r2).1 * Real.pi / 180 =
      Real.arcsin
        (Real.sin (baseLat * Real.pi / 180) * Real.cos (r1 * (maxDistanceKm / 6371)) +
          Real.cos (baseLat * Real.pi / 180) * Real.sin (r1 * (maxDistanceKm / 6371)) *
            Real.cos (r2 * 2 * Real.pi)) := by
  simp only [generateNearbyCoordinate]
  field_simp

theorem generateNearbyCoordinate_snd (baseLat baseLng maxDistanceKm r1 r2 : ℝ) :
    ((generateNearbyCoordinate baseLat baseLng maxDistanceKm r1 r2).2 - baseLng) *
        Real.pi / 180 =
      atan2
        (Real.sin (r2 * 2 * Real.pi) * Real.sin (r1 * (maxDistanceKm / 6371)) *
          Real.cos (baseLat * Real.pi / 180))
        (Real.cos (r1 * (maxDistanceKm / 6371)) -
          Real.sin (baseLat * Real.pi / 180) *
            Real.sin ((generateNearbyCoordinate baseLat baseLng maxDistanceKm r1 r2).1 *
              Real.pi / 180)) := by
  simp only [generateNearbyCoordinate]
  field_simp
  ring

theorem generateNearbyCoordinate_haversineA (baseLat baseLng maxDistanceKm r1 r2 : ℝ)
    (hlo : -90 ≤ baseLat) (hhi : baseLat ≤ 90) :
    haversineA baseLat baseLng (generateNearbyCoordinate baseLat baseLng maxDistanceKm r1 r2).1
        (generateNearbyCoordinate baseLat baseLng maxDistanceKm r1 r2).2 =
      Real.sin (r1 * (maxDistanceKm / 6371) / 2) ^ 2 := by
  have e1 : ((generateNearbyCoordinate baseLat baseLng maxDistanceKm r1 r2).1 - baseLat) *
      Real.pi / 180 / 2 =
      ((generateNearbyCoordinate baseLat baseLng maxDistanceKm r1 r2).1 * Real.pi / 180 -
        baseLat * Real.pi / 180) / 2 := by ring
  rw [haversineA_eq_sq, e1, generateNearbyCoordinate_snd, generateNearbyCoordinate_fst,
    sin_half_sq, sin_half_sq, sin_half_sq, Real.cos_sub]
  have hpi := Real.pi_pos
  have hφlo : -(Real.pi / 2) ≤ baseLat * Real.pi / 180 := by nlinarith
  have hφhi : baseLat * Real.pi / 180 ≤ Real.pi / 2 := by nlinarith
  have hc : 0 ≤ Real.cos (baseLat * Real.pi / 180) :=
    Real.cos_nonneg_of_neg_pi_div_two_le_of_le hφlo hφhi
  have t1 := Real.sin_sq_add_cos_sq (baseLat * Real.pi / 180)
  have t2 := Real.sin_sq_add_cos_sq (r1 * (maxDistanceKm / 6371))
  have t3 := Real.sin_sq_add_cos_sq (r2 * 2 * Real.pi)
  generalize Real.sin (baseLat * Real.pi / 180) = s at *
  generalize Real.cos (baseLat * Real.pi / 180) = c at *
  generalize Real.sin (r1 * (maxDistanceKm / 6371)) = sd at *
  generalize Real.cos (r1 * (maxDistanceKm / 6371)) = cd at *
  generalize Real.sin (r2 * 2 * Real.pi) = st at *
  generalize Real.cos (r2 * 2 * Real.pi) = ct at *
  have hS2 := destination_sin_le s c sd cd st ct t1 t2 t3
  have hSabs := abs_le.mp ((sq_le_one_iff_abs_le_one _).mp hS2)
  have hsin : Real.sin (Real.arcsin (s * cd + c * sd * ct)) = s * cd + c * sd * ct :=
    Real.sin_arcsin hSabs.1 hSabs.2
  have hcos := Real.cos_arcsin (s * cd + c * sd * ct)
  rw [hsin]
  have hprod : c * Real.sqrt (1 - (s * cd + c * sd * ct) ^ 2) =
      Real.sqrt ((cd - s * (s * cd + c * sd * ct)) ^ 2 + (st * sd * c) ^ 2) := by
    rw [destination_identity s c sd cd st ct t1 t2 t3, Real.sqrt_mul (sq_nonneg c),
      Real.sqrt_sq hc]
  have key := sqrt_mul_cos_atan2 (st * sd * c) (cd - s * (s * cd + c * sd * ct))
  rw [← hprod] at key
  rw [hcos]
  linear_combination (-(1 : ℝ) / 2) * key

theorem generateNearbyCoordinate_distance (baseLat baseLng r1 r2 : ℝ)
    (hlo : -90 ≤ baseLat) (hhi : baseLat ≤ 90) (h0 : 0 ≤ r1) (h1 : r1 < 1) :
    calculateDistance baseLat baseLng (generateNearbyCoordinate baseLat baseLng 5 r1 r2).1
        (generateNearbyCoordinate baseLat baseLng 5 r1 r2).2 = 5 * r1 := by
  have hpi := Real.pi_gt_three
  have hx0 : 0 ≤ r1 * (5 / 6371) / 2 := by positivity
  have hx1 : r1 * (5 / 6371) / 2 ≤ Real.pi / 2 := by nlinarith
  have hsin : 0 ≤ Real.sin (r1 * (5 / 6371) / 2) :=
    Real.sin_nonneg_of_nonneg_of_le_pi hx0 (by linarith)
  rw [calculateDistance_eq_arcsin, generateNearbyCoordinate_haversineA _ _ _ _ _ hlo hhi,
    Real.sqrt_sq hsin, Real.arcsin_sin (by linarith) hx1]
  ring

theorem fallbackLoop_distance (userLat userLng : ℝ) (rand : Nat → ℝ)
    (items : List (Nat × PlaceType × Nat)) (n : Nat) :
    ∀ p ∈ fallbackLoop userLat userLng rand items n, ∃ k,
      p.distance = calculateDistance userLat userLng
        (generateNearbyCoordinate userLat userLng 5 (rand k) (rand (k + 1))).1
        (generateNearbyCoordinate userLat userLng 5 (rand k) (rand (k + 1))).2 := by
  induction items generalizing n with
  | nil =>
    intro p hp
    simp [fallbackLoop] at hp
  | cons item rest ih =>
    obtain ⟨categoryIndex, category, i⟩ := item
    intro p hp
    simp only [fallbackLoop, List.mem_cons] at hp
    rcases hp with rfl | hp
    · exact ⟨n, rfl⟩
    · exact ih _ p hp

/-- In exact real arithmetic, for an origin whose latitude lies in [-90, 90] and random draws
in [0, 1), the coordinate produced by `generateNearbyCoordinate` lies at the distance `5·r1`
from the origin, where `r1` is the first draw, so every record of `getFallbackData` has a
distance between 0 and 5. In doubles the distance is `5·r1` up to rounding only. -/
theorem fallback_within_radius_exact (userLat userLng : ℝ) (rand : Nat → ℝ)
    (hlo : -90 ≤ userLat) (hhi : userLat ≤ 90) (hrand : ∀ n, 0 ≤ rand n ∧ rand n < 1) :
    (∀ r1 r2 : ℝ, 0 ≤ r1 → r1 < 1 → 0 ≤ r2 → r2 < 1 →
      calculateDistance userLat userLng (generateNearbyCoordinate userLat userLng 5 r1 r2).1
        (generateNearbyCoordinate userLat userLng 5 r1 r2).2 = 5 * r1 ∧
      calculateDistance userLat userLng (generateNearbyCoordinate userLat userLng 5 r1 r2).1
        (generateNearbyCoordinate userLat userLng 5 r1 r2).2 < 5) ∧
    (∀ p ∈ getFallbackData userLat userLng rand, 0 ≤ p.distance ∧ p.distance ≤ 5) := by
  constructor
  · intro r1 r2 h0 h1 _ _
    have h := generateNearbyCoordinate_distance userLat userLng r1 r2 hlo hhi h0 h1
    exact ⟨h, by rw [h]; linarith⟩
  · intro p hp
    obtain ⟨k, hk⟩ := fallbackLoop_distance userLat userLng rand fallbackIterations 0 p
      ((getFallbackData_mem_loop userLat userLng rand p).mp hp)
    rw [hk, generateNearbyCoordinate_distance userLat userLng _ _ hlo hhi (hrand k).1
      (hrand k).2]
    have := hrand k
    constructor <;> linarith

theorem trim_example :
    trim (String.mk [Char.ofNat 0xA0, ' ', 'a', ' ', 'b', '\t', Char.ofNat 0x2003, '\n']) = "a b" ∧
      trim "" = "" ∧ trim "  " = "" := by
  decide

theorem toFixed4_example :
    toFixed4 (12345 / 1000) = "12.3450" ∧ toFixed4 (98765 / 1000) = "98.7650" ∧
      toFixed4 (-1 / 100000) = "-0.0000" ∧ toFixed4 (-74) = "-74.0000" := by
  decide!

theorem string_append_ne_empty_right (a b : String) (hb : b ≠ "") : a ++ b ≠ "" := by
  intro h
  apply hb
  have hd := congrArg String.data h
  rw [String.data_append] at hd
  have hb' : b.data = [] := (List.append_eq_nil.mp hd).2
  exact String.ext hb'

theorem string_append_ne_empty_left (a b : String) (ha : a ≠ "") : a ++ b ≠ "" := by
  intro h
  apply ha
  have hd := congrArg String.data h
  rw [String.data_append] at hd
  have ha' : a.data = [] := (List.append_eq_nil.mp hd).1
  exact String.ext ha'

theorem getAddressFromCoordinates_both_fail (lat lng : ℚ) (osm : NominatimResponse)
    (apiKey : Option String) (google : GeocodeResponse) (e₁ e₂ : String)
    (h₁ : getAddressFromCoordinatesOSM osm = Except.error e₁)
    (h₂ : getAddressFromCoordinatesGoogle apiKey google = Except.error e₂) :
    getAddressFromCoordinates lat lng osm apiKey google =
        some (toFixed4 lat ++ ", " ++ toFixed4 lng) ∧
      toFixed4 lat ++ ", " ++ toFixed4 lng ≠ "" := by
  constructor
  · simp only [getAddressFromCoordinates, h₁, h₂]
  · exact string_append_ne_empty_left _ _
      (string_append_ne_empty_right _ _ (by decide))

theorem getAddressFromCoordinates_osm_ok (lat lng : ℚ) (osm : NominatimResponse)
    (apiKey : Option String) (google : GeocodeResponse) (address : String)
    (h : getAddressFromCoordinatesOSM osm = Except.ok address) :
    getAddressFromCoordinates lat lng osm apiKey google = some address := by
  simp only [getAddressFromCoordinates, h]

/-- C20, evaluation at the failing input: the free provider fails and the commercial provider,
with a configured key, answers `OK` with a first result whose `formatted_address` is empty or
missing; `getAddressFromCoordinates` returns the empty string, respectively `undefined`, instead
of a non-empty string. When both providers fail, the coordinates 12.345 and 98.765 are rendered
as "12.3450, 98.7650". -/
theorem C20_google_empty_address :
    getAddressFromCoordinates (12345 / 1000) (98765 / 1000) NominatimResponse.failure
      (some "geocoding-key")
      (GeocodeResponse.body "OK" (some [{ formatted_address := some "" }])) = some "" ∧
    getAddressFromCoordinates (12345 / 1000) (98765 / 1000) NominatimResponse.failure
      (some "geocoding-key")
      (GeocodeResponse.body "OK" (some [{ formatted_address := none }])) = none ∧
    getAddressFromCoordinates (12345 / 1000) (98765 / 1000) NominatimResponse.failure none
      GeocodeResponse.failure = some "12.3450, 98.7650" := by
  decide!

theorem truthyString_getD (a : Option String) (h : truthyString a = true) : a.getD "" ≠ "" := by
  cases a with
  | none => simp [truthyString] at h
  | some s => simpa [truthyString] using h

theorem addressParts_ne_empty (address : NominatimAddress) :
    ∀ p ∈ addressParts address, p ≠ "" := by
  intro p hp
  simp only [addressParts, List.mem_append] at hp
  rcases hp with (((hp | hp) | hp) | hp) | hp
  · split at hp
    · rw [List.mem_singleton] at hp
      subst hp
      exact string_append_ne_empty_left _ _
        (string_append_ne_empty_right _ _ (by decide))
    · split at hp
      · rename_i h
        rw [List.mem_singleton] at hp
        subst hp
        exact truthyString_getD _ h
      · exact absurd hp (List.not_mem_nil _)
  · split at hp
    · rename_i h
      rw [List.mem_singleton] at hp
      subst hp
      exact truthyString_getD _ h
    · exact absurd hp (List.not_mem_nil _)
  · split at hp
    · rename_i h
      rw [List.mem_singleton] at hp
      subst hp
      exact truthyString_getD _ h
    · exact absurd hp (List.not_mem_nil _)
  · split at hp
    · rename_i h
      rw [List.mem_singleton] at hp
      subst hp
      exact truthyString_getD _ h
    · exact absurd hp (List.not_mem_nil _)
  · split at hp
    · rename_i h
      rw [List.mem_singleton] at hp
      subst hp
      exact truthyString_getD _ h
    · exact absurd hp (List.not_mem_nil _)

theorem intercalate_go_ne_empty (acc s : String) (l : List String) (h : acc ≠ "") :
    String.intercalate.go acc s l ≠ "" := by
  induction l generalizing acc with
  | nil => simpa [String.intercalate.go] using h
  | cons a as ih =>
    simp only [String.intercalate.go]
    exact ih _ (string_append_ne_empty_left _ _ (string_append_ne_empty_left _ _ h))

theorem intercalate_ne_empty (s : String) (l : List String) (hl : l ≠ [])
    (h : ∀ p ∈ l, p ≠ "") : s.intercalate l ≠ "" := by
  cases l with
  | nil => exact absurd rfl hl
  | cons a as =>
    simp only [String.intercalate]
    exact intercalate_go_ne_empty a s as (h a (List.mem_cons_self _ _))

theorem getAddressFromCoordinatesOSM_nonempty (response : NominatimResponse) (address : String)
    (h : getAddressFromCoordinatesOSM response = Except.ok address) : address ≠ "" := by
  unfold getAddressFromCoordinatesOSM at h
  split at h
  · exact absurd h (by simp)
  · exact absurd h (by simp)
  · exact absurd h (by simp)
  · rename_i data
    split at h
    · rename_i hname
      simp only [] at h
      split at h
      · rename_i hlen
        have heq : ", ".intercalate (addressParts (data.address.getD emptyAddress)) =
            address := by
          injection h
        rw [← heq]
        apply intercalate_ne_empty
        · intro hnil
          rw [hnil] at hlen
          exact absurd hlen (by decide)
        · exact addressParts_ne_empty _
      · have heq : data.display_name.getD "" = address := by
          injection h
        rw [← heq]
        exact truthyString_getD _ hname
    · exact absurd h (by simp)

theorem getAddressFromCoordinates_nonempty (lat lng : ℚ) (osm : NominatimResponse)
    (apiKey : Option String) (google : GeocodeResponse)
    (hgoogle : ∀ a, getAddressFromCoordinatesGoogle apiKey google = Except.ok a →
      truthyString a = true) :
    ∃ s, getAddressFromCoordinates lat lng osm apiKey google = some s ∧ s ≠ "" := by
  cases hosm : getAddressFromCoordinatesOSM osm with
  | ok address =>
    exact ⟨address, getAddressFromCoordinates_osm_ok lat lng osm apiKey google address hosm,
      getAddressFromCoordinatesOSM_nonempty osm address hosm⟩
  | error e₁ =>
    cases hg : getAddressFromCoordinatesGoogle apiKey google with
    | error e₂ =>
      have := getAddressFromCoordinates_both_fail lat lng osm apiKey google e₁ e₂ hosm hg
      exact ⟨_, this.1, this.2⟩
    | ok a =>
      have ht := hgoogle a hg
      cases a with
      | none => simp [truthyString] at ht
      | some s =>
        refine ⟨s, ?_, by simpa [truthyString] using ht⟩
        simp only [getAddressFromCoordinates, hosm, hg]

theorem osmElementToPlace_direct (latitude longitude : ℝ) (element : OsmElement) (index : Nat)
    (x y : ℝ) (hlat : element.lat = some x) (hlon : element.lon = some y) (hx : x ≠ 0)
    (hy : y ≠ 0) :
    ∃ p, osmElementToPlace latitude longitude element index = some p ∧
      p.latitude = x ∧ p.longitude = y := by
  simp only [osmElementToPlace, hlat, hlon, orNumber_some _ _ hx, orNumber_some _ _ hy,
    falsyNumber_some _ hx, falsyNumber_some _ hy, Bool.or_self, Bool.false_eq_true, if_false,
    Option.getD_some]
  exact ⟨_, rfl, rfl, rfl⟩

theorem osmElementToPlace_center (latitude longitude : ℝ) (element : OsmElement) (index : Nat)
    (x y : ℝ) (hlat : element.lat = none) (hlon : element.lon = none)
    (hcenter : element.center = some { lat := some x, lon := some y }) (hx : x ≠ 0)
    (hy : y ≠ 0) :
    ∃ p, osmElementToPlace latitude longitude element index = some p ∧
      p.latitude = x ∧ p.longitude = y := by
  simp only [osmElementToPlace, hlat, hlon, hcenter, orNumber, Option.bind,
    falsyNumber_some _ hx, falsyNumber_some _ hy, Bool.or_self, Bool.false_eq_true, if_false,
    Option.getD_some]
  exact ⟨_, rfl, rfl, rfl⟩

theorem osmElementToPlace_neither (latitude longitude : ℝ) (element : OsmElement) (index : Nat)
    (hlat : element.lat = none) (hcenter : element.center = none) :
    osmElementToPlace latitude longitude element index = none := by
  simp only [osmElementToPlace, hlat, hcenter, orNumber, Option.bind, falsyNumber,
    Bool.true_or, if_true]

theorem truthyString_none : truthyString none = false := rfl

theorem truthyString_some (s : String) : truthyString (some s) = decide (s ≠ "") := rfl

theorem streetComponent_toList (address : NominatimAddress) :
    (if truthyString address.house_number && truthyString address.road then
        [address.house_number.getD "" ++ " " ++ address.road.getD ""]
      else if truthyString address.road then [address.road.getD ""]
      else []) = (streetComponent address).toList := by
  unfold streetComponent
  cases hr : address.road with
  | none => simp [truthyString_none]
  | some r =>
    by_cases hre : r = ""
    · simp [truthyString_some, hre]
    · cases hn : address.house_number with
      | none => simp [truthyString_some, truthyString_none, hre]
      | some n =>
        by_cases hne : n = "" <;> simp [truthyString_some, hre, hne]

theorem present_toList (a : Option String) :
    (if truthyString a then [a.getD ""] else []) = (present a).toList := by
  unfold present
  cases a with
  | none => simp [truthyString_none]
  | some s => by_cases hs : s = "" <;> simp [truthyString_some, hs]

theorem firstPresent_two_toList (a b : Option String) :
    (if truthyString (orString a b) then [(orString a b).getD ""] else []) =
      (firstPresent [a, b]).toList := by
  cases a with
  | none =>
    simp only [orString_none, firstPresent, truthyString_none, Bool.false_eq_true, if_false]
    rw [present_toList]
    simp [present]
  | some s =>
    by_cases hs : s = ""
    · subst hs
      have h : orString (some "") b = b := by simp [orString]
      simp only [h, firstPresent]
      rw [present_toList]
      simp [present, truthyString_some]
    · rw [orString_some s b hs]
      simp [firstPresent, truthyString_some, hs]

theorem firstPresent_three_toList (a b c : Option String) :
    (if truthyString (orString (orString a b) c) then
        [(orString (orString a b) c).getD ""] else []) =
      (firstPresent [a, b, c]).toList := by
  have hfalsy : ∀ x : Option String, truthyString x = false → ∀ y, orString x y = y := by
    intro x hx y
    cases x with
    | none => rfl
    | some s =>
      have hs : s = "" := by simpa [truthyString_some] using hx
      simp [orString, hs]
  have htruthy : ∀ x : Option String, truthyString x = true → ∀ y, orString x y = x := by
    intro x hx y
    cases x with
    | none => simp [truthyString_none] at hx
    | some s =>
      have hs : s ≠ "" := by simpa [truthyString_some] using hx
      exact orString_some s y hs
  by_cases ha : truthyString a = true
  · rw [htruthy a ha b, htruthy a ha c]
    simp only [firstPresent, ha, if_true]
    cases a with
    | none => simp [truthyString_none] at ha
    | some s => rfl
  · have ha' : truthyString a = false := by simpa using ha
    rw [hfalsy a ha' b]
    simp only [firstPresent, ha', Bool.false_eq_true, if_false]
    have h2 := firstPresent_two_toList b c
    simp only [firstPresent] at h2
    exact h2

theorem addressParts_eq_components (address : NominatimAddress) :
    addressParts address = (addressComponents address).filterMap id := by
  have hfm : ∀ c1 c2 c3 c4 c5 : Option String,
      [c1, c2, c3, c4, c5].filterMap id =
        c1.toList ++ c2.toList ++ c3.toList ++ c4.toList ++ c5.toList := by
    intro c1 c2 c3 c4 c5
    cases c1 <;> cases c2 <;> cases c3 <;> cases c4 <;> cases c5 <;> rfl
  rw [addressComponents, hfm, addressParts, streetComponent_toList, firstPresent_two_toList,
    firstPresent_three_toList, present_toList, present_toList]

theorem streetComponent_eq_none (address : NominatimAddress) :
    streetComponent address = none ↔ truthyString address.road = false := by
  unfold streetComponent
  cases hr : address.road with
  | none => simp [truthyString_none]
  | some r =>
    by_cases hre : r = ""
    · simp [truthyString_some, hre]
    · by_cases hn : truthyString address.house_number = true <;>
        simp [truthyString_some, hre, hn]

theorem present_eq_none (a : Option String) : present a = none ↔ truthyString a = false := by
  unfold present
  cases a with
  | none => simp [truthyString_none]
  | some s => by_cases hs : s = "" <;> simp [truthyString_some, hs]

theorem firstPresent_eq_none (l : List (Option String)) :
    firstPresent l = none ↔ ∀ a ∈ l, truthyString a = false := by
  induction l with
  | nil => simp [firstPresent]
  | cons a rest ih =>
    by_cases ha : truthyString a = true
    · have hne : a ≠ none := by
        intro h
        rw [h, truthyString_none] at ha
        exact Bool.noConfusion ha
      simp [firstPresent, ha, hne]
    · have ha' : truthyString a = false := by simpa using ha
      simp [firstPresent, ha', ih]

theorem components_empty_iff (address : NominatimAddress) :
    (addressComponents address).filterMap id = [] ↔
      (truthyString address.road = false ∧
        truthyString address.neighbourhood = false ∧ truthyString address.suburb = false ∧
        truthyString address.city = false ∧ truthyString address.town = false ∧
        truthyString address.village = false ∧
        truthyString address.state = false ∧ truthyString address.country = false) := by
  have hfm : ∀ c1 c2 c3 c4 c5 : Option String,
      [c1, c2, c3, c4, c5].filterMap id = [] ↔
        c1 = none ∧ c2 = none ∧ c3 = none ∧ c4 = none ∧ c5 = none := by
    intro c1 c2 c3 c4 c5
    cases c1 <;> cases c2 <;> cases c3 <;> cases c4 <;> cases c5 <;> simp
  rw [addressComponents, hfm, streetComponent_eq_none, firstPresent_eq_none,
    firstPresent_eq_none, present_eq_none, present_eq_none]
  simp only [List.mem_cons, List.mem_singleton, List.not_mem_nil, or_false, forall_eq_or_imp,
    forall_eq]
  tauto

/-- C21: for a response of the free provider whose `display_name` is not empty,
`getAddressFromCoordinatesOSM` returns the ", "-join of the present components in the order
street ("house_number road", or the road alone), neighbourhood else suburb, city else town else
village, state, country; it returns `display_name` itself exactly in the case that none of these
components is present. -/
theorem C21_osm_address_format (data : NominatimData) (displayName : String)
    (hname : data.display_name = some displayName) (hne : displayName ≠ "") :
    getAddressFromCoordinatesOSM (NominatimResponse.body (some data)) =
      Except.ok (formattedAddress displayName (data.address.getD emptyAddress)) ∧
    (((addressComponents (data.address.getD emptyAddress)).filterMap id ≠ [] ∧
        formattedAddress displayName (data.address.getD emptyAddress) =
          ", ".intercalate ((addressComponents (data.address.getD emptyAddress)).filterMap id)) ∨
      ((addressComponents (data.address.getD emptyAddress)).filterMap id = [] ∧
        formattedAddress displayName (data.address.getD emptyAddress) = displayName)) ∧
    ((addressComponents (data.address.getD emptyAddress)).filterMap id = [] ↔
      (truthyString (data.address.getD emptyAddress).road = false ∧
        truthyString (data.address.getD emptyAddress).neighbourhood = false ∧
        truthyString (data.address.getD emptyAddress).suburb = false ∧
        truthyString (data.address.getD emptyAddress).city = false ∧
        truthyString (data.address.getD emptyAddress).town = false ∧
        truthyString (data.address.getD emptyAddress).village = false ∧
        truthyString (data.address.getD emptyAddress).state = false ∧
        truthyString (data.address.getD emptyAddress).country = false)) := by
  have htruthy : truthyString (some displayName) = true := by
    simp [truthyString_some, hne]
  refine ⟨?_, ?_, components_empty_iff _⟩
  · simp only [getAddressFromCoordinatesOSM, hname, htruthy, if_true,
      addressParts_eq_components, formattedAddress, Option.getD_some]
    by_cases hempty : (addressComponents (data.address.getD emptyAddress)).filterMap id = []
    · simp [hempty]
    · have hpos : 0 < ((addressComponents (data.address.getD emptyAddress)).filterMap id).length :=
        List.length_pos.mpr hempty
      simp [hempty, hpos]
  · by_cases hempty : (addressComponents (data.address.getD emptyAddress)).filterMap id = []
    · right
      exact ⟨hempty, by simp [formattedAddress, hempty]⟩
    · left
      exact ⟨hempty, by simp [formattedAddress, hempty]⟩

/-- Witness of C21: a house in a suburb, and a response that carries only a house number. -/
theorem C21_osm_address_format_witness :
    sampleNominatimData.display_name =
      some "12, Main Street, Soho, London, Greater London, England, UK" ∧
    "12, Main Street, Soho, London, Greater London, England, UK" ≠ "" ∧
    getAddressFromCoordinatesOSM (NominatimResponse.body (some sampleNominatimData)) =
      Except.ok "12 Main Street, Soho, London, England, UK" ∧
    getAddressFromCoordinatesOSM (NominatimResponse.body (some bareNominatimData)) =
      Except.ok "12, somewhere" :=
  ⟨rfl, by decide,
    (C21_osm_address_format sampleNominatimData
      "12, Main Street, Soho, London, Greater London, England, UK" rfl (by decide)).1,
    (C21_osm_address_format bareNominatimData "12, somewhere" rfl (by decide)).1⟩

theorem dedupAfter_eq_dedupBy {α : Type} [LinearOrderedField α] (seen l : List (Place α)) :
    dedupAfter seen l = dedupBy samePlace seen l := by
  induction l generalizing seen with
  | nil => rfl
  | cons x xs ih => simp only [dedupAfter, dedupBy, ih]

theorem samePlace_eq_true_iff {α : Type} [LinearOrderedField α] (x a : Place α) :
    samePlace x a = true ↔ a.name = x.name ∧ |a.latitude - x.latitude| < 0.001 := by
  simp [samePlace]

theorem uniquePlaces_dropped_split {α : Type} [LinearOrderedField α] (l : List (Place α))
    (x : Place α) (hx : x ∈ l) (hdrop : x ∉ uniquePlaces l) :
    ∃ pre post, l = pre ++ x :: post ∧ ∃ y ∈ pre, samePlace x y = true := by
  obtain ⟨pre, post, hsplit⟩ := List.append_of_mem hx
  refine ⟨pre, post, hsplit, ?_⟩
  by_contra hnone
  apply hdrop
  rw [uniquePlaces_eq_dedupAfter, dedupAfter_eq_dedupBy, hsplit]
  apply dedupBy_mem_of_split
  intro s hs
  rw [List.nil_append] at hs
  rw [Bool.eq_false_iff]
  intro hmatch
  exact hnone ⟨s, hs, hmatch⟩

theorem uniquePlaces_keeps_name {α : Type} [LinearOrderedField α] (l : List (Place α))
    (x : Place α) (hx : x ∈ l) : ∃ k ∈ uniquePlaces l, k.name = x.name := by
  have hsome : (l.find? (fun p => decide (p.name = x.name))).isSome := by
    rw [List.find?_isSome]
    exact ⟨x, hx, by simp⟩
  obtain ⟨k, hk⟩ := Option.isSome_iff_exists.mp hsome
  obtain ⟨hkname, pre, post, hsplit, hpre⟩ := List.find?_eq_some.mp hk
  have hkname' : k.name = x.name := by simpa using hkname
  refine ⟨k, ?_, hkname'⟩
  rw [uniquePlaces_eq_dedupAfter, dedupAfter_eq_dedupBy, hsplit]
  apply dedupBy_mem_of_split
  intro s hs
  rw [List.nil_append] at hs
  have hne : ¬ (s.name = x.name) := by simpa using hpre s hs
  rw [Bool.eq_false_iff]
  intro hmatch
  have := (samePlace_eq_true_iff k s).mp hmatch
  exact hne (this.1.trans hkname')

/-- C24, as amended: every record of the concatenated sequence that is absent from the
deduplicated result stands after a record of the sequence, kept or not, with the same name and
a latitude within 0.001 of it, and the deduplicated result holds a record with the same
name. -/
theorem C24_dropped_has_earlier_match {α : Type} [LinearOrderedField α]
    (nearbyEssentials : List (Place α)) (x : Place α)
    (hx : x ∈ nearbyEssentials) (hdrop : x ∉ uniquePlaces nearbyEssentials) :
    (∃ (i j : Nat) (y : Place α), j < i ∧ nearbyEssentials[i]? = some x ∧
      nearbyEssentials[j]? = some y ∧
      y.name = x.name ∧ |y.latitude - x.latitude| < 0.001) ∧
    (∃ k ∈ uniquePlaces nearbyEssentials, k.name = x.name) := by
  refine ⟨?_, uniquePlaces_keeps_name nearbyEssentials x hx⟩
  obtain ⟨pre, post, hsplit, y, hy, hmatch⟩ :=
    uniquePlaces_dropped_split nearbyEssentials x hx hdrop
  obtain ⟨j, hj⟩ := List.mem_iff_getElem?.mp hy
  have hlt : j < pre.length := (List.getElem?_eq_some.mp hj).1
  have hm := (samePlace_eq_true_iff x y).mp hmatch
  refine ⟨pre.length, j, y, hlt, ?_, ?_, hm.1, hm.2⟩
  · rw [hsplit, List.getElem?_append_right (Nat.le_refl _)]
    simp
  · rw [hsplit, List.getElem?_append_left hlt]
    exact hj

/-- Counterexample to C24 as stated: of three records named "Clinic" at latitudes 40, 40.0008
and 40.0016 only the first is kept; the third is dropped because it matches the second, but it
does not match the kept record. -/
theorem C24_counterexample :
    uniquePlaces chainPlaces = [mkPlace "osm_1" "Clinic" 40 1] ∧
    mkPlace "osm_3" "Clinic" (40 + 16 / 10000) 3 ∈ chainPlaces ∧
    mkPlace "osm_3" "Clinic" (40 + 16 / 10000) 3 ∉ uniquePlaces chainPlaces ∧
    ¬ (∃ k ∈ uniquePlaces chainPlaces,
      k.name = (mkPlace "osm_3" "Clinic" (40 + 16 / 10000) 3).name ∧
      |k.latitude - (mkPlace "osm_3" "Clinic" (40 + 16 / 10000) 3).latitude| < 0.001) := by
  decide!

/-- Witness of C24: the third record of `chainPlaces`. -/
theorem C24_dropped_has_earlier_match_witness :
    mkPlace "osm_3" "Clinic" (40 + 16 / 10000) 3 ∈ chainPlaces ∧
    mkPlace "osm_3" "Clinic" (40 + 16 / 10000) 3 ∉ uniquePlaces chainPlaces ∧
    (∃ k ∈ uniquePlaces chainPlaces,
      k.name = (mkPlace "osm_3" "Clinic" (40 + 16 / 10000) 3).name) :=
  ⟨by decide!, by decide!,
    (C24_dropped_has_earlier_match chainPlaces (mkPlace "osm_3" "Clinic" (40 + 16 / 10000) 3)
      (by decide!) (by decide!)).2⟩

/-- C23: when the test-marker branch is not taken, the output is a reordering of a
sub-sequence of the concatenated adapter results: it is a permutation of a sublist of the
concatenated sequence, every output record is one of the records returned by an adapter, and no
record occurs more often in the output than in the concatenated sequence. -/
theorem C23_output_reorders_subsequence {α : Type} [LinearOrderedField α]
    (location : Location α) (osm googlePlaces : List (Place α))
    (h : (getUserLocation location osm googlePlaces).usedTestData = false) :
    (∃ sub, sub.Sublist (getUserLocation location osm googlePlaces).nearbyEssentials ∧
      (getUserLocation location osm googlePlaces).essentials.Perm sub) ∧
    (∀ p ∈ (getUserLocation location osm googlePlaces).essentials, p ∈ osm ++ googlePlaces) ∧
    (∀ p, (getUserLocation location osm googlePlaces).essentials.count p ≤
      (getUserLocation location osm googlePlaces).nearbyEssentials.count p) := by
  have hsub : (uniquePlaces (gatherPlaces osm googlePlaces).2).Sublist
      (gatherPlaces osm googlePlaces).2 := by
    rw [uniquePlaces_eq_dedupAfter]
    exact dedupAfter_sublist _ _
  have hperm : (getUserLocation location osm googlePlaces).essentials.Perm
      (uniquePlaces (gatherPlaces osm googlePlaces).2) := by
    have hne := h
    rw [usedTestData_eq, decide_eq_false_iff_not] at hne
    rw [essentials_eq, if_neg hne]
    exact sortByDistance_perm _
  refine ⟨⟨_, ?_, hperm⟩, essentials_subset location osm googlePlaces h, ?_⟩
  · rw [nearbyEssentials_eq]
    exact hsub
  · intro p
    rw [nearbyEssentials_eq, hperm.count_eq]
    exact hsub.count_le p

/-- Witness of C23 on the sample data. -/
theorem C23_output_reorders_subsequence_witness :
    (getUserLocation sampleLocation sampleOsm sampleGoogle).usedTestData = false ∧
    (∀ p ∈ (getUserLocation sampleLocation sampleOsm sampleGoogle).essentials,
      p ∈ sampleOsm ++ sampleGoogle) ∧
    (∀ p, (getUserLocation sampleLocation sampleOsm sampleGoogle).essentials.count p ≤
      (getUserLocation sampleLocation sampleOsm sampleGoogle).nearbyEssentials.count p) :=
  ⟨by decide!,
    (C23_output_reorders_subsequence sampleLocation sampleOsm sampleGoogle (by decide!)).2.1,
    (C23_output_reorders_subsequence sampleLocation sampleOsm sampleGoogle (by decide!)).2.2⟩

theorem sampleWay_toPlace :
    osmElementToPlace 40 (-74) sampleWay 1 = some sampleWayRecord := by
  have h1 : (40.02 : ℝ) ≠ 0 := by norm_num
  have h2 : (-74 : ℝ) ≠ 0 := by norm_num
  have h3 : "osm_" ++ toString (if (7 : Nat) = 0 then 1 else 7) = "osm_7" := by decide
  have h4 : osmType (some "pharmacy") = "pharmacy" := by decide
  have h5 : (orString (some (trim ("" ++ " " ++ ""))) (some "Address not available")).getD "" =
      "Address not available" := by decide
  simp only [osmElementToPlace, sampleWay, Option.bind, orNumber, falsyNumber_some _ h1,
    falsyNumber_some _ h2, Bool.or_self, Bool.false_eq_true, if_false, orString_none,
    orString_some "pharmacy" _ (by decide), orString_some "Corner Pharmacy" _ (by decide),
    h4, Option.getD_some, sampleWayRecord, h3, h5]

theorem sampleNodeWay_parsed :
    parsedPlaces 40 (-74) [sampleElement, sampleWay] = [sampleOsmRecord, sampleWayRecord] := by
  simp only [parsedPlaces, List.enum, List.enumFrom, List.filterMap_cons, Nat.zero_add,
    sampleElement_toPlace, sampleWay_toPlace, List.filterMap_nil]

theorem sampleNodeWay_result_perm :
    (fetchNearbyPlacesOSM 40 (-74) (OverpassResponse.data (some [sampleElement, sampleWay]))
      (fun _ => 0)).result.Perm [sampleOsmRecord, sampleWayRecord] := by
  rw [fetchNearbyPlacesOSM_elements, sampleNodeWay_parsed,
    List.take_of_length_le (by rw [sortByDistance_length]; decide)]
  exact sortByDistance_perm _

/-- C22, evaluation at the failing input: Overpass answers with a node and a way that both
carry the id 7 and have different names, the commercial provider has no results; the output
holds two records, both with the id `osm_7`. -/
theorem C22_duplicate_osm_ids :
    sampleElement.id = some 7 ∧ sampleWay.id = some 7 ∧
    (aggregationRun realLocation (OverpassResponse.data (some [sampleElement, sampleWay]))
      (some "configured-key") zeroResults (fun _ => 0) (fun _ => 0)).usedTestData = false ∧
    (aggregationRun realLocation (OverpassResponse.data (some [sampleElement, sampleWay]))
      (some "configured-key") zeroResults (fun _ => 0) (fun _ => 0)).essentials.map
        (fun p => p.id) = ["osm_7", "osm_7"] := by
  have hperm := sampleNodeWay_result_perm
  have hlen := hperm.length_eq
  simp only [List.length_cons, List.length_nil] at hlen
  have hnames : ((fetchNearbyPlacesOSM 40 (-74)
      (OverpassResponse.data (some [sampleElement, sampleWay])) (fun _ => 0)).result.map
        (fun p => p.name)).Nodup := by
    rw [(hperm.map (fun p => p.name)).nodup_iff]
    simp [sampleOsmRecord, sampleWayRecord]
  have hne : (fetchNearbyPlacesOSM 40 (-74)
      (OverpassResponse.data (some [sampleElement, sampleWay])) (fun _ => 0)).result ≠ [] := by
    intro h
    rw [h] at hlen
    exact absurd hlen (by decide)
  have hused : (aggregationRun realLocation
      (OverpassResponse.data (some [sampleElement, sampleWay]))
      (some "configured-key") zeroResults (fun _ => 0) (fun _ => 0)).usedTestData = false := by
    rw [aggregationRun, fetchNearbyPlaces_zeroResults, Bool.eq_false_iff]
    intro hcon
    exact hne ((usedTestData_iff _ _ _).mp hcon).1
  refine ⟨rfl, rfl, hused, ?_⟩
  have hess : (aggregationRun realLocation
      (OverpassResponse.data (some [sampleElement, sampleWay]))
      (some "configured-key") zeroResults (fun _ => 0) (fun _ => 0)).essentials.Perm
      [sampleOsmRecord, sampleWayRecord] := by
    have hu := hused
    have hloc : realLocation.latitude = 40 := rfl
    have hlon : realLocation.longitude = -74 := rfl
    rw [aggregationRun, fetchNearbyPlaces_zeroResults, hloc, hlon] at hu ⊢
    rw [usedTestData_eq, decide_eq_false_iff_not] at hu
    rw [essentials_eq, if_neg hu, gatherPlaces_snd]
    have hlt : (fetchNearbyPlacesOSM 40 (-74)
        (OverpassResponse.data (some [sampleElement, sampleWay])) (fun _ => 0)).result.length <
        10 := by
      rw [hlen]
      decide
    rw [if_pos hlt, List.append_nil]
    refine (sortByDistance_perm _).trans ?_
    rw [uniquePlaces_eq_self _ hnames]
    exact hperm
  have hids := hess.map (fun p => p.id)
  have hrep : [sampleOsmRecord, sampleWayRecord].map (fun p => p.id) =
      List.replicate 2 "osm_7" := rfl
  rw [hrep, List.perm_replicate] at hids
  rw [hids]
  rfl

theorem idHead_append (a b : String) (h : a ≠ "") : idHead (a ++ b) = idHead a := by
  have hd : a.data ≠ [] := by
    intro hnil
    exact h (String.ext hnil)
  simp only [idHead, String.data_append]
  cases hdata : a.data with
  | nil => exact absurd hdata hd
  | cons c cs => rfl

theorem providerHeads_distinct :
    ([idHead "osm_", idHead "fallback_", idHead "test_"] ++ searchTypes.map idHead).Nodup := by
  decide

theorem fetchNearbyPlacesOSM_forall (P : Place ℝ → Prop) (latitude longitude : ℝ)
    (response : OverpassResponse) (rand : Nat → ℝ)
    (hfb : ∀ p ∈ getFallbackData latitude longitude rand, P p)
    (hel : ∀ element index p,
      osmElementToPlace latitude longitude element index = some p → P p) :
    ∀ p ∈ (fetchNearbyPlacesOSM latitude longitude response rand).result, P p := by
  intro p hp
  rcases response with _ | _ | elements
  · rw [fetchNearbyPlacesOSM_failure] at hp
    exact hfb p hp
  · have h : (fetchNearbyPlacesOSM latitude longitude (OverpassResponse.data none) rand).result =
        getFallbackData latitude longitude rand := by
      simp [fetchNearbyPlacesOSM]
    rw [h] at hp
    exact hfb p hp
  · rw [fetchNearbyPlacesOSM_elements] at hp
    have hmem := (sortByDistance_perm _).mem_iff.mp (List.mem_of_mem_take hp)
    obtain ⟨entry, _, hentry⟩ := List.mem_filterMap.mp hmem
    exact hel entry.2 entry.1 p hentry

theorem fetchNearbyPlaces_forall (P : Place ℝ → Prop) (env : Option String)
    (latitude longitude : ℝ) (fetch : String → PlacesResponse) (rand : Nat → ℝ)
    (hfb : ∀ p ∈ getFallbackData latitude longitude rand, P p)
    (hconv : ∀ type ∈ searchTypes, ∀ place index p,
      googlePlaceToPlace latitude longitude type place index = some p → P p) :
    ∀ p ∈ (fetchNearbyPlaces env latitude longitude fetch rand).result, P p := by
  intro p hp
  rcases fetchNearbyPlaces_cases env latitude longitude fetch rand with h | ⟨_, _, h⟩
  · rw [h] at hp
    exact hfb p hp
  · rw [h] at hp
    have h1 := (filterWithIndex_sublist _ _).subset ((sortByDistance_perm _).mem_iff.mp hp)
    obtain ⟨type, htype, hmem⟩ := List.mem_flatMap.mp h1
    obtain ⟨results, index, place, _, _, _, hc⟩ :=
      typePlaces_source latitude longitude fetch type p hmem
    exact hconv type htype place index p hc

theorem fallbackLoop_forall (P : Place ℝ → Prop) (userLat userLng : ℝ) (rand : Nat → ℝ)
    (items : List (Nat × PlaceType × Nat)) (n : Nat)
    (h : ∀ k categoryIndex category i, P (fallbackPlace userLat userLng rand k categoryIndex
      category i).1) :
    ∀ p ∈ fallbackLoop userLat userLng rand items n, P p := by
  induction items generalizing n with
  | nil =>
    intro p hp
    simp [fallbackLoop] at hp
  | cons item rest ih =>
    obtain ⟨categoryIndex, category, i⟩ := item
    intro p hp
    simp only [fallbackLoop, List.mem_cons] at hp
    rcases hp with rfl | hp
    · exact h _ _ _ _
    · exact ih _ p hp

theorem getFallbackData_providerId (userLat userLng : ℝ) (rand : Nat → ℝ) :
    ∀ p ∈ getFallbackData userLat userLng rand, ProviderId p := by
  intro p hp
  refine fallbackLoop_forall ProviderId userLat userLng rand fallbackIterations 0 ?_ p
    ((getFallbackData_mem_loop userLat userLng rand p).mp hp)
  intro k categoryIndex category i
  have hid : (fallbackPlace userLat userLng rand k categoryIndex category i).1.id =
      "fallback_" ++ (toString categoryIndex ++ "_" ++ toString i) := by
    simp [fallbackPlace, String.append_assoc]
  rw [ProviderId, hid]
  exact ⟨string_append_ne_empty_left _ _ (by decide),
    Or.inr (Or.inr (Or.inl (idHead_append _ _ (by decide))))⟩

theorem osmElementToPlace_providerId (latitude longitude : ℝ) (element : OsmElement)
    (index : Nat) (p : Place ℝ)
    (h : osmElementToPlace latitude longitude element index = some p) : ProviderId p := by
  unfold osmElementToPlace at h
  simp only [] at h
  split at h
  · exact absurd h (by simp)
  · simp only [Option.some.injEq] at h
    subst h
    exact ⟨string_append_ne_empty_left _ _ (by decide),
      Or.inl (idHead_append _ _ (by decide))⟩

theorem googlePlaceToPlace_providerId (latitude longitude : ℝ) (type : String)
    (htype : type ∈ searchTypes) (place : GooglePlace) (index : Nat) (p : Place ℝ)
    (h : googlePlaceToPlace latitude longitude type place index = some p) : ProviderId p := by
  have hne : type ≠ "" := by
    intro hempty
    rw [hempty] at htype
    exact absurd htype (by decide)
  unfold googlePlaceToPlace at h
  split at h
  · simp only [Option.some.injEq] at h
    subst h
    refine ⟨?_, Or.inr (Or.inl ⟨type, htype, ?_⟩)⟩
    · exact string_append_ne_empty_left _ _ (string_append_ne_empty_left _ _ hne)
    · simp only []
      rw [idHead_append _ _ (string_append_ne_empty_left _ _ hne), idHead_append _ _ hne]
  · exact absurd h (by simp)

theorem testData_providerId (location : Location ℝ) :
    ∀ p ∈ testData location, ProviderId p := by
  intro p hp
  simp only [testData, List.mem_cons, List.mem_singleton, List.not_mem_nil, or_false] at hp
  rcases hp with rfl | rfl | rfl
  · exact ⟨(by decide : "test_1" ≠ ""),
      Or.inr (Or.inr (Or.inr (by decide : idHead "test_1" = idHead "test_")))⟩
  · exact ⟨(by decide : "test_2" ≠ ""),
      Or.inr (Or.inr (Or.inr (by decide : idHead "test_2" = idHead "test_")))⟩
  · exact ⟨(by decide : "test_3" ≠ ""),
      Or.inr (Or.inr (Or.inr (by decide : idHead "test_3" = idHead "test_")))⟩

theorem aggregationRun_providerId (location : Location ℝ) (overpass : OverpassResponse)
    (env : Option String) (fetch : String → PlacesResponse) (randOsm randGoogle : Nat → ℝ) :
    ∀ p ∈ (aggregationRun location overpass env fetch randOsm randGoogle).essentials,
      ProviderId p := by
  intro p hp
  cases hused : (aggregationRun location overpass env fetch randOsm randGoogle).usedTestData with
  | true =>
    rw [aggregationRun] at hp hused
    rw [essentials_testData _ _ _ hused] at hp
    exact testData_providerId location p hp
  | false =>
    rw [aggregationRun] at hp hused
    rcases List.mem_append.mp (essentials_subset _ _ _ hused p hp) with hm | hm
    · exact fetchNearbyPlacesOSM_forall ProviderId _ _ _ _
        (getFallbackData_providerId _ _ _)
        (fun element index q hq => osmElementToPlace_providerId _ _ element index q hq) p hm
    · exact fetchNearbyPlaces_forall ProviderId _ _ _ _ _
        (getFallbackData_providerId _ _ _)
        (fun type htype place index q hq =>
          googlePlaceToPlace_providerId _ _ type htype place index q hq) p hm

/-! ## `calculateDistance` in IEEE doubles -/

section DoubleDistance

open IEEE

theorem bitLengthAux_spec (fuel n : Nat) (h : n ≤ fuel) :
    n < 2 ^ bitLengthAux fuel n ∧ (n ≠ 0 → 2 ^ (bitLengthAux fuel n - 1) ≤ n) := by
  induction fuel generalizing n with
  | zero =>
    have h0 : n = 0 := by omega
    subst h0
    simp [bitLengthAux]
  | succ fuel ih =>
    by_cases hn : n = 0
    · subst hn
      simp [bitLengthAux]
    · have hle : n / 2 ≤ fuel := by omega
      obtain ⟨hlt, hge⟩ := ih (n / 2) hle
      simp only [bitLengthAux, if_neg hn, Nat.add_sub_cancel]
      refine ⟨?_, fun _ => ?_⟩
      · rw [pow_succ]
        omega
      · by_cases h2 : n / 2 = 0
        · have hb : bitLengthAux fuel (n / 2) = 0 := by
            rw [h2]
            cases fuel <;> simp [bitLengthAux]
          rw [hb]
          simp only [pow_zero]
          omega
        · have hpos : 0 < bitLengthAux fuel (n / 2) := by
            rcases Nat.eq_zero_or_pos (bitLengthAux fuel (n / 2)) with h0 | h0
            · rw [h0] at hlt
              simp only [pow_zero] at hlt
              omega
            · exact h0
          have hg := hge h2
          have hp : 2 ^ bitLengthAux fuel (n / 2) = 2 * 2 ^ (bitLengthAux fuel (n / 2) - 1) := by
            rw [← pow_succ']
            congr 1
            omega
          rw [hp]
          omega

/-- `bitLength n` is the number of binary digits of `n`: `2^(bitLength n - 1) ≤ n < 2^bitLength n`
for `n ≠ 0`, and `bitLength 0 = 0`. -/
theorem bitLength_spec (n : Nat) :
    n < 2 ^ bitLength n ∧ (n ≠ 0 → 2 ^ (bitLength n - 1) ≤ n) :=
  bitLengthAux_spec n n (Nat.le_refl n)

theorem isqrtAux_spec (n bit r : Nat) (hr : r * r ≤ n)
    (hn : n < (r + 2 ^ bit) * (r + 2 ^ bit)) :
    isqrtAux n bit r * isqrtAux n bit r ≤ n ∧
      n < (isqrtAux n bit r + 1) * (isqrtAux n bit r + 1) := by
  induction bit generalizing r with
  | zero => simpa [isqrtAux] using ⟨hr, hn⟩
  | succ bit ih =>
    simp only [isqrtAux]
    have hp : r + 2 ^ (bit + 1) = r + 2 ^ bit + 2 ^ bit := by
      rw [pow_succ]
      omega
    rw [hp] at hn
    split
    · next h => exact ih (r + 2 ^ bit) h hn
    · next h => exact ih r hr (Nat.lt_of_not_le h)

/-- `isqrt n` is the integer square root of `n`. -/
theorem isqrt_spec (n : Nat) : isqrt n * isqrt n ≤ n ∧ n < (isqrt n + 1) * (isqrt n + 1) := by
  have h := (bitLength_spec n).1
  have h1 : 1 ≤ 2 ^ bitLength n := Nat.one_le_two_pow
  refine isqrtAux_spec n (bitLength n) 0 (Nat.zero_le _) ?_
  rw [Nat.zero_add]
  calc n < 2 ^ bitLength n := h
    _ = 2 ^ bitLength n * 1 := (Nat.mul_one _).symm
    _ ≤ 2 ^ bitLength n * 2 ^ bitLength n := Nat.mul_le_mul_left _ h1

theorem isqrt_eq_sqrt (n : Nat) : isqrt n = Nat.sqrt n :=
  Nat.eq_sqrt.mpr (isqrt_spec n)

/-- One rounding step on integers: `q1` is `m / 2^sh` rounded to nearest, ties to even. -/
theorem roundStep_spec (m sh : Nat) (hsh : 0 < sh) :
    2 * |(m : Int) - ((if 2 ^ (sh - 1) < m % 2 ^ sh ∨ (m % 2 ^ sh = 2 ^ (sh - 1) ∧
        m / 2 ^ sh % 2 = 1) then m / 2 ^ sh + 1 else m / 2 ^ sh : Nat) : Int) * 2 ^ sh| ≤ 2 ^ sh ∧
      (2 * |(m : Int) - ((if 2 ^ (sh - 1) < m % 2 ^ sh ∨ (m % 2 ^ sh = 2 ^ (sh - 1) ∧
        m / 2 ^ sh % 2 = 1) then m / 2 ^ sh + 1 else m / 2 ^ sh : Nat) : Int) * 2 ^ sh| = 2 ^ sh →
        (if 2 ^ (sh - 1) < m % 2 ^ sh ∨ (m % 2 ^ sh = 2 ^ (sh - 1) ∧
          m / 2 ^ sh % 2 = 1) then m / 2 ^ sh + 1 else m / 2 ^ sh) % 2 = 0) := by
  obtain ⟨k, rfl⟩ : ∃ k, sh = k + 1 := ⟨sh - 1, by omega⟩
  simp only [Nat.add_sub_cancel]
  have hP : (2 : Nat) ^ (k + 1) = 2 * 2 ^ k := by rw [pow_succ]; ring
  have hPz : (2 : Int) ^ (k + 1) = 2 * 2 ^ k := by rw [pow_succ]; ring
  have hdm := Nat.div_add_mod m (2 ^ (k + 1))
  have hr : m % 2 ^ (k + 1) < 2 ^ (k + 1) := Nat.mod_lt _ (by positivity)
  generalize hq : m / 2 ^ (k + 1) = q at *
  generalize hrr : m % 2 ^ (k + 1) = r at *
  have hH : (0 : Nat) < 2 ^ k := by positivity
  generalize hHH : (2 : Nat) ^ k = H at *
  have hHz : (2 : Int) ^ k = (H : Int) := by rw [← hHH]; norm_cast
  rw [hP] at hdm hr
  rw [hPz, hHz]
  have hm : (m : Int) = 2 * (H : Int) * q + r := by
    have : m = 2 * H * q + r := hdm.symm
    exact_mod_cast this
  split_ifs with hc
  · have e1 : (m : Int) - ((q + 1 : Nat) : Int) * (2 * (H : Int)) = (r : Int) - 2 * H := by
      rw [hm]; push_cast; ring
    rw [e1]
    have hneg : (r : Int) - 2 * H < 0 := by omega
    rw [abs_of_neg hneg]
    rcases hc with hc | ⟨hc, hodd⟩
    · constructor
      · omega
      · intro h; omega
    · constructor
      · omega
      · intro _; omega
  · have e1 : (m : Int) - ((q : Nat) : Int) * (2 * (H : Int)) = (r : Int) := by
      rw [hm]; ring
    rw [e1, abs_of_nonneg (by omega)]
    have hc' : ¬ (H < r) ∧ ¬ (r = H ∧ q % 2 = 1) := by
      constructor
      · intro h; exact hc (Or.inl h)
      · intro h; exact hc (Or.inr h)
    constructor
    · omega
    · intro h
      have : r = H := by omega
      have := hc'.2
      omega

theorem two_zpow_add_nat (e : Int) (k : Nat) : (2 : ℚ) ^ (e + (k : Int)) = 2 ^ e * 2 ^ k := by
  rw [zpow_add₀ (by norm_num : (2 : ℚ) ≠ 0), zpow_natCast]

/-- What `roundDyadic` returns for `m ≠ 0`: either a double `m' · 2^e'` in the stored form
(`m' < 2^53`, `-1074 ≤ e' ≤ 971`, `2^52 ≤ m'` unless `e' = -1074`) at most half a unit in the
last place `2^e'` away from `m · 2^e`, with `m'` even when it is exactly half a unit away; or
an infinity, when `m · 2^e` is at least `2^1024 - 2^970`. -/
theorem roundDyadic_spec (b : Bool) (m : Nat) (e : Int) (hm : m ≠ 0) :
    (∃ m' e', roundDyadic b m e = F64.fin b m' e' ∧ m' < 2 ^ 53 ∧ -1074 ≤ e' ∧ e' ≤ 971 ∧
        (e' = -1074 ∨ 2 ^ 52 ≤ m') ∧
        |(m : ℚ) * 2 ^ e - (m' : ℚ) * 2 ^ e'| ≤ 2 ^ e' / 2 ∧
        (|(m : ℚ) * 2 ^ e - (m' : ℚ) * 2 ^ e'| = 2 ^ e' / 2 → m' % 2 = 0)) ∨
      (roundDyadic b m e = F64.inf b ∧ (2 : ℚ) ^ (1024 : Int) - 2 ^ (970 : Int) ≤ (m : ℚ) * 2 ^ e) := by
  obtain ⟨hlt, hge⟩ := bitLength_spec m
  have hge := hge hm
  have hbl : 0 < bitLength m := by
    rcases Nat.eq_zero_or_pos (bitLength m) with h0 | h0
    · rw [h0] at hlt
      simp only [pow_zero] at hlt
      omega
    · exact h0
  obtain ⟨c, hc⟩ : ∃ c, bitLength m = c + 1 := ⟨bitLength m - 1, by omega⟩
  rw [hc] at hlt hge
  simp only [Nat.add_sub_cancel] at hge
  have hmq : (2 : ℚ) ^ c ≤ (m : ℚ) := by exact_mod_cast hge
  have hmq2 : (m : ℚ) < 2 ^ (c + 1) := by exact_mod_cast hlt
  have h2pos : ∀ z : Int, (0 : ℚ) < 2 ^ z := fun z => zpow_pos (by norm_num) z
  simp only [roundDyadic, if_neg hm, hc]
  by_cases hcase : max (e + ((c + 1 : Nat) : Int) - 53) (-1074) ≤ e
  · -- the value is a double already, or it overflows
    rw [if_pos hcase]
    by_cases hov : 971 < max (e + ((c + 1 : Nat) : Int) - 53) (-1074)
    · right
      rw [if_pos hov]
      refine ⟨rfl, ?_⟩
      have he : (1024 : Int) ≤ e + c := by
        push_cast at hov ⊢
        rcases le_max_iff.mp (le_of_lt hov) with h | h <;> omega
      have h1 : (2 : ℚ) ^ (1024 : Int) ≤ 2 ^ (e + (c : Int)) :=
        zpow_le_zpow_right₀ (by norm_num) he
      have h2 : (2 : ℚ) ^ (e + (c : Int)) ≤ (m : ℚ) * 2 ^ e := by
        rw [two_zpow_add_nat, mul_comm]
        exact mul_le_mul_of_nonneg_right hmq (le_of_lt (h2pos e))
      have h3 := h2pos 970
      linarith
    · left
      rw [if_neg hov]
      generalize he1 : max (e + ((c + 1 : Nat) : Int) - 53) (-1074) = e1 at *
      obtain ⟨k, hk⟩ : ∃ k : Nat, e = e1 + k := ⟨(e - e1).toNat, by omega⟩
      have hk2 : (e - e1).toNat = k := by omega
      rw [hk2]
      have hck : c + 1 + k ≤ 53 := by
        have := le_max_left (e + ((c + 1 : Nat) : Int) - 53) (-1074)
        rw [he1] at this
        push_cast at this
        omega
      refine ⟨m * 2 ^ k, e1, rfl, ?_, ?_, by omega, ?_, ?_, ?_⟩
      · calc m * 2 ^ k < 2 ^ (c + 1) * 2 ^ k := Nat.mul_lt_mul_of_pos_right hlt (by positivity)
          _ = 2 ^ (c + 1 + k) := (pow_add 2 (c + 1) k).symm
          _ ≤ 2 ^ 53 := Nat.pow_le_pow_right (by norm_num) hck
      · rw [← he1]
        exact le_max_right _ _
      · by_cases h74 : e1 = -1074
        · exact Or.inl h74
        · right
          have hk3 : c + 1 + k = 53 := by
            have := max_def (e + ((c + 1 : Nat) : Int) - 53) (-1074)
            rw [he1] at this
            push_cast at this
            split_ifs at this <;> omega
          calc 2 ^ 52 = 2 ^ c * 2 ^ k := by rw [← pow_add]; congr 1; omega
            _ ≤ m * 2 ^ k := Nat.mul_le_mul_right _ hge
      · have hv : ((m * 2 ^ k : Nat) : ℚ) * 2 ^ e1 = (m : ℚ) * 2 ^ e := by
          rw [hk, two_zpow_add_nat]
          push_cast
          ring
        rw [hv, sub_self, abs_zero]
        exact le_of_lt (half_pos (h2pos e1))
      · intro h
        have hv : ((m * 2 ^ k : Nat) : ℚ) * 2 ^ e1 = (m : ℚ) * 2 ^ e := by
          rw [hk, two_zpow_add_nat]
          push_cast
          ring
        rw [hv, sub_self, abs_zero] at h
        have := half_pos (h2pos e1)
        linarith
  · -- the value is rounded
    rw [if_neg hcase]
    have he1lo : (-1074 : Int) ≤ max (e + ((c + 1 : Nat) : Int) - 53) (-1074) := le_max_right _ _
    have he1l : e + ((c + 1 : Nat) : Int) - 53 ≤ max (e + ((c + 1 : Nat) : Int) - 53) (-1074) :=
      le_max_left _ _
    have he1d := max_def (e + ((c + 1 : Nat) : Int) - 53) (-1074)
    generalize he1 : max (e + ((c + 1 : Nat) : Int) - 53) (-1074) = e1 at *
    obtain ⟨sh, hsh⟩ : ∃ sh : Nat, e1 = e + sh := ⟨(e1 - e).toNat, by omega⟩
    have hsh2 : (e1 - e).toNat = sh := by omega
    have hshpos : 0 < sh := by omega
    rw [hsh2]
    obtain ⟨hstep, htie⟩ := roundStep_spec m sh hshpos
    have hqlt : m / 2 ^ sh < 2 ^ 53 := by
      rw [Nat.div_lt_iff_lt_mul (by positivity)]
      calc m < 2 ^ (c + 1) := hlt
        _ ≤ 2 ^ (53 + sh) := Nat.pow_le_pow_right (by norm_num) (by push_cast at he1l; omega)
        _ = 2 ^ 53 * 2 ^ sh := pow_add 2 53 sh
    have hqge : e1 ≠ -1074 → 2 ^ 52 ≤ m / 2 ^ sh := by
      intro h74
      have hs : c = 52 + sh := by
        push_cast at he1d
        split_ifs at he1d <;> omega
      rw [Nat.le_div_iff_mul_le (by positivity), ← pow_add, ← hs]
      exact hge
    generalize hq1 : (if 2 ^ (sh - 1) < m % 2 ^ sh ∨ (m % 2 ^ sh = 2 ^ (sh - 1) ∧
      m / 2 ^ sh % 2 = 1) then m / 2 ^ sh + 1 else m / 2 ^ sh) = q1 at *
    have hq1le : q1 ≤ 2 ^ 53 := by
      rw [← hq1]
      split_ifs <;> omega
    have hq1ge : m / 2 ^ sh ≤ q1 := by
      rw [← hq1]
      split_ifs <;> omega
    -- the distance to `m · 2^e`, in rationals
    have herr : |(m : ℚ) * 2 ^ e - (q1 : ℚ) * 2 ^ e1| ≤ 2 ^ e1 / 2 ∧
        (|(m : ℚ) * 2 ^ e - (q1 : ℚ) * 2 ^ e1| = 2 ^ e1 / 2 → q1 % 2 = 0) := by
      have hd : (m : ℚ) * 2 ^ e - (q1 : ℚ) * 2 ^ e1 =
          (((m : Int) - (q1 : Int) * 2 ^ sh : Int) : ℚ) * 2 ^ e := by
        rw [hsh, two_zpow_add_nat]
        push_cast
        ring
      have hh : (2 : ℚ) ^ e1 / 2 = ((2 : ℚ) ^ sh / 2) * 2 ^ e := by
        rw [hsh, two_zpow_add_nat]
        ring
      rw [hd, hh, abs_mul, abs_of_pos (h2pos e)]
      have hcast : (|(((m : Int) - (q1 : Int) * 2 ^ sh : Int) : ℚ)|) =
          ((|(m : Int) - (q1 : Int) * 2 ^ sh| : Int) : ℚ) := by
        rw [Int.cast_abs]
      rw [hcast]
      constructor
      · apply mul_le_mul_of_nonneg_right _ (le_of_lt (h2pos e))
        rw [le_div_iff₀ (by norm_num : (0 : ℚ) < 2), mul_comm]
        exact_mod_cast hstep
      · intro h
        apply htie
        have h' := mul_right_cancel₀ (ne_of_gt (h2pos e)) h
        rw [eq_div_iff (by norm_num : (2 : ℚ) ≠ 0), mul_comm] at h'
        exact_mod_cast h'
    by_cases hren : q1 = 2 ^ 53
    · -- the significand carries into the next binade
      rw [if_pos hren, if_pos hren]
      by_cases hov : 971 < e1 + 1
      · right
        rw [if_pos hov]
        refine ⟨rfl, ?_⟩
        have h1 := (abs_le.mp herr.1).1
        rw [hren] at h1
        have hge971 : (971 : Int) ≤ e1 := by omega
        have ha : (2 : ℚ) ^ (971 : Int) ≤ 2 ^ e1 := zpow_le_zpow_right₀ (by norm_num) hge971
        have hb : (2 : ℚ) ^ (1024 : Int) = 2 ^ (971 : Int) * 2 ^ (53 : Nat) := by
          rw [← zpow_natCast, ← zpow_add₀ (by norm_num : (2 : ℚ) ≠ 0)]
          norm_num
        have hc2 : (2 : ℚ) ^ (970 : Int) = 2 ^ (971 : Int) / 2 := by
          rw [eq_div_iff (by norm_num : (2 : ℚ) ≠ 0), ← zpow_add_one₀ (by norm_num : (2 : ℚ) ≠ 0)]
          norm_num
        rw [hb, hc2]
        push_cast at h1
        have hp : (0 : ℚ) < 2 ^ (53 : Nat) - 1 / 2 := by norm_num
        nlinarith [h1, ha, hp]
      · left
        rw [if_neg hov]
        refine ⟨2 ^ 52, e1 + 1, rfl, by norm_num, by omega, by omega, Or.inr (le_refl _), ?_, ?_⟩
        · have hv : ((2 ^ 52 : Nat) : ℚ) * 2 ^ (e1 + 1) = ((2 ^ 53 : Nat) : ℚ) * 2 ^ e1 := by
            rw [zpow_add_one₀ (by norm_num : (2 : ℚ) ≠ 0)]
            push_cast
            ring
          rw [hv, ← hren]
          have h1 := herr.1
          have h2 : (2 : ℚ) ^ e1 / 2 ≤ 2 ^ (e1 + 1) / 2 := by
            rw [zpow_add_one₀ (by norm_num : (2 : ℚ) ≠ 0)]
            have := h2pos e1
            linarith
          linarith
        · intro _
          norm_num
    · rw [if_neg hren, if_neg hren]
      by_cases hov : 971 < e1
      · right
        rw [if_pos hov]
        refine ⟨rfl, ?_⟩
        have hs : c = 52 + sh := by
          push_cast at he1d
          split_ifs at he1d <;> omega
        have he : (1024 : Int) ≤ e + c := by omega
        have h1 : (2 : ℚ) ^ (1024 : Int) ≤ 2 ^ (e + (c : Int)) :=
          zpow_le_zpow_right₀ (by norm_num) he
        have h2 : (2 : ℚ) ^ (e + (c : Int)) ≤ (m : ℚ) * 2 ^ e := by
          rw [two_zpow_add_nat, mul_comm]
          exact mul_le_mul_of_nonneg_right hmq (le_of_lt (h2pos e))
        have h3 := h2pos 970
        linarith
      · left
        rw [if_neg hov]
        refine ⟨q1, e1, rfl, by omega, by omega, by omega, ?_, herr.1, herr.2⟩
        by_cases h74 : e1 = -1074
        · exact Or.inl h74
        · exact Or.inr (le_trans (hqge h74) hq1ge)

/-- The quotient computed by `roundQuotient` has 56 binary digits or more. -/
theorem roundQuotient_digits (n d : Nat) (hn : n ≠ 0) (hd : d ≠ 0) :
    2 ^ 55 ≤ n * 2 ^ (56 + bitLength d - bitLength n) / d := by
  obtain ⟨_, hnge⟩ := bitLength_spec n
  obtain ⟨hdlt, _⟩ := bitLength_spec d
  have hnge := hnge hn
  have hbn : 0 < bitLength n := by
    rcases Nat.eq_zero_or_pos (bitLength n) with h0 | h0
    · have := (bitLength_spec n).1
      rw [h0] at this
      simp only [pow_zero] at this
      omega
    · exact h0
  rw [Nat.le_div_iff_mul_le (Nat.pos_of_ne_zero hd)]
  have h1 : 2 ^ 55 * d ≤ 2 ^ 55 * 2 ^ bitLength d :=
    Nat.mul_le_mul_left _ (le_of_lt hdlt)
  have h2 : 2 ^ 55 * 2 ^ bitLength d ≤
      2 ^ (bitLength n - 1) * 2 ^ (56 + bitLength d - bitLength n) := by
    rw [← pow_add, ← pow_add]
    exact Nat.pow_le_pow_right (by norm_num) (by omega)
  have h3 : 2 ^ (bitLength n - 1) * 2 ^ (56 + bitLength d - bitLength n) ≤
      n * 2 ^ (56 + bitLength d - bitLength n) := Nat.mul_le_mul_right _ hnge
  omega

/-- What `roundQuotient` returns for `n ≠ 0` and `d ≠ 0`: the double nearest to
`(n / d) · 2^x`, ties to the even significand, or an infinity from `2^1024 - 2^970` on. -/
theorem roundQuotient_spec (b : Bool) (n d : Nat) (x : Int) (hn : n ≠ 0) (hd : d ≠ 0) :
    (∃ m' e', roundQuotient b n d x = F64.fin b m' e' ∧ m' < 2 ^ 53 ∧ -1074 ≤ e' ∧ e' ≤ 971 ∧
        (e' = -1074 ∨ 2 ^ 52 ≤ m') ∧
        |(n : ℚ) / d * 2 ^ x - (m' : ℚ) * 2 ^ e'| ≤ 2 ^ e' / 2 ∧
        (|(n : ℚ) / d * 2 ^ x - (m' : ℚ) * 2 ^ e'| = 2 ^ e' / 2 → m' % 2 = 0)) ∨
      (roundQuotient b n d x = F64.inf b ∧
        (2 : ℚ) ^ (1024 : Int) - 2 ^ (970 : Int) ≤ (n : ℚ) / d * 2 ^ x) := by
  have hq55 := roundQuotient_digits n d hn hd
  have h2pos : ∀ z : Int, (0 : ℚ) < 2 ^ z := fun z => zpow_pos (by norm_num) z
  have hdpos : (0 : ℚ) < d := by exact_mod_cast Nat.pos_of_ne_zero hd
  simp only [roundQuotient]
  generalize 56 + bitLength d - bitLength n = k at *
  have hdm := Nat.div_add_mod (n * 2 ^ k) d
  have hrlt : n * 2 ^ k % d < d := Nat.mod_lt _ (Nat.pos_of_ne_zero hd)
  generalize hq : n * 2 ^ k / d = q at *
  generalize hr : n * 2 ^ k % d = r at *
  generalize hE : x - (k : Int) - 1 = E
  -- the exact quotient, in units of `2^E`
  have hV : (n : ℚ) / d * 2 ^ x = (2 * (q : ℚ) + 2 * ((r : ℚ) / d)) * 2 ^ E := by
    have hx : x = E + ((k + 1 : Nat) : Int) := by push_cast; omega
    have hn' : (n : ℚ) * 2 ^ k = d * q + r := by exact_mod_cast hdm.symm
    have hk2 : (0 : ℚ) < 2 ^ k := by positivity
    have hn2 : (n : ℚ) = (d * q + r) / 2 ^ k := by
      rw [eq_div_iff (ne_of_gt hk2)]
      exact hn'
    rw [hx, two_zpow_add_nat, hn2, pow_succ]
    field_simp
    ring
  have hf0 : (0 : ℚ) ≤ (r : ℚ) / d := by positivity
  have hf1 : (r : ℚ) / d < 1 := by
    rw [div_lt_one hdpos]
    exact_mod_cast hrlt
  have hM : 2 * q + (if r = 0 then 0 else 1) ≠ 0 := by omega
  rcases roundDyadic_spec b (2 * q + (if r = 0 then 0 else 1)) E hM with
    ⟨m', e', hres, hm53, hlo, hhi, hcanon, herr, htie⟩ | ⟨hres, hbig⟩
  · left
    refine ⟨m', e', hres, hm53, hlo, hhi, hcanon, ?_⟩
    by_cases hr0 : r = 0
    · -- the quotient is exact
      have hVM : (n : ℚ) / d * 2 ^ x = ((2 * q + (if r = 0 then 0 else 1) : Nat) : ℚ) * 2 ^ E := by
        rw [hV, hr0]
        simp
      rw [hVM]
      exact ⟨herr, htie⟩
    · -- a remainder was left: the quotient lies strictly between two multiples of `2^E`
      rw [if_neg hr0] at herr
      have hfpos : (0 : ℚ) < (r : ℚ) / d := by
        apply div_pos _ hdpos
        exact_mod_cast Nat.pos_of_ne_zero hr0
      have hmq : ((2 * q + 1 : Nat) : ℚ) = 2 * q + 1 := by push_cast; ring
      have hqq : (2 : ℚ) ^ 55 ≤ q := by exact_mod_cast hq55
      -- the unit in the last place is at least `8 · 2^E`
      have hEe : E + 3 ≤ e' := by
        by_contra hcon
        have hle : e' ≤ E + 2 := by omega
        have h1 : (2 : ℚ) ^ e' ≤ 2 ^ (E + 2) := zpow_le_zpow_right₀ (by norm_num) hle
        have h2 : (2 : ℚ) ^ (E + 2) = 2 ^ E * 4 := by
          rw [zpow_add₀ (by norm_num : (2 : ℚ) ≠ 0)]
          norm_num
        have h3 := (abs_le.mp herr).2
        have h4 : (m' : ℚ) < 2 ^ 53 := by exact_mod_cast hm53
        have h5 := h2pos E
        have h6 := h2pos e'
        rw [hmq] at h3
        nlinarith [mul_pos h5 h6, mul_le_mul_of_nonneg_right hqq (le_of_lt h5),
          mul_lt_mul_of_pos_right h4 h6]
      obtain ⟨j, hj⟩ : ∃ j : Nat, e' = E + ((j + 3 : Nat) : Int) :=
        ⟨(e' - E - 3).toNat, by push_cast; omega⟩
      have he' : (2 : ℚ) ^ e' = 2 ^ E * (8 * 2 ^ j) := by
        rw [hj, two_zpow_add_nat, pow_add]
        ring
      -- in units of `2^E` the distance of `2q + 1` is an odd integer
      have hD : |((2 * (q : Int) + 1 - (m' : Int) * (8 * 2 ^ j) : Int) : ℚ)| ≤ 4 * 2 ^ j := by
        have h5 := h2pos E
        have hd2 : ((2 * q + 1 : Nat) : ℚ) * 2 ^ E - (m' : ℚ) * 2 ^ e' =
            ((2 * (q : Int) + 1 - (m' : Int) * (8 * 2 ^ j) : Int) : ℚ) * 2 ^ E := by
          rw [he']
          push_cast
          ring
        rw [hd2, abs_mul, abs_of_pos h5, he'] at herr
        have : |((2 * (q : Int) + 1 - (m' : Int) * (8 * 2 ^ j) : Int) : ℚ)| * 2 ^ E ≤
            (4 * 2 ^ j) * 2 ^ E := by
          calc _ ≤ 2 ^ E * (8 * 2 ^ j) / 2 := herr
            _ = (4 * 2 ^ j) * 2 ^ E := by ring
        exact le_of_mul_le_mul_right this h5
      have hDz : |2 * (q : Int) + 1 - (m' : Int) * (8 * 2 ^ j)| ≤ 4 * 2 ^ j := by
        rw [← Int.cast_abs] at hD
        exact_mod_cast hD
      have hDz' : |2 * (q : Int) + 1 - (m' : Int) * (8 * 2 ^ j)| ≤ 4 * 2 ^ j - 1 := by
        generalize hP : (2 : Int) ^ j = P at *
        have hmP : (m' : Int) * (8 * P) = 8 * ((m' : Int) * P) := by ring
        rw [hmP] at hDz ⊢
        generalize (m' : Int) * P = t at *
        rcases abs_cases (2 * (q : Int) + 1 - 8 * t) with ⟨ha, _⟩ | ⟨ha, _⟩ <;>
          rw [ha] at hDz ⊢ <;> omega
      have hDq : |((2 * (q : Int) + 1 - (m' : Int) * (8 * 2 ^ j) : Int) : ℚ)| ≤ 4 * 2 ^ j - 1 := by
        rw [← Int.cast_abs]
        exact_mod_cast hDz'
      have hd3 : (n : ℚ) / d * 2 ^ x - (m' : ℚ) * 2 ^ e' =
          (((2 * (q : Int) + 1 - (m' : Int) * (8 * 2 ^ j) : Int) : ℚ) +
            (2 * ((r : ℚ) / d) - 1)) * 2 ^ E := by
        rw [hV, he']
        push_cast
        ring
      have hstrict : |(n : ℚ) / d * 2 ^ x - (m' : ℚ) * 2 ^ e'| < 2 ^ e' / 2 := by
        have h5 := h2pos E
        rw [hd3, abs_mul, abs_of_pos h5, he']
        have hsum : |((2 * (q : Int) + 1 - (m' : Int) * (8 * 2 ^ j) : Int) : ℚ) +
            (2 * ((r : ℚ) / d) - 1)| < 4 * 2 ^ j := by
          have hb : |2 * ((r : ℚ) / d) - 1| < 1 := by
            rw [abs_lt]
            constructor <;> linarith
          calc _ ≤ |((2 * (q : Int) + 1 - (m' : Int) * (8 * 2 ^ j) : Int) : ℚ)| +
                |2 * ((r : ℚ) / d) - 1| := abs_add _ _
            _ < (4 * 2 ^ j - 1) + 1 := add_lt_add_of_le_of_lt hDq hb
            _ = 4 * 2 ^ j := by ring
        calc _ < (4 * 2 ^ j) * 2 ^ E := mul_lt_mul_of_pos_right hsum h5
          _ = 2 ^ E * (8 * 2 ^ j) / 2 := by ring
      exact ⟨le_of_lt hstrict, fun h => absurd h (ne_of_lt hstrict)⟩
  · right
    refine ⟨hres, ?_⟩
    by_cases hr0 : r = 0
    · have hVM : (n : ℚ) / d * 2 ^ x = ((2 * q + (if r = 0 then 0 else 1) : Nat) : ℚ) * 2 ^ E := by
        rw [hV, hr0]
        simp
      rw [hVM]
      exact hbig
    · rw [if_neg hr0] at hbig
      have h5 := h2pos E
      have hqq : (2 : ℚ) ^ 55 ≤ q := by exact_mod_cast hq55
      have hVge : 2 * (q : ℚ) * 2 ^ E ≤ (n : ℚ) / d * 2 ^ x := by
        rw [hV]
        apply mul_le_mul_of_nonneg_right _ (le_of_lt h5)
        linarith
      refine le_trans ?_ hVge
      have hT : (2 : ℚ) ^ (1024 : Int) - 2 ^ (970 : Int) = (2 ^ 54 - 1) * 2 ^ (970 : Int) := by
        have : (2 : ℚ) ^ (1024 : Int) = 2 ^ (970 : Int) * 2 ^ (54 : Nat) := by
          rw [← zpow_natCast, ← zpow_add₀ (by norm_num : (2 : ℚ) ≠ 0)]
          norm_num
        rw [this]
        ring
      rw [hT] at hbig ⊢
      by_cases hE970 : (970 : Int) ≤ E
      · have h1 : (2 : ℚ) ^ (970 : Int) ≤ 2 ^ E := zpow_le_zpow_right₀ (by norm_num) hE970
        have h2 := h2pos 970
        nlinarith [mul_le_mul_of_nonneg_right hqq (le_of_lt h5), h1, h2]
      · obtain ⟨j, hj⟩ : ∃ j : Nat, (970 : Int) = E + ((j + 1 : Nat) : Int) :=
          ⟨(970 - E - 1).toNat, by push_cast; omega⟩
        have h970 : (2 : ℚ) ^ (970 : Int) = 2 ^ E * (2 * 2 ^ j) := by
          rw [hj, two_zpow_add_nat, pow_succ]
          ring
        rw [h970] at hbig ⊢
        have hbig2 : (2 ^ 54 - 1) * (2 * 2 ^ j) ≤ ((2 * q + 1 : Nat) : ℚ) := by
          have : ((2 : ℚ) ^ 54 - 1) * (2 * 2 ^ j) * 2 ^ E ≤ ((2 * q + 1 : Nat) : ℚ) * 2 ^ E := by
            calc _ = (2 ^ 54 - 1) * (2 ^ E * (2 * 2 ^ j)) := by ring
              _ ≤ _ := hbig
          exact le_of_mul_le_mul_right this h5
        have hbig3 : (2 ^ 54 - 1) * (2 * 2 ^ j) ≤ 2 * q + 1 := by
          have : (((2 ^ 54 - 1) * (2 * 2 ^ j) : Nat) : ℚ) ≤ ((2 * q + 1 : Nat) : ℚ) := by
            have hc : (((2 ^ 54 - 1) * (2 * 2 ^ j) : Nat) : ℚ) = (2 ^ 54 - 1) * (2 * 2 ^ j) := by
              push_cast
              norm_num
            rw [hc]
            exact hbig2
          exact_mod_cast this
        have hbig4 : (2 ^ 54 - 1) * (2 * 2 ^ j) ≤ 2 * q := by
          generalize (2 : Nat) ^ j = P at *
          omega
        have hbig5 : ((2 : ℚ) ^ 54 - 1) * (2 * 2 ^ j) ≤ 2 * q := by
          have : (((2 ^ 54 - 1) * (2 * 2 ^ j) : Nat) : ℚ) ≤ ((2 * q : Nat) : ℚ) := by
            exact_mod_cast hbig4
          have hc : (((2 ^ 54 - 1) * (2 * 2 ^ j) : Nat) : ℚ) = (2 ^ 54 - 1) * (2 * 2 ^ j) := by
            push_cast
            norm_num
          rw [hc] at this
          push_cast at this
          exact this
        have hre : ((2 : ℚ) ^ 54 - 1) * ((2 : ℚ) ^ E * (2 * (2 : ℚ) ^ j)) =
            (((2 : ℚ) ^ 54 - 1) * (2 * (2 : ℚ) ^ j)) * (2 : ℚ) ^ E := by ring
        rw [hre]
        exact mul_le_mul_of_nonneg_right hbig5 (le_of_lt h5)

theorem sq_le_sq_of_le {a b : ℚ} (ha : 0 ≤ a) (hab : a ≤ b) : a * a ≤ b * b :=
  mul_le_mul hab hab ha (le_trans ha hab)

/-- What `F64.sqrt` returns for a positive double `m · 2^e` (`-1074 ≤ e`): a double `m' · 2^e'` in
the stored form whose two neighbouring midpoints enclose the square root, that is
`((m' - 1/2) · 2^e')² ≤ m · 2^e ≤ ((m' + 1/2) · 2^e')²`; or an infinity, only when
`m · 2^e` is at least `(2^1024 - 2^970)²`, which no double is. -/
theorem F64_sqrt_spec (m : Nat) (e : Int) (hm : m ≠ 0) (he : -1074 ≤ e) :
    (∃ m' e', F64.sqrt (F64.fin false m e) = F64.fin false m' e' ∧ m' < 2 ^ 53 ∧ -1074 ≤ e' ∧
        e' ≤ 971 ∧ (e' = -1074 ∨ 2 ^ 52 ≤ m') ∧ 0 < m' ∧
        (((m' : ℚ) - 1 / 2) * 2 ^ e') ^ 2 ≤ (m : ℚ) * 2 ^ e ∧
        (m : ℚ) * 2 ^ e ≤ (((m' : ℚ) + 1 / 2) * 2 ^ e') ^ 2) ∨
      (F64.sqrt (F64.fin false m e) = F64.inf false ∧
        ((2 : ℚ) ^ (1024 : Int) - 2 ^ (970 : Int)) ^ 2 ≤ (m : ℚ) * 2 ^ e) := by
  have h2pos : ∀ z : Int, (0 : ℚ) < 2 ^ z := fun z => zpow_pos (by norm_num) z
  simp only [F64.sqrt, if_neg hm, Bool.false_eq_true, if_false]
  -- the scaling `k` makes `e - k` even
  obtain ⟨k, hk110, h, hh, hkdef⟩ : ∃ k : Nat, 110 ≤ k ∧ ∃ h : Int, e - (k : Int) = 2 * h ∧
      (if (e - 110) % 2 = 0 then 110 else 111 : Nat) = k := by
    by_cases hpar : (e - 110) % 2 = 0
    · exact ⟨110, le_refl _, (e - 110) / 2, by push_cast; omega, by rw [if_pos hpar]⟩
    · exact ⟨111, by norm_num, (e - 111) / 2, by push_cast; omega, by rw [if_neg hpar]⟩
  rw [hkdef]
  have hE : (e - (k : Int)) / 2 - 1 = h - 1 := by omega
  rw [hE]
  obtain ⟨hrle, hrlt⟩ := isqrt_spec (m * 2 ^ k)
  have hV : (m : ℚ) * 2 ^ e = 4 * ((m * 2 ^ k : Nat) : ℚ) * (2 ^ (h - 1) * 2 ^ (h - 1)) := by
    have he2 : e = (h - 1) + (h - 1) + ((k + 2 : Nat) : Int) := by push_cast; omega
    rw [he2, two_zpow_add_nat, zpow_add₀ (by norm_num : (2 : ℚ) ≠ 0), pow_add]
    push_cast
    ring
  have hN110 : 2 ^ 110 ≤ m * 2 ^ k := by
    calc 2 ^ 110 ≤ 2 ^ k := Nat.pow_le_pow_right (by norm_num) hk110
      _ = 1 * 2 ^ k := (Nat.one_mul _).symm
      _ ≤ m * 2 ^ k := Nat.mul_le_mul_right _ (Nat.one_le_iff_ne_zero.mpr hm)
  have hm1 : (1 : ℚ) ≤ m := by exact_mod_cast Nat.one_le_iff_ne_zero.mpr hm
  generalize m * 2 ^ k = N at *
  generalize isqrt N = r at *
  have hr55 : 2 ^ 55 ≤ r := by
    by_contra hcon
    have h1 : r + 1 ≤ 2 ^ 55 := by omega
    have h2 : (r + 1) * (r + 1) ≤ 2 ^ 55 * 2 ^ 55 := Nat.mul_le_mul h1 h1
    have h3 : (2 : Nat) ^ 55 * 2 ^ 55 = 2 ^ 110 := by norm_num
    omega
  have hrq : (2 : ℚ) ^ 55 ≤ r := by exact_mod_cast hr55
  have hrleq : (r : ℚ) * r ≤ N := by exact_mod_cast hrle
  have hrltq : (N : ℚ) < (r + 1) * (r + 1) := by exact_mod_cast hrlt
  have hrpos : 0 < r := lt_of_lt_of_le (by norm_num) hr55
  clear hN110 hr55 hrle hrlt hk110 hkdef hE hh
  -- the digit that records whether the root is exact
  obtain ⟨s, hs, hs0, hs1⟩ : ∃ s : Nat, (if r * r = N then 0 else 1) = s ∧
      (r * r = N → s = 0) ∧ (r * r ≠ N → s = 1) := by
    by_cases hc : r * r = N
    · exact ⟨0, if_pos hc, fun _ => rfl, fun h => absurd hc h⟩
    · exact ⟨1, if_neg hc, fun h => absurd h hc, fun _ => rfl⟩
  rw [hs]
  have hM : 2 * r + s ≠ 0 := by omega
  have h5 := h2pos (h - 1)
  generalize hX : (2 : ℚ) ^ (h - 1) = X at *
  rcases roundDyadic_spec false (2 * r + s) (h - 1) hM with
    ⟨m', e', hres, hm53, hlo, hhi, hcanon, herr, _⟩ | ⟨hres, hbig⟩
  · left
    rw [hX] at herr
    have h6 := h2pos e'
    have hm53q : (m' : ℚ) ≤ 2 ^ 53 := by exact_mod_cast le_of_lt hm53
    have hMq : ((2 * r + s : Nat) : ℚ) = 2 * r + s := by push_cast; ring
    have hsq : (0 : ℚ) ≤ s := by positivity
    -- the unit in the last place is at least `8 · 2^(h - 1)`
    have hEe : (h - 1) + 3 ≤ e' := by
      by_contra hcon
      have hle : e' ≤ (h - 1) + 2 := by omega
      have h1 : (2 : ℚ) ^ e' ≤ 2 ^ ((h - 1) + 2) := zpow_le_zpow_right₀ (by norm_num) hle
      have h2 : (2 : ℚ) ^ ((h - 1) + 2) = X * 4 := by
        rw [zpow_add₀ (by norm_num : (2 : ℚ) ≠ 0), hX]
        norm_num
      rw [h2] at h1
      have h3 := (abs_le.mp herr).2
      rw [hMq] at h3
      generalize (2 : ℚ) ^ e' = Y at *
      have a1 : (2 : ℚ) ^ 55 * X ≤ r * X := mul_le_mul_of_nonneg_right hrq (le_of_lt h5)
      have a2 : (m' : ℚ) * Y ≤ 2 ^ 53 * Y := mul_le_mul_of_nonneg_right hm53q (le_of_lt h6)
      have a3 : (0 : ℚ) ≤ s * X := mul_nonneg hsq (le_of_lt h5)
      have a4 : (2 * (r : ℚ) + s) * X = 2 * (r * X) + s * X := by ring
      rw [a4] at h3
      norm_num at a1 a2
      linarith
    obtain ⟨j, hj⟩ : ∃ j : Nat, e' = (h - 1) + ((j + 3 : Nat) : Int) :=
      ⟨(e' - (h - 1) - 3).toNat, by push_cast; omega⟩
    have he' : (2 : ℚ) ^ e' = X * (8 * 2 ^ j) := by
      rw [hj, two_zpow_add_nat, pow_add, hX]
      ring
    -- the distance of `2r + s` from `m' · 2^(j+3)`, an integer
    have hD : |((2 * (r : Int) + (s : Int) - (m' : Int) * (8 * 2 ^ j) : Int) : ℚ)| ≤
        4 * 2 ^ j := by
      have hd2 : ((2 * r + s : Nat) : ℚ) * X - (m' : ℚ) * 2 ^ e' =
          ((2 * (r : Int) + (s : Int) - (m' : Int) * (8 * 2 ^ j) : Int) : ℚ) * X := by
        rw [he']
        push_cast
        ring
      rw [hd2, abs_mul, abs_of_pos h5, he'] at herr
      have : |((2 * (r : Int) + (s : Int) - (m' : Int) * (8 * 2 ^ j) : Int) : ℚ)| * X ≤
          (4 * 2 ^ j) * X := by
        calc _ ≤ X * (8 * 2 ^ j) / 2 := herr
          _ = (4 * 2 ^ j) * X := by ring
      exact le_of_mul_le_mul_right this h5
    have hDz : |2 * (r : Int) + (s : Int) - (m' : Int) * (8 * 2 ^ j)| ≤ 4 * 2 ^ j := by
      rw [← Int.cast_abs] at hD
      exact_mod_cast hD
    -- bounds on `2r` and `2r + 2` by the midpoints, as integers
    have hbounds : (m' : Int) * (8 * 2 ^ j) - 4 * 2 ^ j ≤ 2 * r ∧
        (r * r = N → 2 * (r : Int) ≤ (m' : Int) * (8 * 2 ^ j) + 4 * 2 ^ j) ∧
        (r * r ≠ N → 2 * (r : Int) + 2 ≤ (m' : Int) * (8 * 2 ^ j) + 4 * 2 ^ j) := by
      have hPpos : (0 : Int) < 2 ^ j := by positivity
      generalize (2 : Int) ^ j = P at *
      have hmP : (m' : Int) * (8 * P) = 8 * ((m' : Int) * P) := by ring
      rw [hmP] at hDz ⊢
      generalize (m' : Int) * P = t at *
      have hab := abs_le.mp hDz
      by_cases hc : r * r = N
      · have := hs0 hc
        subst this
        simp only [Nat.cast_zero, add_zero] at hab
        exact ⟨by omega, fun _ => by omega, fun hne => absurd hc hne⟩
      · have := hs1 hc
        subst this
        simp only [Nat.cast_one] at hab
        exact ⟨by omega, fun heq => absurd heq hc, fun _ => by omega⟩
    obtain ⟨hb1, hb2, hb3⟩ := hbounds
    -- in rationals
    have hPq : (0 : ℚ) < 2 ^ j := by positivity
    have hb1q : (m' : ℚ) * (8 * 2 ^ j) - 4 * 2 ^ j ≤ 2 * r := by exact_mod_cast hb1
    have hlowv : ((m' : ℚ) - 1 / 2) * 2 ^ e' = ((m' : ℚ) * (8 * 2 ^ j) - 4 * 2 ^ j) * X := by
      rw [he']
      ring
    have hupv : ((m' : ℚ) + 1 / 2) * 2 ^ e' = ((m' : ℚ) * (8 * 2 ^ j) + 4 * 2 ^ j) * X := by
      rw [he']
      ring
    have hXX : (0 : ℚ) ≤ X * X := le_of_lt (mul_pos h5 h5)
    have hup : (m : ℚ) * 2 ^ e ≤ (((m' : ℚ) + 1 / 2) * 2 ^ e') ^ 2 := by
      rw [hV, hupv]
      have hu0 : (0 : ℚ) ≤ (m' : ℚ) * (8 * 2 ^ j) + 4 * 2 ^ j := by positivity
      have hb2q : r * r = N → (2 : ℚ) * r ≤ (m' : ℚ) * (8 * 2 ^ j) + 4 * 2 ^ j :=
        fun hc => by exact_mod_cast hb2 hc
      have hb3q : r * r ≠ N → (2 : ℚ) * r + 2 ≤ (m' : ℚ) * (8 * 2 ^ j) + 4 * 2 ^ j :=
        fun hc => by exact_mod_cast hb3 hc
      generalize (m' : ℚ) * (8 * 2 ^ j) + 4 * 2 ^ j = U at *
      have hgoal : 4 * (N : ℚ) ≤ U * U := by
        by_cases hc : r * r = N
        · have h1 : (2 : ℚ) * r ≤ U := hb2q hc
          have h2 : (N : ℚ) = r * r := by exact_mod_cast hc.symm
          have h3 := sq_le_sq_of_le (by positivity : (0 : ℚ) ≤ 2 * r) h1
          rw [h2]
          calc 4 * ((r : ℚ) * r) = 2 * r * (2 * r) := by ring
            _ ≤ U * U := h3
        · have h1 : (2 : ℚ) * r + 2 ≤ U := hb3q hc
          have h3 := sq_le_sq_of_le (by positivity : (0 : ℚ) ≤ 2 * r + 2) h1
          calc 4 * (N : ℚ) ≤ 4 * (((r : ℚ) + 1) * (r + 1)) := by linarith
            _ = (2 * r + 2) * (2 * r + 2) := by ring
            _ ≤ U * U := h3
      calc 4 * (N : ℚ) * (X * X) ≤ U * U * (X * X) := mul_le_mul_of_nonneg_right hgoal hXX
        _ = (U * X) ^ 2 := by ring
    have hm'pos : 0 < m' := by
      by_contra hcon
      have h0 : m' = 0 := by omega
      subst h0
      have he74 : e' = -1074 := by
        rcases hcanon with hc | hc
        · exact hc
        · omega
      subst he74
      simp only [Nat.cast_zero, zero_add] at hup
      have h1 : (2 : ℚ) ^ (-1074 : Int) ≤ 2 ^ e := zpow_le_zpow_right₀ (by norm_num) he
      have h8 : (2 : ℚ) ^ (-1074 : Int) ≤ 1 := zpow_le_one_of_nonpos₀ (by norm_num) (by norm_num)
      have h7 := h2pos (-1074)
      generalize (2 : ℚ) ^ (-1074 : Int) = x at *
      have h3 : x ≤ (m : ℚ) * 2 ^ e := by
        calc x = 1 * x := (one_mul _).symm
          _ ≤ (m : ℚ) * 2 ^ e := mul_le_mul hm1 h1 (le_of_lt h7) (by positivity)
      have h4 : x * x ≤ x * 1 := mul_le_mul_of_nonneg_left h8 (le_of_lt h7)
      have h9 : (1 / 2 * x) ^ 2 = x * x / 4 := by ring
      rw [h9] at hup
      linarith
    have hlow : (((m' : ℚ) - 1 / 2) * 2 ^ e') ^ 2 ≤ (m : ℚ) * 2 ^ e := by
      rw [hV, hlowv]
      have hm1' : (1 : ℚ) ≤ m' := by exact_mod_cast hm'pos
      have hl0 : (0 : ℚ) ≤ (m' : ℚ) * (8 * 2 ^ j) - 4 * 2 ^ j := by
        have : (1 : ℚ) * (8 * 2 ^ j) ≤ (m' : ℚ) * (8 * 2 ^ j) :=
          mul_le_mul_of_nonneg_right hm1' (by positivity)
        linarith
      generalize (m' : ℚ) * (8 * 2 ^ j) - 4 * 2 ^ j = L at *
      have h3 := sq_le_sq_of_le hl0 hb1q
      have hgoal : L * L ≤ 4 * (N : ℚ) := by
        calc L * L ≤ 2 * r * (2 * r) := h3
          _ = 4 * ((r : ℚ) * r) := by ring
          _ ≤ 4 * (N : ℚ) := by linarith
      calc (L * X) ^ 2 = L * L * (X * X) := by ring
        _ ≤ 4 * (N : ℚ) * (X * X) := mul_le_mul_of_nonneg_right hgoal hXX
    exact ⟨m', e', hres, hm53, hlo, hhi, hcanon, hm'pos, hlow, hup⟩
  · right
    refine ⟨hres, ?_⟩
    rw [hX] at hbig
    have hT : (2 : ℚ) ^ (1024 : Int) - 2 ^ (970 : Int) = (2 ^ 54 - 1) * 2 ^ (970 : Int) := by
      have : (2 : ℚ) ^ (1024 : Int) = 2 ^ (970 : Int) * 2 ^ (54 : Nat) := by
        rw [← zpow_natCast, ← zpow_add₀ (by norm_num : (2 : ℚ) ≠ 0)]
        norm_num
      rw [this]
      ring
    have h970pos := h2pos 970
    rw [hT] at hbig ⊢
    -- `2r · 2^(h - 1)` is at least the threshold
    have h2r : ((2 : ℚ) ^ 54 - 1) * 2 ^ (970 : Int) ≤ 2 * (r : ℚ) * X := by
      by_cases hc : r * r = N
      · have := hs0 hc
        subst this
        simpa using hbig
      · have := hs1 hc
        subst this
        by_cases hE970 : (970 : Int) ≤ h - 1
        · have h1 : (2 : ℚ) ^ (970 : Int) ≤ X := by
            rw [← hX]
            exact zpow_le_zpow_right₀ (by norm_num) hE970
          generalize (2 : ℚ) ^ (970 : Int) = A at *
          have a1 : ((2 : ℚ) ^ 54 - 1) * A ≤ (2 ^ 54 - 1) * X :=
            mul_le_mul_of_nonneg_left h1 (by norm_num)
          have a2 : (2 : ℚ) ^ 55 * X ≤ r * X := mul_le_mul_of_nonneg_right hrq (le_of_lt h5)
          norm_num at a1 a2 ⊢
          linarith
        · obtain ⟨j, hj⟩ : ∃ j : Nat, (970 : Int) = (h - 1) + ((j + 1 : Nat) : Int) :=
            ⟨(970 - (h - 1) - 1).toNat, by push_cast; omega⟩
          have h970 : (2 : ℚ) ^ (970 : Int) = X * (2 * 2 ^ j) := by
            rw [hj, two_zpow_add_nat, pow_succ, hX]
            ring
          rw [h970] at hbig ⊢
          have hbig2 : (2 ^ 54 - 1) * (2 * 2 ^ j) ≤ ((2 * r + 1 : Nat) : ℚ) := by
            have : ((2 : ℚ) ^ 54 - 1) * (2 * 2 ^ j) * X ≤ ((2 * r + 1 : Nat) : ℚ) * X := by
              calc _ = (2 ^ 54 - 1) * (X * (2 * 2 ^ j)) := by ring
                _ ≤ _ := hbig
            exact le_of_mul_le_mul_right this h5
          have hcst : (((2 ^ 54 - 1) * (2 * 2 ^ j) : Nat) : ℚ) = (2 ^ 54 - 1) * (2 * 2 ^ j) := by
            push_cast
            norm_num
          have hbig3 : (2 ^ 54 - 1) * (2 * 2 ^ j) ≤ 2 * r + 1 := by
            have : (((2 ^ 54 - 1) * (2 * 2 ^ j) : Nat) : ℚ) ≤ ((2 * r + 1 : Nat) : ℚ) := by
              rw [hcst]
              exact hbig2
            exact_mod_cast this
          have hbig4 : (2 ^ 54 - 1) * (2 * 2 ^ j) ≤ 2 * r := by
            generalize (2 : Nat) ^ j = P at *
            omega
          have hbig5 : ((2 : ℚ) ^ 54 - 1) * (2 * 2 ^ j) ≤ 2 * r := by
            have : (((2 ^ 54 - 1) * (2 * 2 ^ j) : Nat) : ℚ) ≤ ((2 * r : Nat) : ℚ) := by
              exact_mod_cast hbig4
            rw [hcst] at this
            push_cast at this
            exact this
          have hre : ((2 : ℚ) ^ 54 - 1) * (X * (2 * (2 : ℚ) ^ j)) =
              (((2 : ℚ) ^ 54 - 1) * (2 * (2 : ℚ) ^ j)) * X := by ring
          rw [hre]
          exact mul_le_mul_of_nonneg_right hbig5 (le_of_lt h5)
    have hT0 : (0 : ℚ) ≤ ((2 : ℚ) ^ 54 - 1) * 2 ^ (970 : Int) :=
      mul_nonneg (by norm_num) (le_of_lt h970pos)
    generalize ((2 : ℚ) ^ 54 - 1) * 2 ^ (970 : Int) = T at *
    have h3 := sq_le_sq_of_le hT0 h2r
    rw [hV]
    calc T ^ 2 = T * T := by ring
      _ ≤ 2 * (r : ℚ) * X * (2 * r * X) := h3
      _ = 4 * ((r : ℚ) * r) * (X * X) := by ring
      _ ≤ 4 * (N : ℚ) * (X * X) := by
          apply mul_le_mul_of_nonneg_right _ (le_of_lt (mul_pos h5 h5))
          linarith

/-- The arithmetic on samples: literals, the four operators and the square root round as
IEEE 754 prescribes. -/
theorem F64_arithmetic_examples :
    PI = ofRat 3.141592653589793 ∧
    F64.add (ofRat 0.1) (ofRat 0.2) = ofRat 0.30000000000000004 ∧
    F64.sub (ofRat 0.3) (ofRat 0.1) = ofRat 0.19999999999999998 ∧
    F64.mul (ofRat 0.1) (ofRat 3) = ofRat 0.30000000000000004 ∧
    F64.div (ofRat 1) (ofRat 3) = ofRat 0.3333333333333333 ∧
    F64.sqrt (ofRat 2) = ofRat 1.4142135623730951 ∧
    F64.add (ofRat 9007199254740992) (ofRat 1) = ofRat 9007199254740992 ∧
    F64.add (ofRat 9007199254740994) (ofRat 1) = ofRat 9007199254740996 ∧
    F64.mul (ofRat 1e308) (ofRat 10) = F64.inf false ∧
    F64.div (ofRat 5e-324) (ofRat 2) = F64.fin false 0 (-1074) ∧
    F64.div (ofRat 1) (ofRat 0) = F64.inf false ∧
    F64.div (ofRat 0) (ofRat 0) = F64.nan ∧
    F64.sqrt (ofRat (-1)) = F64.nan ∧
    F64.equals F64.nan F64.nan = false ∧
    F64.le F64.nan (ofRat 1) = false := by
  decide!

theorem neg_roundDyadic (b : Bool) (m : Nat) (e : Int) :
    F64.neg (roundDyadic b m e) = roundDyadic (!b) m e := by
  simp only [roundDyadic]
  split_ifs <;> rfl

theorem neg_roundQuotient (b : Bool) (n d : Nat) (x : Int) :
    F64.neg (roundQuotient b n d x) = roundQuotient (!b) n d x := by
  simp only [roundQuotient, neg_roundDyadic]

theorem F64_neg_neg (x : F64) : F64.neg (F64.neg x) = x := by
  cases x <;> simp [F64.neg]

theorem F64_mul_comm (x y : F64) : F64.mul x y = F64.mul y x := by
  cases x <;> cases y <;> simp [F64.mul, Bool.xor_comm, Nat.mul_comm, Int.add_comm]

theorem F64_mul_neg_left (x y : F64) : F64.mul (F64.neg x) y = F64.neg (F64.mul x y) := by
  cases x with
  | nan => cases y <;> rfl
  | inf s =>
    cases y with
    | nan => rfl
    | inf t => cases s <;> cases t <;> rfl
    | fin t n f =>
      show (if n = 0 then F64.nan else F64.inf (xor (!s) t)) =
        F64.neg (if n = 0 then F64.nan else F64.inf (xor s t))
      split_ifs
      · rfl
      · cases s <;> cases t <;> rfl
  | fin s m e =>
    cases y with
    | nan => rfl
    | inf t =>
      show (if m = 0 then F64.nan else F64.inf (xor (!s) t)) =
        F64.neg (if m = 0 then F64.nan else F64.inf (xor s t))
      split_ifs
      · rfl
      · cases s <;> cases t <;> rfl
    | fin t n f =>
      show roundDyadic (xor (!s) t) (m * n) (e + f) =
        F64.neg (roundDyadic (xor s t) (m * n) (e + f))
      rw [neg_roundDyadic]
      cases s <;> cases t <;> rfl

theorem F64_mul_neg_right (x y : F64) : F64.mul x (F64.neg y) = F64.neg (F64.mul x y) := by
  rw [F64_mul_comm, F64_mul_neg_left, F64_mul_comm]

theorem F64_div_neg_left (x y : F64) : F64.div (F64.neg x) y = F64.neg (F64.div x y) := by
  cases x with
  | nan => cases y <;> rfl
  | inf s =>
    cases y with
    | nan => rfl
    | inf t => rfl
    | fin t n f => cases s <;> cases t <;> rfl
  | fin s m e =>
    cases y with
    | nan => rfl
    | inf t => cases s <;> cases t <;> rfl
    | fin t n f =>
      show (if n = 0 then (if m = 0 then F64.nan else F64.inf (xor (!s) t))
          else roundQuotient (xor (!s) t) m n (e - f)) =
        F64.neg (if n = 0 then (if m = 0 then F64.nan else F64.inf (xor s t))
          else roundQuotient (xor s t) m n (e - f))
      split_ifs
      · rfl
      · cases s <;> cases t <;> rfl
      · rw [neg_roundQuotient]
        cases s <;> cases t <;> rfl

theorem signedInt_not (s : Bool) (m : Nat) : signedInt (!s) m = -signedInt s m := by
  cases s <;> simp [signedInt]

/-- `y - x` is `-(x - y)`, or both are `+0` (when `x` and `y` are equal). -/
theorem F64_sub_swap (x y : F64) :
    F64.sub y x = F64.neg (F64.sub x y) ∨ F64.sub y x = F64.sub x y := by
  cases x with
  | nan => cases y <;> exact Or.inl rfl
  | inf s =>
    cases y with
    | nan => exact Or.inl rfl
    | inf t => cases s <;> cases t <;> exact Or.inl rfl
    | fin t n f => exact Or.inl rfl
  | fin s m e =>
    cases y with
    | nan => exact Or.inl rfl
    | inf t => cases t <;> exact Or.inl rfl
    | fin t n f =>
      simp only [F64.sub, F64.neg, F64.add, signedInt_not]
      have hmin : min f e = min e f := min_comm f e
      rw [hmin]
      generalize signedInt s (m * 2 ^ (e - min e f).toNat) = a
      generalize signedInt t (n * 2 ^ (f - min e f).toNat) = b
      by_cases h : a + -b = 0
      · have h2 : b + -a = 0 := by omega
        rw [if_pos h, if_pos h2]
        cases s <;> cases t <;> simp
      · have h2 : ¬ (b + -a = 0) := by omega
        rw [if_neg h, if_neg h2]
        left
        have hn : (b + -a).natAbs = (a + -b).natAbs := by omega
        have hs : decide (b + -a < 0) = !decide (a + -b < 0) := by
          by_cases h3 : a + -b < 0
          · have h4 : ¬ (b + -a < 0) := by omega
            simp [h3, h4]
          · have h4 : b + -a < 0 := by omega
            simp [h3, h4]
        rw [hn, hs]
        exact (neg_roundDyadic _ _ _).symm

theorem Math_sin_neg (M : MathLib) (hodd : ∀ x, M.sin (F64.neg x) = F64.neg (M.sin x))
    (x : F64) : Math.sin M (F64.neg x) = F64.neg (Math.sin M x) := by
  cases x with
  | nan => rfl
  | inf s => rfl
  | fin s m e =>
    show (if m = 0 then F64.fin (!s) m e else M.sin (F64.fin (!s) m e)) =
      F64.neg (if m = 0 then F64.fin s m e else M.sin (F64.fin s m e))
    split_ifs
    · rfl
    · exact hodd (F64.fin s m e)

/-- The square of the sine of half an angle difference does not depend on the order of the
difference, for a sine that is odd. -/
theorem sinSquare_swap (M : MathLib) (hodd : ∀ x, M.sin (F64.neg x) = F64.neg (M.sin x))
    (x y : F64) :
    Math.sin M (F64.div (F64.div (F64.mul (F64.sub y x) PI) (ofRat 180)) (ofRat 2)) =
        F64.neg
          (Math.sin M (F64.div (F64.div (F64.mul (F64.sub x y) PI) (ofRat 180)) (ofRat 2))) ∨
      Math.sin M (F64.div (F64.div (F64.mul (F64.sub y x) PI) (ofRat 180)) (ofRat 2)) =
        Math.sin M (F64.div (F64.div (F64.mul (F64.sub x y) PI) (ofRat 180)) (ofRat 2)) := by
  rcases F64_sub_swap x y with h | h
  · left
    rw [h, F64_mul_neg_left, F64_div_neg_left, F64_div_neg_left, Math_sin_neg M hodd]
  · right
    rw [h]

/-- In doubles the intermediate `a` does not depend on the order of the two coordinate pairs,
for a sine that is odd. -/
theorem IEEE_haversineA_swap (M : MathLib)
    (hodd : ∀ x, M.sin (F64.neg x) = F64.neg (M.sin x)) (lat1 lon1 lat2 lon2 : F64) :
    IEEE.haversineA M lat2 lon2 lat1 lon1 = IEEE.haversineA M lat1 lon1 lat2 lon2 := by
  simp only [IEEE.haversineA]
  have hc := F64_mul_comm (Math.cos M (F64.div (F64.mul lat2 PI) (ofRat 180)))
    (Math.cos M (F64.div (F64.mul lat1 PI) (ofRat 180)))
  rw [hc]
  rcases sinSquare_swap M hodd lat2 lat1 with h1 | h1 <;>
    rcases sinSquare_swap M hodd lon2 lon1 with h2 | h2 <;>
    rw [h1, h2] <;>
    simp only [F64_mul_neg_left, F64_mul_neg_right, F64_neg_neg]

/-- In doubles `calculateDistance` returns the same value, bit for bit, in both argument
orders, for a sine that is odd; the value can be NaN. -/
theorem IEEE_calculateDistance_swap (M : MathLib)
    (hodd : ∀ x, M.sin (F64.neg x) = F64.neg (M.sin x)) (lat1 lon1 lat2 lon2 : F64) :
    IEEE.calculateDistance M lat2 lon2 lat1 lon1 = IEEE.calculateDistance M lat1 lon1 lat2 lon2 := by
  simp only [IEEE.calculateDistance, IEEE_haversineA_swap M hodd]

theorem F64_equals_self (x : F64) : F64.equals x x = decide (x ≠ F64.nan) := by
  cases x <;> simp [F64.equals]

/-- In doubles, for a sine that is odd, `distance(a, b) == distance(b, a)` is false exactly when
the distance is NaN. -/
theorem IEEE_distance_equals_swap (M : MathLib)
    (hodd : ∀ x, M.sin (F64.neg x) = F64.neg (M.sin x)) (lat1 lon1 lat2 lon2 : F64) :
    F64.equals (IEEE.calculateDistance M lat1 lon1 lat2 lon2)
        (IEEE.calculateDistance M lat2 lon2 lat1 lon1) = false ↔
      IEEE.calculateDistance M lat1 lon1 lat2 lon2 = F64.nan := by
  rw [IEEE_calculateDistance_swap M hodd, F64_equals_self]
  simp

theorem Math_sin_ordinary (M : MathLib) (x : F64) (hx : x.isOrdinary = true) :
    Math.sin M x = M.sin x := by
  cases x with
  | nan => simp [F64.isOrdinary] at hx
  | inf s => simp [F64.isOrdinary] at hx
  | fin s m e =>
    simp only [F64.isOrdinary, decide_eq_true_eq] at hx
    simp [Math.sin, hx]

theorem Math_cos_ordinary (M : MathLib) (x : F64) (hx : x.isOrdinary = true) :
    Math.cos M x = M.cos x := by
  cases x with
  | nan => simp [F64.isOrdinary] at hx
  | inf s => simp [F64.isOrdinary] at hx
  | fin s m e =>
    simp only [F64.isOrdinary, decide_eq_true_eq] at hx
    simp [Math.cos, hx]

theorem Math_atan2_nan_right (M : MathLib) (y : F64) : Math.atan2 M y F64.nan = F64.nan := by
  cases y <;> rfl

theorem ofRat_one : ofRat 1 = F64.fin false (2 ^ 52) (-52) := by decide!

theorem F64_mul_nan_right (x : F64) : F64.mul x F64.nan = F64.nan := by
  cases x <;> rfl

/-- A sum is NaN, an infinity, or a double whose exponent is not below -1074. -/
theorem F64_add_exponent (x y : F64) :
    ∀ s m e, F64.add x y = F64.fin s m e → -1074 ≤ e := by
  intro s m e h
  cases x with
  | nan => cases y <;> simp [F64.add] at h
  | inf s1 =>
    cases y with
    | nan => simp [F64.add] at h
    | inf t1 =>
      simp only [F64.add] at h
      split_ifs at h
    | fin t1 n1 f1 => simp [F64.add] at h
  | fin s1 m1 e1 =>
    cases y with
    | nan => simp [F64.add] at h
    | inf t1 => simp [F64.add] at h
    | fin t1 n1 f1 =>
      simp only [F64.add] at h
      split_ifs at h with hv
      · simp only [F64.fin.injEq] at h
        omega
      · have hne : (signedInt s1 (m1 * 2 ^ (e1 - min e1 f1).toNat) +
            signedInt t1 (n1 * 2 ^ (f1 - min e1 f1).toNat)).natAbs ≠ 0 := by
          simpa using hv
        rcases roundDyadic_spec _ _ (min e1 f1) hne with
          ⟨m', e', hres, _, hlo, _⟩ | ⟨hres, _⟩
        · rw [hres] at h
          simp only [F64.fin.injEq] at h
          omega
        · rw [hres] at h
          simp at h

/-- Line 39 when `a` is above 1 (or NaN): `1 - a` is negative and `Math.sqrt(1 - a)` is NaN. -/
theorem sqrt_one_sub_of_not_le (a : F64) (ha : ∀ s m e, a = F64.fin s m e → -1074 ≤ e)
    (hle : F64.le a (ofRat 1) = false) :
    F64.sqrt (F64.sub (ofRat 1) a) = F64.nan := by
  rw [ofRat_one] at hle ⊢
  cases a with
  | nan => rfl
  | inf s =>
    cases s with
    | false => rfl
    | true => simp [F64.le] at hle
  | fin s m e =>
    have he := ha s m e rfl
    simp only [F64.le, decide_eq_false_iff_not, not_le] at hle
    cases s with
    | true =>
      exfalso
      simp only [signedInt, if_true, Bool.false_eq_true, if_false] at hle
      have h1 : (0 : Int) ≤ ((m * 2 ^ (e - min e (-52)).toNat : Nat) : Int) := Int.natCast_nonneg _
      have h2 : (0 : Int) ≤ ((2 ^ 52 * 2 ^ ((-52 : Int) - min e (-52)).toNat : Nat) : Int) :=
        Int.natCast_nonneg _
      omega
    | false =>
      simp only [signedInt, Bool.false_eq_true, if_false] at hle
      simp only [F64.sub, F64.neg, F64.add, Bool.not_false, signedInt, if_true,
        Bool.false_eq_true, if_false]
      have hmin : min (-52 : Int) e = min e (-52) := min_comm _ _
      rw [hmin]
      generalize hA : ((2 ^ 52 * 2 ^ ((-52 : Int) - min e (-52)).toNat : Nat) : Int) = A at *
      generalize hB : ((m * 2 ^ (e - min e (-52)).toNat : Nat) : Int) = B at *
      have hv : ¬ (A + -B = 0) := by omega
      have hneg : A + -B < 0 := by omega
      rw [if_neg hv]
      have hd : decide (A + -B < 0) = true := by simp [hneg]
      rw [hd]
      have hne : (A + -B).natAbs ≠ 0 := by omega
      rcases roundDyadic_spec true _ (min e (-52)) hne with
        ⟨m', e', hres, _, _, _, hcanon, herr, _⟩ | ⟨hres, _⟩
      · rw [hres]
        have hm' : m' ≠ 0 := by
          intro h0
          subst h0
          have he' : e' = -1074 := by
            rcases hcanon with h | h
            · exact h
            · omega
          subst he'
          simp only [Nat.cast_zero, zero_mul, sub_zero] at herr
          have hg : (-1074 : Int) ≤ min e (-52) := le_min he (by norm_num)
          have h1 : (2 : ℚ) ^ (-1074 : Int) ≤ 2 ^ (min e (-52)) :=
            zpow_le_zpow_right₀ (by norm_num) hg
          have h2 : (1 : ℚ) ≤ ((A + -B).natAbs : ℚ) := by
            exact_mod_cast Nat.one_le_iff_ne_zero.mpr hne
          have h3 : (0 : ℚ) < 2 ^ (-1074 : Int) := zpow_pos (by norm_num) _
          have h4 : (0 : ℚ) < 2 ^ (min e (-52)) := zpow_pos (by norm_num) _
          rw [abs_of_nonneg (by positivity)] at herr
          have h5 : (1 : ℚ) * 2 ^ (-1074 : Int) ≤
              ((A + -B).natAbs : ℚ) * 2 ^ (min e (-52)) :=
            mul_le_mul h2 h1 (le_of_lt h3) (by positivity)
          rw [one_mul] at h5
          exact absurd (le_trans h5 herr) (not_le.mpr (half_lt_self h3))
        simp [F64.sqrt, hm']
      · rw [hres]
        rfl

/-- In doubles, for every math library and all coordinates: when the intermediate `a` is not
`<= 1` (rounding lifted it above 1, or it is NaN), `calculateDistance` returns NaN. -/
theorem IEEE_calculateDistance_nan (M : MathLib) (lat1 lon1 lat2 lon2 : F64)
    (hle : F64.le (IEEE.haversineA M lat1 lon1 lat2 lon2) (ofRat 1) = false) :
    IEEE.calculateDistance M lat1 lon1 lat2 lon2 = F64.nan := by
  have ha : ∀ s m e, IEEE.haversineA M lat1 lon1 lat2 lon2 = F64.fin s m e → -1074 ≤ e := by
    intro s m e h
    simp only [IEEE.haversineA] at h
    exact F64_add_exponent _ _ s m e h
  simp only [IEEE.calculateDistance, sqrt_one_sub_of_not_le _ ha hle, Math_atan2_nan_right,
    F64_mul_nan_right]

/-- The intermediate `a` of the near-antipodal run: the square of the sine, 0.05737622618559926,
plus the product of the cosines, 0.9426237738144009, rounds to 1.0000000000000002. -/
theorem nearAntipodal_haversineA (M : MathLib)
    (hsin1 : M.sin (ofRat (-0.24188518103389411)) = ofRat (-0.23953335088375327))
    (hcos1 : M.cos (ofRat 0.24188518103389411) = ofRat 0.9708881366122468)
    (hcos2 : M.cos (ofRat (-0.24188518103389411)) = ofRat 0.9708881366122468)
    (hsin2 : M.sin (ofRat 1.5707963267948966) = ofRat 1) :
    IEEE.haversineA M (ofRat 13.859) (ofRat (-55.556)) (ofRat (-13.859)) (ofRat 124.444) =
      ofRat 1.0000000000000002 := by
  have e1 : F64.div (F64.div (F64.mul (F64.sub (ofRat (-13.859)) (ofRat 13.859)) PI)
      (ofRat 180)) (ofRat 2) = ofRat (-0.24188518103389411) := by decide!
  have e2 : F64.div (F64.div (F64.mul (F64.sub (ofRat 124.444) (ofRat (-55.556))) PI)
      (ofRat 180)) (ofRat 2) = ofRat 1.5707963267948966 := by decide!
  have e3 : F64.div (F64.mul (ofRat 13.859) PI) (ofRat 180) = ofRat 0.24188518103389411 := by
    decide!
  have e4 : F64.div (F64.mul (ofRat (-13.859)) PI) (ofRat 180) =
      ofRat (-0.24188518103389411) := by decide!
  simp only [IEEE.haversineA]
  rw [e1, e2, e3, e4, Math_sin_ordinary M _ (by decide!), Math_sin_ordinary M _ (by decide!),
    Math_cos_ordinary M _ (by decide!), Math_cos_ordinary M _ (by decide!), hsin1, hcos1, hcos2,
    hsin2]
  decide!

/-- The same intermediate with the two coordinate pairs exchanged: both sines change sign, the
squares and the products do not. -/
theorem nearAntipodal_haversineA_swapped (M : MathLib)
    (hsin1 : M.sin (ofRat 0.24188518103389411) = ofRat 0.23953335088375327)
    (hcos1 : M.cos (ofRat 0.24188518103389411) = ofRat 0.9708881366122468)
    (hcos2 : M.cos (ofRat (-0.24188518103389411)) = ofRat 0.9708881366122468)
    (hsin2 : M.sin (ofRat (-1.5707963267948966)) = ofRat (-1)) :
    IEEE.haversineA M (ofRat (-13.859)) (ofRat 124.444) (ofRat 13.859) (ofRat (-55.556)) =
      ofRat 1.0000000000000002 := by
  have e1 : F64.div (F64.div (F64.mul (F64.sub (ofRat 13.859) (ofRat (-13.859))) PI)
      (ofRat 180)) (ofRat 2) = ofRat 0.24188518103389411 := by decide!
  have e2 : F64.div (F64.div (F64.mul (F64.sub (ofRat (-55.556)) (ofRat 124.444)) PI)
      (ofRat 180)) (ofRat 2) = ofRat (-1.5707963267948966) := by decide!
  have e3 : F64.div (F64.mul (ofRat 13.859) PI) (ofRat 180) = ofRat 0.24188518103389411 := by
    decide!
  have e4 : F64.div (F64.mul (ofRat (-13.859)) PI) (ofRat 180) =
      ofRat (-0.24188518103389411) := by decide!
  simp only [IEEE.haversineA]
  rw [e1, e2, e3, e4, Math_sin_ordinary M _ (by decide!), Math_sin_ordinary M _ (by decide!),
    Math_cos_ordinary M _ (by decide!), Math_cos_ordinary M _ (by decide!), hsin1, hcos1, hcos2,
    hsin2]
  decide!

/-- Lines 39-40 when `a` is 1.0000000000000002: `1 - a` is negative, `Math.sqrt(1 - a)` is NaN
and so are `Math.atan2`, `c` and `R * c`. -/
theorem calculateDistance_of_a_above_one (M : MathLib) (lat1 lon1 lat2 lon2 : F64)
    (ha : IEEE.haversineA M lat1 lon1 lat2 lon2 = ofRat 1.0000000000000002) :
    IEEE.calculateDistance M lat1 lon1 lat2 lon2 = F64.nan := by
  have e : F64.sqrt (F64.sub (ofRat 1) (ofRat 1.0000000000000002)) = F64.nan := by decide!
  simp only [IEEE.calculateDistance, ha, e, Math_atan2_nan_right]
  decide!

theorem Math_asin_one (M : MathLib) : Math.asin M (ofRat 1) = M.asin (ofRat 1) := by
  have e : ofRat 1 = F64.fin false (2 ^ 52) (-52) := by decide!
  rw [e]
  simp only [Math.asin]
  rw [if_neg (by decide!), if_pos (by decide!)]

/-- C12, evaluation at the failing input: for the near-antipodal pair (13.859, -55.556) and
(-13.859, 124.444), and every math library that returns at the four angles of this run the
doubles nearest to the exact sines and cosines, the intermediate `a` is 1.0000000000000002,
which is not `<= 1`; `Math.sqrt(1 - a)` is NaN and `calculateDistance` returns NaN, for which
neither `0 <= d` nor `d <= 6371·π` holds. -/
theorem C12_near_antipodal_nan (M : MathLib)
    (hsin1 : M.sin (ofRat (-0.24188518103389411)) = ofRat (-0.23953335088375327))
    (hcos1 : M.cos (ofRat 0.24188518103389411) = ofRat 0.9708881366122468)
    (hcos2 : M.cos (ofRat (-0.24188518103389411)) = ofRat 0.9708881366122468)
    (hsin2 : M.sin (ofRat 1.5707963267948966) = ofRat 1) :
    IEEE.haversineA M (ofRat 13.859) (ofRat (-55.556)) (ofRat (-13.859)) (ofRat 124.444) =
      ofRat 1.0000000000000002 ∧
    F64.le (IEEE.haversineA M (ofRat 13.859) (ofRat (-55.556)) (ofRat (-13.859)) (ofRat 124.444))
      (ofRat 1) = false ∧
    F64.sqrt (F64.sub (ofRat 1)
      (IEEE.haversineA M (ofRat 13.859) (ofRat (-55.556)) (ofRat (-13.859)) (ofRat 124.444))) =
      F64.nan ∧
    IEEE.calculateDistance M (ofRat 13.859) (ofRat (-55.556)) (ofRat (-13.859)) (ofRat 124.444) =
      F64.nan ∧
    F64.le (ofRat 0)
      (IEEE.calculateDistance M (ofRat 13.859) (ofRat (-55.556)) (ofRat (-13.859)) (ofRat 124.444)) =
      false ∧
    F64.le
      (IEEE.calculateDistance M (ofRat 13.859) (ofRat (-55.556)) (ofRat (-13.859)) (ofRat 124.444))
      (F64.mul (ofRat 6371) PI) = false := by
  have ha := nearAntipodal_haversineA M hsin1 hcos1 hcos2 hsin2
  have hd := calculateDistance_of_a_above_one M _ _ _ _ ha
  rw [hd, ha]
  exact ⟨rfl, by decide!, by decide!, rfl, by decide!, by decide!⟩

/-- Witness of C12: the library that holds the values of the run. -/
theorem C12_near_antipodal_nan_witness :
    antipodalMath.sin (ofRat (-0.24188518103389411)) = ofRat (-0.23953335088375327) ∧
    antipodalMath.cos (ofRat 0.24188518103389411) = ofRat 0.9708881366122468 ∧
    antipodalMath.cos (ofRat (-0.24188518103389411)) = ofRat 0.9708881366122468 ∧
    antipodalMath.sin (ofRat 1.5707963267948966) = ofRat 1 ∧
    IEEE.calculateDistance antipodalMath (ofRat 13.859) (ofRat (-55.556)) (ofRat (-13.859))
      (ofRat 124.444) = F64.nan :=
  ⟨by decide!, by decide!, by decide!, by decide!,
    (C12_near_antipodal_nan antipodalMath (by decide!) (by decide!) (by decide!)
      (by decide!)).2.2.2.1⟩

/-- C11, evaluation at the failing input: for the near-antipodal pair (13.859, -55.556) and
(-13.859, 124.444) the value `6371·2·atan2(√a, √(1 - a))` computed by the code is NaN, while
`2·6371·arcsin(√a)` is 20015.086796020572 (`√a` rounds to 1, whose arcsine is the double
nearest to π/2); the two are not equal. -/
theorem C11_near_antipodal_not_haversine (M : MathLib)
    (hsin1 : M.sin (ofRat (-0.24188518103389411)) = ofRat (-0.23953335088375327))
    (hcos1 : M.cos (ofRat 0.24188518103389411) = ofRat 0.9708881366122468)
    (hcos2 : M.cos (ofRat (-0.24188518103389411)) = ofRat 0.9708881366122468)
    (hsin2 : M.sin (ofRat 1.5707963267948966) = ofRat 1)
    (hasin : M.asin (ofRat 1) = ofRat 1.5707963267948966) :
    IEEE.calculateDistance M (ofRat 13.859) (ofRat (-55.556)) (ofRat (-13.859)) (ofRat 124.444) =
      F64.nan ∧
    IEEE.haversineDistance M (ofRat 13.859) (ofRat (-55.556)) (ofRat (-13.859)) (ofRat 124.444) =
      ofRat 20015.086796020572 ∧
    F64.equals
      (IEEE.calculateDistance M (ofRat 13.859) (ofRat (-55.556)) (ofRat (-13.859)) (ofRat 124.444))
      (IEEE.haversineDistance M (ofRat 13.859) (ofRat (-55.556)) (ofRat (-13.859)) (ofRat 124.444)) =
      false := by
  have ha := nearAntipodal_haversineA M hsin1 hcos1 hcos2 hsin2
  have hd := calculateDistance_of_a_above_one M _ _ _ _ ha
  have hs : F64.sqrt (ofRat 1.0000000000000002) = ofRat 1 := by decide!
  have hh : IEEE.haversineDistance M (ofRat 13.859) (ofRat (-55.556)) (ofRat (-13.859))
      (ofRat 124.444) = ofRat 20015.086796020572 := by
    simp only [IEEE.haversineDistance, ha, hs, Math_asin_one, hasin]
    decide!
  rw [hd, hh]
  exact ⟨rfl, rfl, by decide!⟩

/-- Witness of C11: the library that holds the values of the run. -/
theorem C11_near_antipodal_not_haversine_witness :
    antipodalMath.sin (ofRat (-0.24188518103389411)) = ofRat (-0.23953335088375327) ∧
    antipodalMath.cos (ofRat 0.24188518103389411) = ofRat 0.9708881366122468 ∧
    antipodalMath.cos (ofRat (-0.24188518103389411)) = ofRat 0.9708881366122468 ∧
    antipodalMath.sin (ofRat 1.5707963267948966) = ofRat 1 ∧
    antipodalMath.asin (ofRat 1) = ofRat 1.5707963267948966 ∧
    IEEE.haversineDistance antipodalMath (ofRat 13.859) (ofRat (-55.556)) (ofRat (-13.859))
      (ofRat 124.444) = ofRat 20015.086796020572 :=
  ⟨by decide!, by decide!, by decide!, by decide!, by decide!,
    (C11_near_antipodal_not_haversine antipodalMath (by decide!) (by decide!) (by decide!)
      (by decide!) (by decide!)).2.1⟩

/-- C10, evaluation at the failing input: for the near-antipodal pair (13.859, -55.556) and
(-13.859, 124.444) `calculateDistance` returns NaN in both argument orders, so the comparison
`distance(a, b) == distance(b, a)` is false. -/
theorem C10_near_antipodal_not_equal (M : MathLib)
    (hsin1 : M.sin (ofRat (-0.24188518103389411)) = ofRat (-0.23953335088375327))
    (hsin1r : M.sin (ofRat 0.24188518103389411) = ofRat 0.23953335088375327)
    (hcos1 : M.cos (ofRat 0.24188518103389411) = ofRat 0.9708881366122468)
    (hcos2 : M.cos (ofRat (-0.24188518103389411)) = ofRat 0.9708881366122468)
    (hsin2 : M.sin (ofRat 1.5707963267948966) = ofRat 1)
    (hsin2r : M.sin (ofRat (-1.5707963267948966)) = ofRat (-1)) :
    IEEE.calculateDistance M (ofRat 13.859) (ofRat (-55.556)) (ofRat (-13.859)) (ofRat 124.444) =
      F64.nan ∧
    IEEE.calculateDistance M (ofRat (-13.859)) (ofRat 124.444) (ofRat 13.859) (ofRat (-55.556)) =
      F64.nan ∧
    F64.equals
      (IEEE.calculateDistance M (ofRat 13.859) (ofRat (-55.556)) (ofRat (-13.859)) (ofRat 124.444))
      (IEEE.calculateDistance M (ofRat (-13.859)) (ofRat 124.444) (ofRat 13.859) (ofRat (-55.556))) =
      false := by
  have hd := calculateDistance_of_a_above_one M _ _ _ _
    (nearAntipodal_haversineA M hsin1 hcos1 hcos2 hsin2)
  have hr := calculateDistance_of_a_above_one M _ _ _ _
    (nearAntipodal_haversineA_swapped M hsin1r hcos1 hcos2 hsin2r)
  rw [hd, hr]
  exact ⟨rfl, rfl, by decide!⟩

/-- Witness of C10: the library that holds the values of the run. -/
theorem C10_near_antipodal_not_equal_witness :
    antipodalMath.sin (ofRat (-0.24188518103389411)) = ofRat (-0.23953335088375327) ∧
    antipodalMath.sin (ofRat 0.24188518103389411) = ofRat 0.23953335088375327 ∧
    antipodalMath.cos (ofRat 0.24188518103389411) = ofRat 0.9708881366122468 ∧
    antipodalMath.cos (ofRat (-0.24188518103389411)) = ofRat 0.9708881366122468 ∧
    antipodalMath.sin (ofRat 1.5707963267948966) = ofRat 1 ∧
    antipodalMath.sin (ofRat (-1.5707963267948966)) = ofRat (-1) ∧
    F64.equals
      (IEEE.calculateDistance antipodalMath (ofRat 13.859) (ofRat (-55.556)) (ofRat (-13.859))
        (ofRat 124.444))
      (IEEE.calculateDistance antipodalMath (ofRat (-13.859)) (ofRat 124.444) (ofRat 13.859)
        (ofRat (-55.556))) = false :=
  ⟨by decide!, by decide!, by decide!, by decide!, by decide!, by decide!,
    (C10_near_antipodal_not_equal antipodalMath (by decide!) (by decide!) (by decide!)
      (by decide!) (by decide!) (by decide!)).2.2⟩

theorem Math_asin_ordinary (M : MathLib) (x : F64) (hx : x.isOrdinary = true)
    (h1 : F64.le x.abs (ofRat 1) = true) : Math.asin M x = M.asin x := by
  have hone : ofRat 1 = F64.fin false (2 ^ 52) (-52) := by decide!
  cases x with
  | nan => simp [F64.isOrdinary] at hx
  | inf s => simp [F64.isOrdinary] at hx
  | fin s m e =>
    simp only [F64.isOrdinary, decide_eq_true_eq] at hx
    rw [hone] at h1
    simp only [F64.abs] at h1
    simp only [Math.asin]
    rw [if_neg hx, if_pos h1]

theorem Math_atan2_ordinary (M : MathLib) (y x : F64) (hy : y ≠ F64.nan) (hx : x ≠ F64.nan) :
    Math.atan2 M y x = M.atan2 y x := by
  cases y <;> cases x <;> first | rfl | exact absurd rfl hy | exact absurd rfl hx

/-- The coordinate generated at the origin (40, -74) for the draws 0.9999999999999999 and 0.25:
the drawn angular distance is 0.0007848061528802385, the bearing 1.5707963267948966. -/
theorem fallbackRun_coordinate (M : MathLib)
    (hs1 : M.sin (ofRat 0.6981317007977318) = ofRat 0.6427876096865393)
    (hc1 : M.cos (ofRat 0.0007848061528802385) = ofRat 0.999999692039667)
    (hc2 : M.cos (ofRat 0.6981317007977318) = ofRat 0.766044443118978)
    (hs2 : M.sin (ofRat 0.0007848061528802385) = ofRat 0.0007848060723171822)
    (hc3 : M.cos (ofRat 1.5707963267948966) = ofRat 6.123233995736766e-17)
    (has : M.asin (ofRat 0.6427874117334529) = ofRat 0.6981314423883579)
    (hs3 : M.sin (ofRat 1.5707963267948966) = ofRat 1)
    (hs4 : M.sin (ofRat 0.6981314423883579) = ofRat 0.6427874117334529)
    (hat : M.atan2 (ofRat 0.0006011963306246082) (ofRat 0.5868239081149235) =
      ofRat 0.0010244915245882062) :
    IEEE.generateNearbyCoordinate M (ofRat 40) (ofRat (-74)) (ofRat 5)
        (ofRat 0.9999999999999999) (ofRat 0.25) =
      (ofRat 39.99998519423349, ofRat (-73.94130095949417)) := by
  have e1 : F64.div (F64.mul (ofRat 40) PI) (ofRat 180) = ofRat 0.6981317007977318 := by
    decide!
  have e2 : F64.mul (ofRat 0.9999999999999999) (F64.div (ofRat 5) (ofRat 6371)) =
      ofRat 0.0007848061528802385 := by decide!
  have e3 : F64.mul (F64.mul (ofRat 0.25) (ofRat 2)) PI = ofRat 1.5707963267948966 := by
    decide!
  have e4 : F64.add (F64.mul (ofRat 0.6427876096865393) (ofRat 0.999999692039667))
      (F64.mul (F64.mul (ofRat 0.766044443118978) (ofRat 0.0007848060723171822))
        (ofRat 6.123233995736766e-17)) = ofRat 0.6427874117334529 := by decide!
  have e5 : F64.div (F64.mul (F64.div (F64.mul (ofRat 0.6981314423883579) (ofRat 180)) PI) PI)
      (ofRat 180) = ofRat 0.6981314423883579 := by decide!
  have e6 : F64.mul (F64.mul (ofRat 1) (ofRat 0.0007848060723171822))
      (ofRat 0.766044443118978) = ofRat 0.0006011963306246082 := by decide!
  have e7 : F64.sub (ofRat 0.999999692039667)
      (F64.mul (ofRat 0.6427876096865393) (ofRat 0.6427874117334529)) =
      ofRat 0.5868239081149235 := by decide!
  have e8 : F64.div (F64.mul (ofRat 0.6981314423883579) (ofRat 180)) PI =
      ofRat 39.99998519423349 := by decide!
  have e9 : F64.div (F64.mul (F64.add (F64.div (F64.mul (ofRat (-74)) PI) (ofRat 180))
      (ofRat 0.0010244915245882062)) (ofRat 180)) PI = ofRat (-73.94130095949417) := by
    decide!
  simp only [IEEE.generateNearbyCoordinate]
  rw [e1, e2, e3, Math_sin_ordinary M _ (by decide!), Math_sin_ordinary M _ (by decide!),
    Math_sin_ordinary M _ (by decide!), Math_cos_ordinary M _ (by decide!),
    Math_cos_ordinary M _ (by decide!), Math_cos_ordinary M _ (by decide!), hs1, hc1, hc2, hs2,
    hc3, hs3, e4, Math_asin_ordinary M _ (by decide!) (by decide!), has, e5,
    Math_sin_ordinary M _ (by decide!), hs4, e6, e7,
    Math_atan2_ordinary M _ _ (by decide!) (by decide!), hat, e8, e9]

/-- The distance measured from the origin (40, -74) to the coordinate of the fallback run:
`a` is 1.539801664963792e-07 and `R * c` is 5.000000000000114. -/
theorem fallbackRun_distance (M : MathLib)
    (hc2 : M.cos (ofRat 0.6981317007977318) = ofRat 0.766044443118978)
    (hs5 : M.sin (ofRat (-1.2920468695335085e-07)) = ofRat (-1.2920468695335048e-07))
    (hc4 : M.cos (ofRat 0.6981314423883579) = ofRat 0.7660446092212962)
    (hs6 : M.sin (ofRat 0.0005122457622941147) = ofRat 0.0005122457398922657)
    (hat2 : M.atan2 (ofRat 0.0003924030663697459) (ofRat 0.9999999230099138) =
      ofRat 0.0003924030764401282) :
    IEEE.calculateDistance M (ofRat 40) (ofRat (-74)) (ofRat 39.99998519423349)
        (ofRat (-73.94130095949417)) = ofRat 5.000000000000114 := by
  have e1 : F64.div (F64.div (F64.mul (F64.sub (ofRat 39.99998519423349) (ofRat 40)) PI)
      (ofRat 180)) (ofRat 2) = ofRat (-1.2920468695335085e-07) := by decide!
  have e2 : F64.div (F64.div (F64.mul (F64.sub (ofRat (-73.94130095949417)) (ofRat (-74))) PI)
      (ofRat 180)) (ofRat 2) = ofRat 0.0005122457622941147 := by decide!
  have e3 : F64.div (F64.mul (ofRat 40) PI) (ofRat 180) = ofRat 0.6981317007977318 := by
    decide!
  have e4 : F64.div (F64.mul (ofRat 39.99998519423349) PI) (ofRat 180) =
      ofRat 0.6981314423883579 := by decide!
  have e5 : F64.add
      (F64.mul (ofRat (-1.2920468695335048e-07)) (ofRat (-1.2920468695335048e-07)))
      (F64.mul (F64.mul (F64.mul (ofRat 0.766044443118978) (ofRat 0.7660446092212962))
        (ofRat 0.0005122457398922657)) (ofRat 0.0005122457398922657)) =
      ofRat 1.539801664963792e-07 := by decide!
  have e6 : F64.sqrt (ofRat 1.539801664963792e-07) = ofRat 0.0003924030663697459 := by
    decide!
  have e7 : F64.sqrt (F64.sub (ofRat 1) (ofRat 1.539801664963792e-07)) =
      ofRat 0.9999999230099138 := by decide!
  have e8 : F64.mul (ofRat 6371) (F64.mul (ofRat 2) (ofRat 0.0003924030764401282)) =
      ofRat 5.000000000000114 := by decide!
  simp only [IEEE.calculateDistance, IEEE.haversineA]
  rw [e1, e2, e3, e4, Math_sin_ordinary M _ (by decide!), Math_sin_ordinary M _ (by decide!),
    Math_cos_ordinary M _ (by decide!), Math_cos_ordinary M _ (by decide!), hc2, hs5, hc4, hs6,
    e5, e6, e7, Math_atan2_ordinary M _ _ (by decide!) (by decide!), hat2, e8]

/-- C19, evaluation at the failing input: at the origin (40, -74), for the draws
0.9999999999999999 and 0.25 and every math library that returns at the angles of this run the
doubles nearest to the exact values, `generateNearbyCoordinate` returns
(39.99998519423349, -73.94130095949417) and `calculateDistance` measures 5.000000000000114 from
the origin to it, which is not `<= 5`. -/
theorem C19_fallback_beyond_radius (M : MathLib)
    (hs1 : M.sin (ofRat 0.6981317007977318) = ofRat 0.6427876096865393)
    (hc1 : M.cos (ofRat 0.0007848061528802385) = ofRat 0.999999692039667)
    (hc2 : M.cos (ofRat 0.6981317007977318) = ofRat 0.766044443118978)
    (hs2 : M.sin (ofRat 0.0007848061528802385) = ofRat 0.0007848060723171822)
    (hc3 : M.cos (ofRat 1.5707963267948966) = ofRat 6.123233995736766e-17)
    (has : M.asin (ofRat 0.6427874117334529) = ofRat 0.6981314423883579)
    (hs3 : M.sin (ofRat 1.5707963267948966) = ofRat 1)
    (hs4 : M.sin (ofRat 0.6981314423883579) = ofRat 0.6427874117334529)
    (hat : M.atan2 (ofRat 0.0006011963306246082) (ofRat 0.5868239081149235) =
      ofRat 0.0010244915245882062)
    (hs5 : M.sin (ofRat (-1.2920468695335085e-07)) = ofRat (-1.2920468695335048e-07))
    (hc4 : M.cos (ofRat 0.6981314423883579) = ofRat 0.7660446092212962)
    (hs6 : M.sin (ofRat 0.0005122457622941147) = ofRat 0.0005122457398922657)
    (hat2 : M.atan2 (ofRat 0.0003924030663697459) (ofRat 0.9999999230099138) =
      ofRat 0.0003924030764401282) :
    F64.le (ofRat 0) (ofRat 0.9999999999999999) = true ∧
    F64.le (ofRat 1) (ofRat 0.9999999999999999) = false ∧
    IEEE.generateNearbyCoordinate M (ofRat 40) (ofRat (-74)) (ofRat 5)
        (ofRat 0.9999999999999999) (ofRat 0.25) =
      (ofRat 39.99998519423349, ofRat (-73.94130095949417)) ∧
    IEEE.calculateDistance M (ofRat 40) (ofRat (-74))
        (IEEE.generateNearbyCoordinate M (ofRat 40) (ofRat (-74)) (ofRat 5)
          (ofRat 0.9999999999999999) (ofRat 0.25)).1
        (IEEE.generateNearbyCoordinate M (ofRat 40) (ofRat (-74)) (ofRat 5)
          (ofRat 0.9999999999999999) (ofRat 0.25)).2 = ofRat 5.000000000000114 ∧
    F64.le
      (IEEE.calculateDistance M (ofRat 40) (ofRat (-74))
        (IEEE.generateNearbyCoordinate M (ofRat 40) (ofRat (-74)) (ofRat 5)
          (ofRat 0.9999999999999999) (ofRat 0.25)).1
        (IEEE.generateNearbyCoordinate M (ofRat 40) (ofRat (-74)) (ofRat 5)
          (ofRat 0.9999999999999999) (ofRat 0.25)).2)
      (ofRat 5) = false := by
  have hg := fallbackRun_coordinate M hs1 hc1 hc2 hs2 hc3 has hs3 hs4 hat
  have hd := fallbackRun_distance M hc2 hs5 hc4 hs6 hat2
  rw [hg]
  simp only [hd]
  exact ⟨by decide!, by decide!, trivial, trivial, by decide!⟩

/-- Witness of C19: the library that holds the values of the run. -/
theorem C19_fallback_beyond_radius_witness :
    fallbackMath.sin (ofRat 0.6981317007977318) = ofRat 0.6427876096865393 ∧
    fallbackMath.cos (ofRat 0.0007848061528802385) = ofRat 0.999999692039667 ∧
    fallbackMath.cos (ofRat 0.6981317007977318) = ofRat 0.766044443118978 ∧
    fallbackMath.sin (ofRat 0.0007848061528802385) = ofRat 0.0007848060723171822 ∧
    fallbackMath.cos (ofRat 1.5707963267948966) = ofRat 6.123233995736766e-17 ∧
    fallbackMath.asin (ofRat 0.6427874117334529) = ofRat 0.6981314423883579 ∧
    fallbackMath.sin (ofRat 1.5707963267948966) = ofRat 1 ∧
    fallbackMath.sin (ofRat 0.6981314423883579) = ofRat 0.6427874117334529 ∧
    fallbackMath.atan2 (ofRat 0.0006011963306246082) (ofRat 0.5868239081149235) =
      ofRat 0.0010244915245882062 ∧
    fallbackMath.sin (ofRat (-1.2920468695335085e-07)) = ofRat (-1.2920468695335048e-07) ∧
    fallbackMath.cos (ofRat 0.6981314423883579) = ofRat 0.7660446092212962 ∧
    fallbackMath.sin (ofRat 0.0005122457622941147) = ofRat 0.0005122457398922657 ∧
    fallbackMath.atan2 (ofRat 0.0003924030663697459) (ofRat 0.9999999230099138) =
      ofRat 0.0003924030764401282 ∧
    IEEE.generateNearbyCoordinate fallbackMath (ofRat 40) (ofRat (-74)) (ofRat 5)
        (ofRat 0.9999999999999999) (ofRat 0.25) =
      (ofRat 39.99998519423349, ofRat (-73.94130095949417)) :=
  ⟨by decide!, by decide!, by decide!, by decide!, by decide!, by decide!, by decide!,
    by decide!, by decide!, by decide!, by decide!, by decide!, by decide!,
    (C19_fallback_beyond_radius fallbackMath (by decide!) (by decide!) (by decide!)
      (by decide!) (by decide!) (by decide!) (by decide!) (by decide!) (by decide!)
      (by decide!) (by decide!) (by decide!) (by decide!)).2.2.1⟩

end DoubleDistance

end TapFindNearBy
